import Mathlib

set_option linter.unusedVariables false
set_option linter.constructorNameAsVariable false

/-!
# Shenandoah C2 barrier set: a verification development

A shallow embedding of `src/hotspot/share/gc/shenandoah/c2/shenandoahBarrierSetC2.cpp`.

* A C++ `Node*` is a value of the type `Node`: a term whose constructor is the node's
  class and whose arguments are its inputs; `Node.NULL` is the C++ null pointer.
  Pointer equality is equality of terms (what value numbering makes of it).
* Host services that the file calls but does not define (value numbering, type queries,
  the generic access lowering, alias analysis helpers) are fields of the structure `Host`.
* Stateful code passes its state explicitly; an `assert` that fails, an access to a
  growable array outside its bounds, or a member access through a pointer that the code
  has just found to be `NULL`, makes the function return `none`.
* The build modelled is a 64-bit one (`_LP64` defined).
-/

namespace Shenandoah

/-! ## Basic types of the host compiler -/

/-- The values of `BasicType` that the file distinguishes. -/
inductive BasicType where
  | T_BOOLEAN | T_CHAR | T_FLOAT | T_DOUBLE | T_BYTE | T_SHORT | T_INT | T_LONG
  | T_OBJECT | T_ARRAY | T_VOID | T_ADDRESS | T_NARROWOOP
  deriving DecidableEq, Repr

/-- The node opcodes that the file distinguishes. -/
inductive Opcode where
  | Op_Node | Op_Top | Op_ConP | Op_ConI | Op_ConL | Op_ThreadLocal | Op_Parm
  | Op_AddP | Op_LoadB | Op_LoadL | Op_LoadP | Op_AndI | Op_SubL
  | Op_EncodeP | Op_DecodeN
  | Op_ShenandoahEnqueueBarrier | Op_ShenandoahLoadReferenceBarrier
  | Op_CompareAndSwapP | Op_CompareAndSwapN
  | Op_WeakCompareAndSwapP | Op_WeakCompareAndSwapN
  | Op_CompareAndExchangeP | Op_CompareAndExchangeN
  | Op_ShenandoahCompareAndSwapP | Op_ShenandoahCompareAndSwapN
  | Op_ShenandoahWeakCompareAndSwapP | Op_ShenandoahWeakCompareAndSwapN
  | Op_ShenandoahCompareAndExchangeP | Op_ShenandoahCompareAndExchangeN
  | Op_StoreP | Op_Proj | Op_Initialize | Op_Allocate
  | Op_CallLeaf | Op_CallLeafNoFP | Op_MemBarCPUOrder | Op_CmpP | Op_If | Op_ArrayCopy
  deriving DecidableEq, Repr

/-- A `const Type*` of the host type lattice: the constants the file names, and any other
type by a number. -/
inductive Ty where
  | NULL_PTR
  | TypeInt_BYTE
  | TypeX_X
  | TypeRawPtr_NOTNULL
  | TypeRawPtr_BOTTOM
  | TypeInstPtr_NOTNULL
  | other (id : Nat)
  deriving DecidableEq, Repr

/-- The memory ordering tag of a memory node (`MemNode::MemOrd`). -/
inductive MemOrd where
  | unordered | acquire | release | seqcst
  deriving DecidableEq, Repr

/-- The entry points of the runtime that leaf calls of this file target. -/
inductive Address where
  | write_ref_field_pre_entry
  | shenandoah_clone_barrier
  | load_reference_barrier_JRT
  | other (id : Nat)
  deriving DecidableEq, Repr

/-- A `TypeTuple`: `cnt` is the count given to `TypeTuple::make`, `fields` are the entries
that the file writes, those from index `TypeFunc::Parms` on (`fields[TypeFunc::Parms + i]`
is element `i` of the list). -/
structure TypeTuple where
  cnt : Nat
  fields : List Ty
  deriving DecidableEq, Repr

/-- A `TypeFunc`: the tuple of the parameters and the tuple of the results. -/
structure TypeFunc where
  domain : TypeTuple
  range : TypeTuple
  deriving DecidableEq, Repr

/-- The kinds of an `ArrayCopyNode` (the enumeration of opto/arraycopynode.hpp, of which
the file tests `CloneBasic` through `is_clonebasic()`). -/
inductive ArrayCopyKind where
  | None | ArrayCopy | CloneBasic | CloneOop | CopyOf | CopyOfRange
  deriving DecidableEq, Repr

/-- A C++ `Node*`. The constructor is the node class, the arguments are the inputs that
the file reads or writes; `NULL` is the null pointer and `Parm` stands for any node of
the host graph whose class the file does not inspect. `CallLeaf` is a leaf call with two
parameters made by `IdealKit::make_leaf_call`, whose control, i_o, memory, frame pointer
and return address are those of the place where the statement stands, with the place
for one more input after the parameters; `CallLeafNode` is a leaf call with one parameter
made by `new CallLeafNode` and `init_req`, with all its inputs. -/
inductive Node where
  | NULL
  | top
  | ConP_null
  | ConI (con : Int)
  | ConX (con : Int)
  | ThreadLocal
  | Parm (idx : Nat)
  | AddP (base address offset : Node)
  | Load (adr : Node) (t : Option Ty) (bt : BasicType) (adr_idx : Nat)
  | AndI (in1 in2 : Node)
  | SubX (in1 in2 : Node)
  | EncodeP (value : Node) (t : Ty)
  | DecodeN (value : Node) (t : Ty)
  | ShenandoahEnqueueBarrier (val : Node)
  | ShenandoahLoadReferenceBarrier (ctrl val : Node)
  | LoadStoreConditional (op : Opcode) (ctrl mem adr newval oldval : Node) (mo : MemOrd)
  | CompareAndExchange (op : Opcode) (ctrl mem adr newval oldval : Node) (adr_type t : Ty)
      (mo : MemOrd)
  | Store (mem adr val : Node) (memory_size : Int)
  | Proj (in0 : Node) (con : Nat)
  | Initialize (idx : Nat)
  | Allocate (idx : Nat)
  | CallLeaf (entry_point : Address) (name : String) (parm0 parm1 extra : Node)
  | CallLeafNode (tf : TypeFunc) (entry_point : Address) (name : String) (adr_type : Ty)
      (control i_o memory frame_ptr return_adr parm0 : Node)
  | ArrayCopy (kind : ArrayCopyKind) (src dest : Node)
  | CmpP (in1 in2 : Node)
  | If (in0 in1 : Node)
  deriving DecidableEq, Repr

namespace Node

/-- The `Opcode()` of a node. -/
def Opcode : Node → Shenandoah.Opcode
  | NULL => .Op_Node
  | top => .Op_Top
  | ConP_null => .Op_ConP
  | ConI _ => .Op_ConI
  | ConX _ => .Op_ConL
  | ThreadLocal => .Op_ThreadLocal
  | Parm _ => .Op_Parm
  | AddP _ _ _ => .Op_AddP
  | Load _ _ bt _ =>
      if bt = .T_BYTE then .Op_LoadB else if bt = .T_LONG then .Op_LoadL else .Op_LoadP
  | AndI _ _ => .Op_AndI
  | SubX _ _ => .Op_SubL
  | EncodeP _ _ => .Op_EncodeP
  | DecodeN _ _ => .Op_DecodeN
  | ShenandoahEnqueueBarrier _ => .Op_ShenandoahEnqueueBarrier
  | ShenandoahLoadReferenceBarrier _ _ => .Op_ShenandoahLoadReferenceBarrier
  | LoadStoreConditional op _ _ _ _ _ _ => op
  | CompareAndExchange op _ _ _ _ _ _ _ _ => op
  | Store _ _ _ _ => .Op_StoreP
  | Proj _ _ => .Op_Proj
  | Initialize _ => .Op_Initialize
  | Allocate _ => .Op_Allocate
  | CallLeaf _ _ _ _ _ => .Op_CallLeaf
  | CallLeafNode _ _ _ _ _ _ _ _ _ _ => .Op_CallLeaf
  | ArrayCopy _ _ _ => .Op_ArrayCopy
  | CmpP _ _ => .Op_CmpP
  | If _ _ => .Op_If

/-- Modelled from the spec: `Node::in(i)` (opto/node.hpp is not among the sources), the
input `i` of a node, `NULL` where the node has no such input. The indices are those of the
node classes: `AddPNode::Base = 1`, `Address = 2`, `Offset = 3`;
`MemNode::Memory = 1`, `Address = 2`, `ValueIn = 3`; `LoadStoreConditionalNode::ExpectedIn
= 4`; `ShenandoahLoadReferenceBarrierNode::ValueIn = 1`; `TypeFunc::Control = 0`, `I_O = 1`,
`Memory = 2`, `FramePtr = 3`, `ReturnAdr = 4`, `Parms = 5`; `ArrayCopyNode::Src = 5`,
`Dest = 7`. -/
def in_ (n : Node) (i : Nat) : Node :=
  match n with
  | AddP base address offset =>
    match i with
    | 1 => base
    | 2 => address
    | 3 => offset
    | _ => NULL
  | Load adr _ _ _ =>
    match i with
    | 2 => adr
    | _ => NULL
  | AndI in1 in2 =>
    match i with
    | 1 => in1
    | 2 => in2
    | _ => NULL
  | SubX in1 in2 =>
    match i with
    | 1 => in1
    | 2 => in2
    | _ => NULL
  | EncodeP value _ =>
    match i with
    | 1 => value
    | _ => NULL
  | DecodeN value _ =>
    match i with
    | 1 => value
    | _ => NULL
  | ShenandoahEnqueueBarrier val =>
    match i with
    | 1 => val
    | _ => NULL
  | ShenandoahLoadReferenceBarrier ctrl val =>
    match i with
    | 0 => ctrl
    | 1 => val
    | _ => NULL
  | LoadStoreConditional _ ctrl mem adr newval oldval _ =>
    match i with
    | 0 => ctrl
    | 1 => mem
    | 2 => adr
    | 3 => newval
    | 4 => oldval
    | _ => NULL
  | CompareAndExchange _ ctrl mem adr newval oldval _ _ _ =>
    match i with
    | 0 => ctrl
    | 1 => mem
    | 2 => adr
    | 3 => newval
    | 4 => oldval
    | _ => NULL
  | Store mem adr val _ =>
    match i with
    | 1 => mem
    | 2 => adr
    | 3 => val
    | _ => NULL
  | Proj in0 _ =>
    match i with
    | 0 => in0
    | _ => NULL
  | CallLeaf _ _ parm0 parm1 extra =>
    match i with
    | 5 => parm0
    | 6 => parm1
    | 7 => extra
    | _ => NULL
  | CallLeafNode _ _ _ _ control i_o memory frame_ptr return_adr parm0 =>
    match i with
    | 0 => control
    | 1 => i_o
    | 2 => memory
    | 3 => frame_ptr
    | 4 => return_adr
    | 5 => parm0
    | _ => NULL
  | ArrayCopy _ src dest =>
    match i with
    | 5 => src
    | 7 => dest
    | _ => NULL
  | CmpP in1 in2 =>
    match i with
    | 1 => in1
    | 2 => in2
    | _ => NULL
  | If in0 in1 =>
    match i with
    | 0 => in0
    | 1 => in1
    | _ => NULL
  | _ => NULL

/-- The class test `is_AddP()`. -/
def is_AddP : Node → Bool
  | AddP _ _ _ => true
  | _ => false

/-- The class test `is_Store()`. -/
def is_Store : Node → Bool
  | Store _ _ _ _ => true
  | _ => false

/-- The class test `is_Proj()`. -/
def is_Proj : Node → Bool
  | Proj _ _ => true
  | _ => false

/-- The class test `is_Initialize()`. -/
def is_Initialize : Node → Bool
  | Initialize _ => true
  | _ => false

/-- The class test `is_CallLeaf()`. -/
def is_CallLeaf : Node → Bool
  | CallLeaf _ _ _ _ _ => true
  | CallLeafNode _ _ _ _ _ _ _ _ _ _ => true
  | _ => false

/-- The class test `is_Call()`; the leaf calls are the calls of the model. -/
def is_Call : Node → Bool
  | CallLeaf _ _ _ _ _ => true
  | CallLeafNode _ _ _ _ _ _ _ _ _ _ => true
  | _ => false

/-- The test `ArrayCopyNode::is_clonebasic()`. -/
def is_clonebasic : Node → Bool
  | ArrayCopy kind _ _ => kind = ArrayCopyKind.CloneBasic
  | _ => false

end Node

/-- Modelled from the spec: `AddPNode::Offset` (opto/addnode.hpp is not among the sources). -/
def AddPNode.Offset : Nat := 3

/-- Modelled from the spec: `ShenandoahLoadReferenceBarrierNode::ValueIn`
(shenandoahSupport.hpp is not among the sources), the one value input of the barrier. -/
def ShenandoahLoadReferenceBarrierNode.ValueIn : Nat := 1

/-! ## The growable array of the host -/

namespace GrowableArray

/-- Modelled from the spec: `GrowableArray<E>::contains` (utilities/growableArray.hpp is
not among the sources); the registry's collections are ordered sequences, and `contains`
tells whether an element occurs in one. -/
def contains (a : List Node) (n : Node) : Bool := a.elem n

/-- Modelled from the spec: `GrowableArray<E>::append`, which adds the element at the
end of the sequence. -/
def append (a : List Node) (n : Node) : List Node := a ++ [n]

/-- Modelled from the spec: `GrowableArray<E>::remove`, which deletes the first
occurrence of the element and moves the later elements one index down. -/
def remove (a : List Node) (n : Node) : List Node := a.erase n

/-- Modelled from the spec: `GrowableArray<E>::at`, positional read access, which is
defined for the indices below `length()` only. -/
def at_ (a : List Node) (i : Nat) : Option Node := a[i]?

end GrowableArray

/-! ## The barrier state registry (`ShenandoahBarrierSetC2State`) -/

/-- The per-compilation registry: the two growable arrays of barrier nodes. -/
structure ShenandoahBarrierSetC2State where
  _enqueue_barriers : List Node
  _load_reference_barriers : List Node
  deriving DecidableEq, Repr

namespace ShenandoahBarrierSetC2State

/-- The constructor: both arrays start empty. -/
def create : ShenandoahBarrierSetC2State := ⟨[], []⟩

def enqueue_barriers_count (s : ShenandoahBarrierSetC2State) : Nat :=
  s._enqueue_barriers.length

def enqueue_barrier (s : ShenandoahBarrierSetC2State) (idx : Nat) : Option Node :=
  GrowableArray.at_ s._enqueue_barriers idx

/-- Appends `n`; the `assert` of the source makes a duplicate insertion a fault. -/
def add_enqueue_barrier (s : ShenandoahBarrierSetC2State) (n : Node) :
    Option ShenandoahBarrierSetC2State :=
  if GrowableArray.contains s._enqueue_barriers n then none
  else some { s with _enqueue_barriers := GrowableArray.append s._enqueue_barriers n }

def remove_enqueue_barrier (s : ShenandoahBarrierSetC2State) (n : Node) :
    ShenandoahBarrierSetC2State :=
  if GrowableArray.contains s._enqueue_barriers n then
    { s with _enqueue_barriers := GrowableArray.remove s._enqueue_barriers n }
  else s

def load_reference_barriers_count (s : ShenandoahBarrierSetC2State) : Nat :=
  s._load_reference_barriers.length

def load_reference_barrier (s : ShenandoahBarrierSetC2State) (idx : Nat) : Option Node :=
  GrowableArray.at_ s._load_reference_barriers idx

/-- Appends `n`; the `assert` of the source makes a duplicate insertion a fault. -/
def add_load_reference_barrier (s : ShenandoahBarrierSetC2State) (n : Node) :
    Option ShenandoahBarrierSetC2State :=
  if GrowableArray.contains s._load_reference_barriers n then none
  else some { s with
    _load_reference_barriers := GrowableArray.append s._load_reference_barriers n }

def remove_load_reference_barrier (s : ShenandoahBarrierSetC2State) (n : Node) :
    ShenandoahBarrierSetC2State :=
  if GrowableArray.contains s._load_reference_barriers n then
    { s with _load_reference_barriers := GrowableArray.remove s._load_reference_barriers n }
  else s

end ShenandoahBarrierSetC2State

/-- The part of `Compile` that the file reads and writes: the barrier set state and the
list of nodes recorded for the next round of iterative value numbering. -/
structure Compile where
  barrier_set_state : ShenandoahBarrierSetC2State
  for_igvn : List Node
  deriving DecidableEq, Repr

namespace Compile

/-- Modelled from the spec: `Compile::record_for_igvn` (opto/compile.hpp is not among the
sources), which puts the node on the list for iterative value numbering. -/
def record_for_igvn (C : Compile) (n : Node) : Compile :=
  { C with for_igvn := C.for_igvn ++ [n] }

end Compile

/-- A `Unique_Node_List`: `member` tells whether a node is in it, `at` reads by index. -/
abbrev Unique_Node_List := List Node

namespace Unique_Node_List

/-- Modelled from the spec: `Unique_Node_List::member` (opto/node.hpp is not among the
sources), membership in the live set. -/
def member (useful : Unique_Node_List) (n : Node) : Bool := useful.elem n

end Unique_Node_List

namespace ShenandoahBarrierSetC2

def is_shenandoah_wb_pre_call (call : Node) : Bool :=
  match call with
  | .CallLeaf entry_point _ _ _ _ => entry_point = Address.write_ref_field_pre_entry
  | .CallLeafNode _ entry_point _ _ _ _ _ _ _ _ =>
    entry_point = Address.write_ref_field_pre_entry
  | _ => false

/-- The uses of `n` are given by `fast_outs`, the def-use edges of the host graph. -/
def has_only_shenandoah_wb_pre_uses (fast_outs : Node → List Node) (n : Node) : Bool :=
  (fast_outs n).all is_shenandoah_wb_pre_call && decide (0 < (fast_outs n).length)

/-- The first loop of `eliminate_useless_gc_barriers`: the users of every useful address
node that only SATB slow-path calls use are recorded for value numbering. -/
def record_useful_addp_users (fast_outs : Node → List Node) (useful : Unique_Node_List)
    (C : Compile) : Compile :=
  useful.foldl (fun C n =>
    if n.Opcode = .Op_AddP ∧ has_only_shenandoah_wb_pre_uses fast_outs n = true then
      (fast_outs n).foldl Compile.record_for_igvn C
    else C) C

/-- The second loop of `eliminate_useless_gc_barriers`, entered with `i + 1` for the loop
variable `i`: it reads the enqueue barrier at index `i`, removes it when it is not
useful, and goes on with `i - 1` until `i < 0`. -/
def sweep_enqueue_barriers (useful : Unique_Node_List) :
    Nat → ShenandoahBarrierSetC2State → Option ShenandoahBarrierSetC2State
  | 0, s => some s
  | i + 1, s =>
    match s.enqueue_barrier i with
    | none => none
    | some n =>
      sweep_enqueue_barriers useful i
        (if !useful.member n then s.remove_enqueue_barrier n else s)

/-- The third loop of `eliminate_useless_gc_barriers`, over the load reference barriers. -/
def sweep_load_reference_barriers (useful : Unique_Node_List) :
    Nat → ShenandoahBarrierSetC2State → Option ShenandoahBarrierSetC2State
  | 0, s => some s
  | i + 1, s =>
    match s.load_reference_barrier i with
    | none => none
    | some n =>
      sweep_load_reference_barriers useful i
        (if !useful.member n then s.remove_load_reference_barrier n else s)

def eliminate_useless_gc_barriers (fast_outs : Node → List Node) (useful : Unique_Node_List)
    (C : Compile) : Option Compile :=
  let C1 := record_useful_addp_users fast_outs useful C
  match sweep_enqueue_barriers useful C1.barrier_set_state.enqueue_barriers_count
      C1.barrier_set_state with
  | none => none
  | some s1 =>
    match sweep_load_reference_barriers useful s1.load_reference_barriers_count s1 with
    | none => none
    | some s2 => some { C1 with barrier_set_state := s2 }

end ShenandoahBarrierSetC2

/-! ## Flags, access descriptors and host services -/

/-- The command-line flags that the file reads. -/
structure Flags where
  ShenandoahSATBBarrier : Bool
  ShenandoahStoreValEnqueueBarrier : Bool
  ShenandoahLoadRefBarrier : Bool
  ShenandoahCASBarrier : Bool
  ShenandoahKeepAliveBarrier : Bool
  ReduceInitialCardMarks : Bool
  VerifyOptoOopOffsets : Bool
  deriving DecidableEq, Repr

/-- Modelled from the spec: the decorator bit masks (oops/accessDecorators.hpp is not
among the sources). Each decorator that the file tests is one bit of the set, so a
`DecoratorSet` is one Boolean per decorator and `(decorators & D) != 0` is the field `D`. -/
structure DecoratorSet where
  ON_UNKNOWN_OOP_REF : Bool
  ON_WEAK_OOP_REF : Bool
  IN_HEAP : Bool
  MO_UNORDERED : Bool
  C2_MISMATCHED : Bool
  C2_WEAK_CMPXCHG : Bool
  C2_TIGHTLY_COUPLED_ALLOC : Bool
  C2_ARRAY_COPY : Bool
  deriving DecidableEq, Repr

/-- A `C2Access`: what the file reads of an access descriptor. `addr_node` and
`addr_type` are `addr().node()` and `addr().type()`. -/
structure C2Access where
  decorators : DecoratorSet
  addr_node : Node
  addr_type : Ty
  base : Node
  type : BasicType
  is_oop : Bool
  is_parse_access : Bool
  is_opt_access : Bool
  deriving DecidableEq, Repr

/-- A `C2AccessValue`: the node of the value to store and its type. -/
structure C2AccessValue where
  node : Node
  type : Ty
  deriving DecidableEq, Repr

namespace C2AccessValue

/-- Modelled from the spec: `C2AccessValue::set_node` (gc/shared/c2/barrierSetC2.hpp is
not among the sources). -/
def set_node (val : C2AccessValue) (n : Node) : C2AccessValue := { val with node := n }

end C2AccessValue

/-- A `C2AtomicParseAccess`: a parse access with the memory state of the atomic
operation, its memory ordering and the raw access node once it is set. -/
structure C2AtomicParseAccess extends C2Access where
  memory : Node
  mem_node_mo : MemOrd
  raw_access : Node
  deriving DecidableEq, Repr

namespace C2AtomicParseAccess

/-- Modelled from the spec: `C2AtomicParseAccess::set_raw_access`
(gc/shared/c2/barrierSetC2.hpp is not among the sources). -/
def set_raw_access (access : C2AtomicParseAccess) (n : Node) : C2AtomicParseAccess :=
  { access with raw_access := n }

end C2AtomicParseAccess

/-- The relation of a `BoolTest`. -/
inductive BoolTest where
  | eq | ne
  deriving DecidableEq, Repr

/-- The branch probabilities that the file uses: `PROB_LIKELY(0.999)`,
`PROB_UNLIKELY(0.999)` and the default of `IdealKit::if_then`. -/
inductive Prob where
  | prob_likely | prob_unlikely | prob_fair
  deriving DecidableEq, Repr

/-- Modelled from the spec: the control flow that `IdealKit` and `GraphKit` (opto/idealKit.hpp
and opto/graphKit.hpp are not among the sources) emit at the current control, as a
structured statement after the template of section 4.3. `load n` is the place where the load node `n` is made (it reads
the memory state of that place); `if_then` carries the block of the taken branch and,
when `else_()` was called, the block of the other branch. -/
inductive Stmt where
  | load (n : Node)
  | store (adr val : Node) (bt : BasicType) (adr_idx : Nat) (mo : MemOrd)
  | make_leaf_call (call : Node)
  | insert_mem_bar (op : Opcode)
  | gen_instanceof (obj superklass : Node)
  | if_then (left : Node) (relop : BoolTest) (right : Node) (prob : Prob)
      (then_ : List Stmt) (else_ : Option (List Stmt))
  deriving Repr

/-- The state of a `GraphKit` (for an optimization-time access, of its `PhaseGVN`): the
control flow emitted so far, in program order, and the new nodes handed to
`gvn().transform`, in order. -/
structure GraphKit where
  emitted : List Stmt
  transformed : List Node
  deriving Repr

/-- The result of `find_intptr_t_type()` when it is not `NULL`. -/
structure TypeX where
  is_con : Bool
  get_con : Int
  deriving DecidableEq, Repr

/-- The part of a `PhaseIterGVN` that the file reads and writes: the new nodes handed to
`transform`, the pairs given to `replace_node`, the worklist, and the klasses (by their
numbers) of the leaf-type dependencies recorded in `C->dependencies()`. -/
structure PhaseIterGVN where
  transformed : List Node
  replaced : List (Node × Node)
  _worklist : List Node
  leaf_type_dependencies : List Nat
  deriving DecidableEq, Repr

/-- A `PhaseGVN*`: `is_IterGVN()` is the iterative phase that it is, or `NULL`. -/
structure PhaseGVN where
  is_IterGVN : Option PhaseIterGVN
  deriving DecidableEq, Repr

/-- The services of the host compiler and runtime that the file calls and that are not
among the sources. Every field is named after the function or constant it stands for. -/
structure Host where
  /-- `PhaseGVN::transform`: the value-numbered representative of a new node. -/
  transform : Node → Node
  /-- `Node::bottom_type()`. -/
  bottom_type : Node → Ty
  /-- `Type::basic_type()`. -/
  basic_type : Ty → BasicType
  /-- `TypePtr::is_ptr_to_narrowoop()`. -/
  is_ptr_to_narrowoop : Ty → Bool
  /-- `Type::make_narrowoop()`. -/
  make_narrowoop : Ty → Ty
  /-- `Type::is_oopptr()`, the checked cast. -/
  is_oopptr : Ty → Ty
  /-- `Node::get_ptr_type()`. -/
  get_ptr_type : Node → Ty
  /-- `Compile::get_alias_index`. -/
  get_alias_index : Ty → Nat
  /-- `GraphKit::control()`. -/
  control : GraphKit → Node
  /-- `GraphKit::memory(alias_idx)`. -/
  memory : GraphKit → Nat → Node
  /-- `AddPNode::Ideal_base_and_offset`: the base it returns and the offset it sets. -/
  Ideal_base_and_offset : Node → Node × Int
  /-- `AllocateNode::Ideal_allocation`. -/
  Ideal_allocation : Node → Node
  /-- `MemNode::detect_ptr_independence(p1, a1, p2, a2, phase)`. -/
  detect_ptr_independence : Node → Node → Node → Node → Bool
  /-- `InitializeNode::allocation()`. -/
  allocation : Node → Node
  /-- `InitializeNode::find_captured_store(start, size_in_bytes, phase)`. -/
  find_captured_store : Node → Int → Int → Node
  /-- `InitializeNode::zero_memory()`. -/
  zero_memory : Node → Node
  /-- `type2aelembytes`. -/
  type2aelembytes : BasicType → Int
  /-- `Type::OffsetBot`. -/
  OffsetBot : Int
  /-- `ShenandoahHeap::MARKING`. -/
  MARKING : Int
  /-- `in_bytes(ShenandoahThreadLocalData::satb_mark_queue_index_offset())`. -/
  index_offset : Int
  /-- `in_bytes(ShenandoahThreadLocalData::satb_mark_queue_buffer_offset())`. -/
  buffer_offset : Int
  /-- `in_bytes(ShenandoahThreadLocalData::gc_state_offset())`. -/
  gc_state_offset : Int
  /-- `ShenandoahBarrierC2Support::is_gc_state_load`. -/
  is_gc_state_load : Node → Bool
  /-- `Node::find_intptr_t_type()`, `none` for `NULL`. -/
  find_intptr_t_type : Node → Option TypeX
  /-- `java_lang_ref_Reference::referent_offset`. -/
  referent_offset : Int
  /-- `Type::isa_oopptr()`, `none` for `NULL`. -/
  isa_oopptr : Ty → Option Ty
  /-- `Type::isa_aryptr()`, as the test against `NULL`. -/
  isa_aryptr : Ty → Bool
  /-- `Type::isa_instptr()`, `none` for `NULL`. -/
  isa_instptr : Ty → Option Ty
  /-- `TypeOopPtr::klass()`, the klass by its number. -/
  klass : Ty → Nat
  /-- `ciKlass::is_loaded()`. -/
  is_loaded : Nat → Bool
  /-- `ciKlass::is_subtype_of(that)`. -/
  is_subtype_of : Nat → Nat → Bool
  /-- `ciEnv::Reference_klass()`. -/
  Reference_klass : Nat
  /-- `ciEnv::Object_klass()`. -/
  Object_klass : Nat
  /-- `kit->makecon(TypeKlassPtr::make(k))`. -/
  makecon_klass : Nat → Node
  /-- `GraphKit::gen_instanceof`: the node of the result. -/
  gen_instanceof : Node → Node → Node
  /-- `BarrierSetC2::store_at_resolved`, the generic store lowering. -/
  store_at_resolved : C2Access → C2AccessValue → GraphKit → Node × GraphKit
  /-- `BarrierSetC2::load_at_resolved`, the generic load lowering. -/
  load_at_resolved : C2Access → Ty → GraphKit → Node × GraphKit
  /-- `BarrierSetC2::atomic_cmpxchg_val_at_resolved`: the result, the raw access node that
  it sets in the access, and the kit. -/
  atomic_cmpxchg_val_at_resolved :
    C2AtomicParseAccess → Node → Node → Ty → GraphKit → Node × Node × GraphKit
  /-- `BarrierSetC2::atomic_cmpxchg_bool_at_resolved`, likewise. -/
  atomic_cmpxchg_bool_at_resolved :
    C2AtomicParseAccess → Node → Node → Ty → GraphKit → Node × Node × GraphKit
  /-- `BarrierSetC2::atomic_xchg_at_resolved`, likewise. -/
  atomic_xchg_at_resolved :
    C2AtomicParseAccess → Node → Ty → GraphKit → Node × Node × GraphKit
  /-- `BarrierSetC2::pin_atomic_op`. -/
  pin_atomic_op : C2AtomicParseAccess → GraphKit → GraphKit
  /-- `PhaseIterGVN::type(n)`. -/
  type : Node → Ty
  /-- `TypeOopPtr::klass_is_exact()`. -/
  klass_is_exact : Ty → Bool
  /-- `ciInstanceKlass::is_interface()`, of the klass with the number. -/
  is_interface : Nat → Bool
  /-- `ciInstanceKlass::has_subklass()`. -/
  has_subklass : Nat → Bool
  /-- `ciInstanceKlass::has_injected_fields()`. -/
  has_injected_fields : Nat → Bool
  /-- `ciInstanceKlass::has_object_fields()`. -/
  has_object_fields : Nat → Bool
  /-- `klass->as_array_klass()->element_type()->basic_type()`. -/
  element_basic_type : Nat → BasicType
  /-- `BarrierSetC2::clone_barrier_at_expansion`, the generic expansion of a clone. -/
  clone_barrier_at_expansion : Node → Node → PhaseIterGVN → PhaseIterGVN
  /-- `ShenandoahBarrierC2Support::is_heap_stable_test`. -/
  is_heap_stable_test : Node → Bool
  /-- `IfNode::up_one_dom`, `NULL` when there is no dominator to go to. -/
  up_one_dom : Node → Node
  /-- `IfNode::dominated_by(prev_dom, igvn)`: the node it returns and the phase. -/
  dominated_by : Node → Node → Option PhaseIterGVN → Node × Option PhaseIterGVN
  /-- The bookkeeping of `Node::set_req_X(i, n, igvn)` in the phase, next to the change
  of the input. -/
  set_req_X : Node → Nat → Node → PhaseIterGVN → PhaseIterGVN
  /-- The class test `is_Mem()`, which the checked cast `as_Mem()` asserts. -/
  is_Mem : Node → Bool
  /-- `TypePtr::offset()`. -/
  offset : Ty → Int
  /-- `ciInstanceKlass::contains_field_offset(offset)`. -/
  contains_field_offset : Nat → Int → Bool
  /-- `Type::isa_rawptr()`, as the test against `NULL`. -/
  isa_rawptr : Ty → Bool
  /-- `ConnectionGraph::get_addp_base(addp)`. -/
  get_addp_base : Node → Node
  /-- The value that `ConnectionGraph::add_final_edges_unsafe_access(n, opcode)` returns. -/
  add_final_edges_unsafe_access : Node → Opcode → Bool

/-- Modelled from the spec: `BytesPerLong` (utilities/globalDefinitions.hpp is not among the
sources), the eight bytes of a `jlong`. -/
def BytesPerLong : Int := 8

/-- Modelled from the spec: `sizeof(intptr_t)`, the pointer size of the 64-bit build. -/
def sizeof_intptr_t : Int := 8

/-- Modelled from the spec: `sizeof(size_t)` of the 64-bit build. -/
def sizeof_size_t : Int := 8

/-- Modelled from the spec: `Compile::AliasIdxTop` (opto/compile.hpp is not among the
sources). -/
def AliasIdxTop : Nat := 1

/-- Modelled from the spec: `Compile::AliasIdxRaw` (opto/compile.hpp is not among the
sources). -/
def AliasIdxRaw : Nat := 3

/-- Modelled from the spec: `max_juint` (utilities/globalDefinitions.hpp is not among the
sources), the largest 32-bit unsigned integer. -/
def max_juint : Nat := 4294967295

namespace GraphKit

/-- Modelled from the spec: `kit->gvn().transform(n)` (opto/phaseX.hpp is not among the
sources): the new node is recorded, the representative that the host's value numbering
chooses is returned. -/
def transform (H : Host) (kit : GraphKit) (n : Node) : Node × GraphKit :=
  (H.transform n, { kit with transformed := kit.transformed ++ [n] })

/-- Modelled from the spec: `kit->final_sync(ideal)` (opto/graphKit.hpp is not among the
sources): the control flow built in the `IdealKit` becomes the kit's. -/
def final_sync (kit : GraphKit) (ideal : List Stmt) : GraphKit :=
  { kit with emitted := kit.emitted ++ ideal }

/-- Modelled from the spec: `kit->insert_mem_bar(op)` (opto/graphKit.hpp is not among the
sources), which emits a memory barrier node at the current control. -/
def insert_mem_bar (kit : GraphKit) (op : Opcode) : GraphKit :=
  { kit with emitted := kit.emitted ++ [Stmt.insert_mem_bar op] }

end GraphKit

/-! ## The SATB pre-barrier -/

namespace Node

/-- Modelled from the spec: `call->add_req(n)` (opto/node.hpp is not among the sources)
for a leaf call: `n` becomes the input that follows the
parameters. The model gives a call one such place (`final_graph_reshaping` asserts that
there is "only one extra input"), so a second `add_req` has no result. -/
def add_req : Node → Node → Option Node
  | CallLeaf entry_point name parm0 parm1 NULL, n => some (CallLeaf entry_point name parm0 parm1 n)
  | _, _ => none

end Node

namespace Stmt

/-- Modelled from the spec: the control at the end of a block of `IdealKit` statements.
Applies `f` to the statement that ends a block, the one whose control the block
leaves with; there is none in an empty block. -/
def modify_control (f : Stmt → Option Stmt) (block : List Stmt) : Option (List Stmt) :=
  match block.getLast? with
  | none => none
  | some s => (f s).map (fun s1 => block.dropLast ++ [s1])

/-- Modelled from the spec: `in(1)` of the region that `IdealKit::end_if()` makes
(opto/idealKit.cpp is not among the sources): its first input is the control
that is current at `end_if()`, the end of the `else_()` block when there is one and of the
taken block otherwise. `f` is applied to the statement found there. -/
def modify_in1 (f : Stmt → Option Stmt) : Stmt → Option Stmt
  | if_then left relop right prob then_ none =>
    (modify_control f then_).map (fun b => if_then left relop right prob b none)
  | if_then left relop right prob then_ (some else_) =>
    (modify_control f else_).map (fun b => if_then left relop right prob then_ (some b))
  | _ => none

end Stmt

namespace ShenandoahBarrierSetC2

def shenandoah_enqueue_barrier (H : Host) (kit : GraphKit) (pre_val : Node) :
    Node × GraphKit :=
  kit.transform H (Node.ShenandoahEnqueueBarrier pre_val)

def shenandoah_storeval_barrier (F : Flags) (H : Host) (kit : GraphKit) (obj : Node) :
    Node × GraphKit :=
  if F.ShenandoahStoreValEnqueueBarrier then shenandoah_enqueue_barrier H kit obj
  else (obj, kit)

/-- The loop of `satb_can_remove_pre_barrier`, entered with the number of iterations that
are left (`50 - cnt`) and the memory state `mem`. `break` is the result `false`,
`continue` the next iteration with `mem->in(MemNode::Memory)`. Offsets are `intptr_t` in
the source, where signed overflow is undefined; the model computes in the integers. -/
def satb_can_remove_pre_barrier_loop (H : Host) (base alloc : Node)
    (offset size_in_bytes : Int) : Nat → Node → Bool
  | 0, _ => false
  | n + 1, mem =>
    match mem with
    | .Store st_mem st_adr _ memory_size =>
      let st_base := (H.Ideal_base_and_offset st_adr).1
      let st_offset := (H.Ideal_base_and_offset st_adr).2
      if st_base = Node.NULL then false
      else if st_base = base ∧ st_offset = offset then false
      else if st_offset ≠ offset ∧ st_offset ≠ H.OffsetBot ∧
          (st_offset ≥ offset + size_in_bytes ∨
           st_offset ≤ offset - BytesPerLong ∨
           st_offset ≤ offset - memory_size) then
        satb_can_remove_pre_barrier_loop H base alloc offset size_in_bytes n st_mem
      else if st_base ≠ base ∧
          H.detect_ptr_independence base alloc st_base (H.Ideal_allocation st_base) = true then
        satb_can_remove_pre_barrier_loop H base alloc offset size_in_bytes n st_mem
      else false
    | .Proj in0 _ =>
      if in0.is_Initialize = true then
        let st_init := in0
        let st_alloc := H.allocation st_init
        if alloc = st_alloc then
          let captured_store :=
            H.find_captured_store st_init offset (H.type2aelembytes .T_OBJECT)
          if captured_store = Node.NULL ∨ captured_store = H.zero_memory st_init then true
          else false
        else false
      else false
    | _ => false

def satb_can_remove_pre_barrier (H : Host) (kit : GraphKit) (adr : Node) (bt : BasicType)
    (adr_idx : Nat) : Bool :=
  let offset := (H.Ideal_base_and_offset adr).2
  let base := (H.Ideal_base_and_offset adr).1
  let alloc := H.Ideal_allocation base
  if offset = H.OffsetBot then false
  else if alloc = Node.NULL then false
  else
    let size_in_bytes := H.type2aelembytes bt
    let mem := H.memory kit adr_idx
    satb_can_remove_pre_barrier_loop H base alloc offset size_in_bytes 50 mem

/-- The second part of `satb_write_barrier_pre`, from `assert(bt == T_OBJECT)` on: the
template is built in an `IdealKit`, handed to the kit by `final_sync`, and the address
is added to the inputs of the slow-path call. -/
def satb_write_barrier_pre_template (F : Flags) (H : Host) (kit : GraphKit) (do_load : Bool)
    (adr : Node) (alias_idx : Nat) (val_type : Option Ty) (pre_val : Node)
    (bt : BasicType) : Option GraphKit :=
  if bt ≠ .T_OBJECT then none
  else
    let tls := Node.ThreadLocal
    let no_base := Node.top
    let zero := Node.ConI 0
    let zeroX := Node.ConX 0
    let likely := Prob.prob_likely
    let unlikely := Prob.prob_unlikely
    let index_offset := H.index_offset
    let buffer_offset := H.buffer_offset
    let buffer_adr := Node.AddP no_base tls (Node.ConX buffer_offset)
    let index_adr := Node.AddP no_base tls (Node.ConX index_offset)
    let gc_state := Node.AddP no_base tls (Node.ConX H.gc_state_offset)
    let ld := Node.Load gc_state (some Ty.TypeInt_BYTE) .T_BYTE AliasIdxRaw
    let marking := Node.AndI ld (Node.ConI H.MARKING)
    if H.is_gc_state_load ld = false then none
    else
      -- `TypeX_X->basic_type()` is `T_LONG` on the 64-bit build
      let index_bt := BasicType.T_LONG
      if sizeof_size_t ≠ H.type2aelembytes index_bt then none
      else
        let index := Node.Load index_adr (some Ty.TypeX_X) index_bt AliasIdxRaw
        let pre_val := if do_load then Node.Load adr val_type bt alias_idx else pre_val
        let buffer := Node.Load buffer_adr (some Ty.TypeRawPtr_NOTNULL) .T_ADDRESS AliasIdxRaw
        let (next_index, kit) := kit.transform H (Node.SubX index (Node.ConX sizeof_intptr_t))
        let log_addr := Node.AddP no_base buffer next_index
        let call := Node.CallLeaf .write_ref_field_pre_entry "shenandoah_wb_pre" pre_val tls .NULL
        let ideal : List Stmt :=
          [Stmt.load ld,
           Stmt.if_then marking .ne zero unlikely
             ([Stmt.load index] ++ (if do_load then [Stmt.load pre_val] else []) ++
              [Stmt.if_then pre_val .ne Node.ConP_null .prob_fair
                [Stmt.load buffer,
                 Stmt.if_then index .ne zeroX likely
                   [Stmt.store log_addr pre_val .T_OBJECT AliasIdxRaw .unordered,
                    Stmt.store index_adr next_index index_bt AliasIdxRaw .unordered]
                   (some [Stmt.make_leaf_call call])]
                none])
             none]
        let kit := kit.final_sync ideal
        if F.ShenandoahSATBBarrier = true ∧ adr ≠ Node.NULL then
          (Stmt.modify_control (Stmt.modify_in1 (Stmt.modify_in1 (Stmt.modify_in1
            (fun s => match s with
              | .make_leaf_call call =>
                if is_shenandoah_wb_pre_call call then
                  (call.add_req adr).map Stmt.make_leaf_call
                else none
              | _ => none)))) kit.emitted).map (fun e => { kit with emitted := e })
        else some kit

def satb_write_barrier_pre (F : Flags) (H : Host) (kit : GraphKit) (do_load : Bool)
    (obj adr : Node) (alias_idx : Nat) (val : Node) (val_type : Option Ty) (pre_val : Node)
    (bt : BasicType) : Option GraphKit :=
  if do_load then
    if obj = Node.NULL then none
    else if adr = Node.NULL then none
    else if pre_val ≠ Node.NULL then none
    else if val_type = none then none
    else if F.ReduceInitialCardMarks = true ∧
        satb_can_remove_pre_barrier H kit adr bt alias_idx = true then some kit
    else satb_write_barrier_pre_template F H kit do_load adr alias_idx val_type pre_val bt
  else
    if pre_val = Node.NULL then none
    else if H.bottom_type pre_val = Ty.NULL_PTR then some kit
    else if H.basic_type (H.bottom_type pre_val) ≠ .T_OBJECT then none
    else satb_write_barrier_pre_template F H kit do_load adr alias_idx val_type pre_val bt

def shenandoah_write_barrier_pre (F : Flags) (H : Host) (kit : GraphKit) (do_load : Bool)
    (obj adr : Node) (alias_idx : Nat) (val : Node) (val_type : Option Ty) (pre_val : Node)
    (bt : BasicType) : Option GraphKit :=
  if F.ShenandoahSATBBarrier then
    satb_write_barrier_pre F H kit do_load obj adr alias_idx val val_type pre_val bt
  else some kit

end ShenandoahBarrierSetC2

/-! ## Access interception -/

namespace ShenandoahBarrierSetC2

/-- The helper that guards and inserts a pre-barrier for a possible referent field. The
blocks of the two `if_then` are built at a control of their own: what
`satb_write_barrier_pre` and `insert_mem_bar` emit between `sync_kit` calls is the block
of the inner test. -/
def insert_pre_barrier (F : Flags) (H : Host) (kit : GraphKit) (base_oop offset pre_val : Node)
    (need_mem_bar : Bool) : Option GraphKit :=
  let otype := H.find_intptr_t_type offset
  if otype.any (fun t => t.is_con && decide (t.get_con ≠ H.referent_offset)) then some kit
  else
    let btype := H.isa_oopptr (H.bottom_type base_oop)
    if btype.any (fun b => H.isa_aryptr b) then some kit
    else if btype.any (fun b => (H.isa_instptr b).any (fun itype =>
        let klass := H.klass itype
        H.is_loaded klass && !H.is_subtype_of klass H.Reference_klass &&
          !H.is_subtype_of H.Object_klass klass)) then some kit
    else
      let unlikely := Prob.prob_unlikely
      let referent_off := Node.ConX H.referent_offset
      let ref_klass_con := H.makecon_klass H.Reference_klass
      let is_instof := H.gen_instanceof base_oop ref_klass_con
      let one := Node.ConI 1
      match satb_write_barrier_pre F H { kit with emitted := [] } false Node.NULL Node.NULL
          max_juint Node.NULL none pre_val .T_OBJECT with
      | none => none
      | some inner =>
        let inner := if need_mem_bar then inner.insert_mem_bar .Op_MemBarCPUOrder else inner
        some ({ inner with emitted := kit.emitted }.final_sync
          [Stmt.if_then offset .eq referent_off unlikely
            [Stmt.gen_instanceof base_oop ref_klass_con,
             Stmt.if_then is_instof .eq one unlikely inner.emitted none]
            none])

/-- The store interception. The value descriptor is passed by reference in the source,
so it is returned next to the node of the store and the kit. -/
def store_at_resolved (F : Flags) (H : Host) (access : C2Access) (val : C2AccessValue)
    (kit : GraphKit) : Option (Node × C2AccessValue × GraphKit) :=
  let decorators := access.decorators
  let adr_type := access.addr_type
  let adr := access.addr_node
  let anonymous := decorators.ON_UNKNOWN_OOP_REF
  let on_heap := decorators.IN_HEAP
  if !access.is_oop || (!on_heap && !anonymous) then
    some ((H.store_at_resolved access val kit).1, val, (H.store_at_resolved access val kit).2)
  else if access.is_parse_access then
    let adr_idx := H.get_alias_index adr_type
    if adr_idx = AliasIdxTop then none
    else
      let value := val.node
      let (value, kit) := shenandoah_storeval_barrier F H kit value
      let val := val.set_node value
      match shenandoah_write_barrier_pre F H kit true access.base adr adr_idx val.node
          (some val.type) Node.NULL access.type with
      | none => none
      | some kit =>
        some ((H.store_at_resolved access val kit).1, val, (H.store_at_resolved access val kit).2)
  else
    if access.is_opt_access = false then none
    else if ((decorators.C2_TIGHTLY_COUPLED_ALLOC || !F.ShenandoahSATBBarrier) &&
        decorators.C2_ARRAY_COPY) = false then none
    else
      let (val, kit) :=
        if F.ShenandoahStoreValEnqueueBarrier then
          let (enqueue, kit) := kit.transform H (Node.ShenandoahEnqueueBarrier val.node)
          (val.set_node enqueue, kit)
        else (val, kit)
      some ((H.store_at_resolved access val kit).1, val, (H.store_at_resolved access val kit).2)

def load_at_resolved (F : Flags) (H : Host) (access : C2Access) (val_type : Ty)
    (kit : GraphKit) : Option (Node × GraphKit) :=
  let decorators := access.decorators
  let adr := access.addr_node
  let obj := access.base
  let mismatched := decorators.C2_MISMATCHED
  let unknown := decorators.ON_UNKNOWN_OOP_REF
  let on_heap := decorators.IN_HEAP
  let on_weak := decorators.ON_WEAK_OOP_REF
  let is_unordered := decorators.MO_UNORDERED
  let need_cpu_mem_bar := !is_unordered || mismatched || !on_heap
  let top := Node.top
  let offset := if adr.is_AddP then adr.in_ AddPNode.Offset else top
  let (load, kit) := H.load_at_resolved access val_type kit
  let (load, kit) :=
    if access.is_oop then
      if F.ShenandoahLoadRefBarrier then
        kit.transform H (Node.ShenandoahLoadReferenceBarrier Node.NULL load)
      else (load, kit)
    else (load, kit)
  let need_read_barrier := F.ShenandoahKeepAliveBarrier &&
    (on_heap && (on_weak || (unknown && decide (offset ≠ top) && decide (obj ≠ top))))
  if !access.is_oop || !need_read_barrier then some (load, kit)
  else if access.is_parse_access = false then none
  else if on_weak then
    match satb_write_barrier_pre F H kit false Node.NULL Node.NULL max_juint Node.NULL none
        load .T_OBJECT with
    | none => none
    | some kit => some (load, kit.insert_mem_bar .Op_MemBarCPUOrder)
  else if unknown then
    match insert_pre_barrier F H kit obj offset load (!need_cpu_mem_bar) with
    | none => none
    | some kit => some (load, kit)
  else some (load, kit)

/-- The lines of `atomic_cmpxchg_val_at_resolved` that make the atomic node: the
compare-and-exchange node of the kind that the address type and `ShenandoahCASBarrier`
select. -/
def atomic_cmpxchg_val_load_store (F : Flags) (H : Host) (access : C2AtomicParseAccess)
    (expected_val new_val : Node) (value_type : Ty) (kit : GraphKit) : Node × GraphKit :=
  let mo := access.mem_node_mo
  let mem := access.memory
  let adr := access.addr_node
  let adr_type := access.addr_type
  if H.is_ptr_to_narrowoop (H.bottom_type adr) then
    let (newval_enc, kit) :=
      kit.transform H (Node.EncodeP new_val (H.make_narrowoop (H.bottom_type new_val)))
    let (oldval_enc, kit) :=
      kit.transform H (Node.EncodeP expected_val (H.make_narrowoop (H.bottom_type expected_val)))
    if F.ShenandoahCASBarrier then
      kit.transform H (Node.CompareAndExchange .Op_ShenandoahCompareAndExchangeN
        (H.control kit) mem adr newval_enc oldval_enc adr_type (H.make_narrowoop value_type) mo)
    else
      kit.transform H (Node.CompareAndExchange .Op_CompareAndExchangeN
        (H.control kit) mem adr newval_enc oldval_enc adr_type (H.make_narrowoop value_type) mo)
  else
    if F.ShenandoahCASBarrier then
      kit.transform H (Node.CompareAndExchange .Op_ShenandoahCompareAndExchangeP
        (H.control kit) mem adr new_val expected_val adr_type (H.is_oopptr value_type) mo)
    else
      kit.transform H (Node.CompareAndExchange .Op_CompareAndExchangeP
        (H.control kit) mem adr new_val expected_val adr_type (H.is_oopptr value_type) mo)

def atomic_cmpxchg_val_at_resolved (F : Flags) (H : Host) (access : C2AtomicParseAccess)
    (expected_val new_val : Node) (value_type : Ty) (kit : GraphKit) :
    Option (Node × C2AtomicParseAccess × GraphKit) :=
  if access.is_oop then
    let (new_val, kit) := shenandoah_storeval_barrier F H kit new_val
    match shenandoah_write_barrier_pre F H kit false Node.NULL Node.NULL max_juint Node.NULL
        none expected_val .T_OBJECT with
    | none => none
    | some kit =>
      let adr := access.addr_node
      let (load_store, kit) :=
        atomic_cmpxchg_val_load_store F H access expected_val new_val value_type kit
      let access := access.set_raw_access load_store
      let kit := H.pin_atomic_op access kit
      let (load_store, kit) :=
        if H.is_ptr_to_narrowoop (H.bottom_type adr) then
          kit.transform H (Node.DecodeN load_store (H.get_ptr_type load_store))
        else (load_store, kit)
      let (load_store, kit) :=
        kit.transform H (Node.ShenandoahLoadReferenceBarrier Node.NULL load_store)
      some (load_store, access, kit)
  else
    let r := H.atomic_cmpxchg_val_at_resolved access expected_val new_val value_type kit
    some (r.1, access.set_raw_access r.2.1, r.2.2)

/-- The lines of `atomic_cmpxchg_bool_at_resolved` that make the atomic node: the
compare-and-swap node of the kind that the address type, `ShenandoahCASBarrier` and
`C2_WEAK_CMPXCHG` select. -/
def atomic_cmpxchg_bool_load_store (F : Flags) (H : Host) (access : C2AtomicParseAccess)
    (expected_val new_val : Node) (kit : GraphKit) : Node × GraphKit :=
  let decorators := access.decorators
  let mo := access.mem_node_mo
  let mem := access.memory
  let is_weak_cas := decorators.C2_WEAK_CMPXCHG
  let adr := access.addr_node
  if H.is_ptr_to_narrowoop (H.bottom_type adr) then
    let (newval_enc, kit) :=
      kit.transform H (Node.EncodeP new_val (H.make_narrowoop (H.bottom_type new_val)))
    let (oldval_enc, kit) :=
      kit.transform H (Node.EncodeP expected_val (H.make_narrowoop (H.bottom_type expected_val)))
    if F.ShenandoahCASBarrier then
      if is_weak_cas then
        kit.transform H (Node.LoadStoreConditional .Op_ShenandoahWeakCompareAndSwapN
          (H.control kit) mem adr newval_enc oldval_enc mo)
      else
        kit.transform H (Node.LoadStoreConditional .Op_ShenandoahCompareAndSwapN
          (H.control kit) mem adr newval_enc oldval_enc mo)
    else
      if is_weak_cas then
        kit.transform H (Node.LoadStoreConditional .Op_WeakCompareAndSwapN
          (H.control kit) mem adr newval_enc oldval_enc mo)
      else
        kit.transform H (Node.LoadStoreConditional .Op_CompareAndSwapN
          (H.control kit) mem adr newval_enc oldval_enc mo)
  else
    if F.ShenandoahCASBarrier then
      if is_weak_cas then
        kit.transform H (Node.LoadStoreConditional .Op_ShenandoahWeakCompareAndSwapP
          (H.control kit) mem adr new_val expected_val mo)
      else
        kit.transform H (Node.LoadStoreConditional .Op_ShenandoahCompareAndSwapP
          (H.control kit) mem adr new_val expected_val mo)
    else
      if is_weak_cas then
        kit.transform H (Node.LoadStoreConditional .Op_WeakCompareAndSwapP
          (H.control kit) mem adr new_val expected_val mo)
      else
        kit.transform H (Node.LoadStoreConditional .Op_CompareAndSwapP
          (H.control kit) mem adr new_val expected_val mo)

def atomic_cmpxchg_bool_at_resolved (F : Flags) (H : Host) (access : C2AtomicParseAccess)
    (expected_val new_val : Node) (value_type : Ty) (kit : GraphKit) :
    Option (Node × C2AtomicParseAccess × GraphKit) :=
  if access.is_oop then
    let (new_val, kit) := shenandoah_storeval_barrier F H kit new_val
    match shenandoah_write_barrier_pre F H kit false Node.NULL Node.NULL max_juint Node.NULL
        none expected_val .T_OBJECT with
    | none => none
    | some kit =>
      let (load_store, kit) :=
        atomic_cmpxchg_bool_load_store F H access expected_val new_val kit
      let access := access.set_raw_access load_store
      let kit := H.pin_atomic_op access kit
      some (load_store, access, kit)
  else
    let r := H.atomic_cmpxchg_bool_at_resolved access expected_val new_val value_type kit
    some (r.1, access.set_raw_access r.2.1, r.2.2)

def atomic_xchg_at_resolved (F : Flags) (H : Host) (access : C2AtomicParseAccess)
    (val : Node) (value_type : Ty) (kit : GraphKit) :
    Option (Node × C2AtomicParseAccess × GraphKit) :=
  let (val, kit) :=
    if access.is_oop then shenandoah_storeval_barrier F H kit val else (val, kit)
  let r := H.atomic_xchg_at_resolved access val value_type kit
  let result := r.1
  let access := access.set_raw_access r.2.1
  let kit := r.2.2
  if access.is_oop then
    let (result, kit) :=
      kit.transform H (Node.ShenandoahLoadReferenceBarrier Node.NULL result)
    match shenandoah_write_barrier_pre F H kit false Node.NULL Node.NULL max_juint Node.NULL
        none result .T_OBJECT with
    | none => none
    | some kit => some (result, access, kit)
  else some (result, access, kit)

end ShenandoahBarrierSetC2

/-! ## Running the emitted control flow

The meaning of the emitted statements over a machine state follows the template of the
design (section 4.3): words are 64 bits wide, a `load` statement reads memory at the
place where it stands, a `store` statement writes memory and a leaf call calls the
runtime. The run records the stores and the calls in order. -/

/-- Modelled from the spec: what a run of the compiled code does to memory and to the
runtime, a store or a leaf call. -/
inductive Effect where
  | store (adr val : Nat)
  | leaf_call (entry_point : Address) (args : List Nat)
  deriving DecidableEq, Repr

/-- Modelled from the spec: the machine state of a run: the memory (one value per address), the values of the
load nodes whose statement has run, the latest first, and the effects so far. -/
structure RunState where
  memory : Nat → Nat
  loaded : List (Node × Nat)
  trace : List Effect

/-- Modelled from the spec: the value that a load node of basic type `bt` yields for the content `raw` of the cell: a
`T_BYTE` load sign-extends the byte to a 32-bit integer, any other load yields the
64-bit word. -/
def load_value (bt : BasicType) (raw : Nat) : Nat :=
  if bt = .T_BYTE then
    if raw % 256 < 128 then raw % 256 else raw % 256 + (2 ^ 32 - 256)
  else raw % 2 ^ 64

/-- Modelled from the spec: addition of 64-bit words, as `AddP` computes an address. -/
def word_add (a b : Nat) : Nat := (a + b) % 2 ^ 64

/-- Modelled from the spec: subtraction of 64-bit words, as `SubX` computes. -/
def word_sub (a b : Nat) : Nat := (a + (2 ^ 64 - b % 2 ^ 64)) % 2 ^ 64

/-- Modelled from the spec: the value of the load node `n` among the loads that have run. -/
def lookup_loaded : List (Node × Nat) → Node → Option Nat
  | [], _ => none
  | (k, v) :: rest, n => if n = k then some v else lookup_loaded rest n

/-- Modelled from the spec: the value of a node of the host graph in a run: constants, the thread pointer `tls`, address and
integer arithmetic on 64-bit (`AndI`: 32-bit) words, the loads that have run; the value
of any other node is given by `value_of`. -/
def eval (tls : Nat) (value_of : Node → Nat) (loaded : List (Node × Nat)) : Node → Nat
  | .ConI con => (con % 2 ^ 32).toNat
  | .ConX con => (con % 2 ^ 64).toNat
  | .ConP_null => 0
  | .ThreadLocal => tls
  | .AddP _ address offset =>
    word_add (eval tls value_of loaded address) (eval tls value_of loaded offset)
  | .AndI in1 in2 => Nat.land (eval tls value_of loaded in1) (eval tls value_of loaded in2)
  | .SubX in1 in2 => word_sub (eval tls value_of loaded in1) (eval tls value_of loaded in2)
  | .Load adr t bt adr_idx =>
    match lookup_loaded loaded (.Load adr t bt adr_idx) with
    | some v => v
    | none => value_of (.Load adr t bt adr_idx)
  | n => value_of n

/-- Modelled from the spec: the outcome of a `BoolTest` on two values. -/
def BoolTest.holds : BoolTest → Nat → Nat → Bool
  | .eq, a, b => decide (a = b)
  | .ne, a, b => decide (a ≠ b)

mutual
/-- Modelled from the spec: the run of one statement of the emitted control flow, after
the template of section 4.3. -/
def exec (tls : Nat) (value_of : Node → Nat) : Stmt → RunState → RunState
  | .load n, st =>
    match n with
    | .Load adr _ bt _ =>
      { st with loaded :=
          (n, load_value bt (st.memory (eval tls value_of st.loaded adr))) :: st.loaded }
    | _ => st
  | .store adr val _ _ _, st =>
    { st with
      memory := Function.update st.memory (eval tls value_of st.loaded adr)
        (eval tls value_of st.loaded val)
      trace := st.trace ++
        [Effect.store (eval tls value_of st.loaded adr) (eval tls value_of st.loaded val)] }
  | .make_leaf_call call, st =>
    match call with
    | .CallLeaf entry_point _ parm0 parm1 _ =>
      { st with trace := st.trace ++
          [Effect.leaf_call entry_point
            [eval tls value_of st.loaded parm0, eval tls value_of st.loaded parm1]] }
    | _ => st
  | .insert_mem_bar _, st => st
  | .gen_instanceof _ _, st => st
  | .if_then left relop right _ then_ else_, st =>
    if relop.holds (eval tls value_of st.loaded left) (eval tls value_of st.loaded right) then
      exec_block tls value_of then_ st
    else
      match else_ with
      | none => st
      | some else_ => exec_block tls value_of else_ st
/-- Modelled from the spec: the run of a block, statement after statement. -/
def exec_block (tls : Nat) (value_of : Node → Nat) : List Stmt → RunState → RunState
  | [], st => st
  | s :: rest, st => exec_block tls value_of rest (exec tls value_of s st)
end

/-- The run of `code` from the memory `memory`, with no load done yet and no effect. -/
def run (tls : Nat) (value_of : Node → Nat) (memory : Nat → Nat) (code : List Stmt) :
    List Effect :=
  (exec_block tls value_of code ⟨memory, [], []⟩).trace

/-- The address of the thread-local field at `offset`, as `AddP(top, tls, ConX(offset))`
computes it. -/
def thread_field (tls : Nat) (offset : Int) : Nat := word_add tls (offset % 2 ^ 64).toNat

/-- The control flow that `satb_write_barrier_pre` has added to the kit when it returns
from its last line, written out: `extra` is the input that follows the parameters of the
slow-path call (`NULL` when `add_req` was not called). -/
def satb_pre_barrier_code (H : Host) (do_load : Bool) (adr : Node) (alias_idx : Nat)
    (val_type : Option Ty) (pre_val extra : Node) : List Stmt :=
  let tls := Node.ThreadLocal
  let index_adr := Node.AddP Node.top tls (Node.ConX H.index_offset)
  let ld := Node.Load (Node.AddP Node.top tls (Node.ConX H.gc_state_offset))
    (some Ty.TypeInt_BYTE) .T_BYTE AliasIdxRaw
  let index := Node.Load index_adr (some Ty.TypeX_X) .T_LONG AliasIdxRaw
  let pre_val := if do_load then Node.Load adr val_type .T_OBJECT alias_idx else pre_val
  let buffer := Node.Load (Node.AddP Node.top tls (Node.ConX H.buffer_offset))
    (some Ty.TypeRawPtr_NOTNULL) .T_ADDRESS AliasIdxRaw
  let next_index := H.transform (Node.SubX index (Node.ConX sizeof_intptr_t))
  [Stmt.load ld,
   Stmt.if_then (Node.AndI ld (Node.ConI H.MARKING)) .ne (Node.ConI 0) .prob_unlikely
     ([Stmt.load index] ++ (if do_load then [Stmt.load pre_val] else []) ++
      [Stmt.if_then pre_val .ne Node.ConP_null .prob_fair
        [Stmt.load buffer,
         Stmt.if_then index .ne (Node.ConX 0) .prob_likely
           [Stmt.store (Node.AddP Node.top buffer next_index) pre_val .T_OBJECT AliasIdxRaw
              .unordered,
            Stmt.store index_adr next_index .T_LONG AliasIdxRaw .unordered]
           (some [Stmt.make_leaf_call
             (Node.CallLeaf .write_ref_field_pre_entry "shenandoah_wb_pre" pre_val tls extra)])]
        none])
     none]

/-! ## The shapes of the memory chain that the elimination walk meets -/

/-- The offset test of the walk: the store at `st_offset` of `memory_size` bytes is
provably apart from the `size_in_bytes` bytes at `offset`. -/
def offsets_independent (H : Host) (offset size_in_bytes st_offset memory_size : Int) : Prop :=
  st_offset ≠ offset ∧ st_offset ≠ H.OffsetBot ∧
    (st_offset ≥ offset + size_in_bytes ∨
     st_offset ≤ offset - BytesPerLong ∨
     st_offset ≤ offset - memory_size)

instance (H : Host) (offset size_in_bytes st_offset memory_size : Int) :
    Decidable (offsets_independent H offset size_in_bytes st_offset memory_size) := by
  unfold offsets_independent
  exact inferInstance

/-- The base test of the walk: the store's base differs from `base` and pointer
independence analysis tells the two apart. -/
def bases_independent (H : Host) (base alloc st_base : Node) : Prop :=
  st_base ≠ base ∧
    H.detect_ptr_independence base alloc st_base (H.Ideal_allocation st_base) = true

instance (H : Host) (base alloc st_base : Node) :
    Decidable (bases_independent H base alloc st_base) := by
  unfold bases_independent
  exact inferInstance

/-- A provably independent store: a store whose base is known, that is not a store to
`base` at `offset`, and that passes the offset test or the base test. -/
def independent_store (H : Host) (base alloc : Node) (offset size_in_bytes : Int) :
    Node → Bool
  | .Store _ st_adr _ memory_size =>
    decide ((H.Ideal_base_and_offset st_adr).1 ≠ Node.NULL ∧
      ¬((H.Ideal_base_and_offset st_adr).1 = base ∧ (H.Ideal_base_and_offset st_adr).2 = offset) ∧
      (offsets_independent H offset size_in_bytes (H.Ideal_base_and_offset st_adr).2 memory_size ∨
       bases_independent H base alloc (H.Ideal_base_and_offset st_adr).1))
  | _ => false

/-- The memory state that lies `k` provably independent stores up the chain from `mem`,
if the first `k` states of the chain are such stores. -/
def through_independent_stores (H : Host) (base alloc : Node) (offset size_in_bytes : Int) :
    Nat → Node → Option Node
  | 0, mem => some mem
  | k + 1, mem =>
    if independent_store H base alloc offset size_in_bytes mem = true then
      through_independent_stores H base alloc offset size_in_bytes k (mem.in_ 1)
    else none

/-- The chain `mem` with the memory state that lies `k` stores up the chain replaced by
`above`; a chain that ends before is left as it is. -/
def replace_state_at : Nat → Node → Node → Node
  | 0, _, above => above
  | k + 1, .Store st_mem st_adr val memory_size, above =>
    .Store (replace_state_at k st_mem above) st_adr val memory_size
  | _ + 1, mem, _ => mem

/-! ## The kinds of atomic nodes -/

namespace Opcode

/-- The compare-and-swap opcodes, strong and weak, plain and collector-aware. -/
def is_compare_and_swap : Opcode → Bool
  | Op_CompareAndSwapP | Op_CompareAndSwapN
  | Op_WeakCompareAndSwapP | Op_WeakCompareAndSwapN
  | Op_ShenandoahCompareAndSwapP | Op_ShenandoahCompareAndSwapN
  | Op_ShenandoahWeakCompareAndSwapP | Op_ShenandoahWeakCompareAndSwapN => true
  | _ => false

/-- The compare-and-exchange opcodes, plain and collector-aware. -/
def is_compare_and_exchange : Opcode → Bool
  | Op_CompareAndExchangeP | Op_CompareAndExchangeN
  | Op_ShenandoahCompareAndExchangeP | Op_ShenandoahCompareAndExchangeN => true
  | _ => false

/-- The collector-aware (Shenandoah) variants. -/
def is_shenandoah_variant : Opcode → Bool
  | Op_ShenandoahCompareAndSwapP | Op_ShenandoahCompareAndSwapN
  | Op_ShenandoahWeakCompareAndSwapP | Op_ShenandoahWeakCompareAndSwapN
  | Op_ShenandoahCompareAndExchangeP | Op_ShenandoahCompareAndExchangeN => true
  | _ => false

/-- The weak variants. -/
def is_weak_variant : Opcode → Bool
  | Op_WeakCompareAndSwapP | Op_WeakCompareAndSwapN
  | Op_ShenandoahWeakCompareAndSwapP | Op_ShenandoahWeakCompareAndSwapN => true
  | _ => false

/-- The narrow (`N`) forms; the other atomic opcodes are the wide (`P`) forms. -/
def is_narrow_form : Opcode → Bool
  | Op_CompareAndSwapN | Op_WeakCompareAndSwapN | Op_CompareAndExchangeN
  | Op_ShenandoahCompareAndSwapN | Op_ShenandoahWeakCompareAndSwapN
  | Op_ShenandoahCompareAndExchangeN => true
  | _ => false

end Opcode

/-! ## The runtime call signatures -/

namespace TypeFunc

/-- Modelled from the spec: the fixed input positions of a call node, the enumeration of
`TypeFunc` (opto/type.hpp is not among the sources). -/
def Control : Nat := 0

/-- Modelled from the spec: `TypeFunc::I_O`. -/
def I_O : Nat := 1

/-- Modelled from the spec: `TypeFunc::Memory`. -/
def Memory : Nat := 2

/-- Modelled from the spec: `TypeFunc::FramePtr`. -/
def FramePtr : Nat := 3

/-- Modelled from the spec: `TypeFunc::ReturnAdr`. -/
def ReturnAdr : Nat := 4

/-- Modelled from the spec: `TypeFunc::Parms`, the position of the first parameter. -/
def Parms : Nat := 5

end TypeFunc

/-- Modelled from the spec: `ArrayCopyNode::Src` (opto/arraycopynode.hpp is not among the
sources), the position of the source of the copy, `TypeFunc::Parms`. -/
def ArrayCopyNode.Src : Nat := 5

/-- Modelled from the spec: `ArrayCopyNode::Dest`, two positions after `Src`. -/
def ArrayCopyNode.Dest : Nat := 7

/-- Modelled from the spec: `AddPNode::Base` (opto/addnode.hpp is not among the sources). -/
def AddPNode.Base : Nat := 1

namespace ShenandoahBarrierSetC2

def write_ref_field_pre_entry_Type : TypeFunc :=
  { domain := ⟨TypeFunc.Parms + 2, [Ty.TypeInstPtr_NOTNULL, Ty.TypeRawPtr_NOTNULL]⟩
    range := ⟨TypeFunc.Parms + 0, []⟩ }

def shenandoah_clone_barrier_Type : TypeFunc :=
  { domain := ⟨TypeFunc.Parms + 1, [Ty.TypeInstPtr_NOTNULL]⟩
    range := ⟨TypeFunc.Parms + 0, []⟩ }

def shenandoah_load_reference_barrier_Type : TypeFunc :=
  { domain := ⟨TypeFunc.Parms + 1, [Ty.TypeInstPtr_NOTNULL]⟩
    range := ⟨TypeFunc.Parms + 1, [Ty.TypeInstPtr_NOTNULL]⟩ }

end ShenandoahBarrierSetC2

/-! ## The clone barrier -/

namespace PhaseIterGVN

/-- Modelled from the spec: `igvn.transform(n)` (opto/phaseX.hpp is not among the
sources): the new node is recorded, the representative that the host's value numbering
chooses is returned. -/
def transform (H : Host) (igvn : PhaseIterGVN) (n : Node) : Node × PhaseIterGVN :=
  (H.transform n, { igvn with transformed := igvn.transformed ++ [n] })

/-- Modelled from the spec: `igvn.replace_node(old, nn)`, after which every use of `old`
is a use of `nn`; the pair is recorded. -/
def replace_node (igvn : PhaseIterGVN) (old nn : Node) : PhaseIterGVN :=
  { igvn with replaced := igvn.replaced ++ [(old, nn)] }

/-- Modelled from the spec: `igvn.C->dependencies()->assert_leaf_type(ik)`, which records
that the compiled code depends on the klass having no subclass. -/
def assert_leaf_type (igvn : PhaseIterGVN) (ik : Nat) : PhaseIterGVN :=
  { igvn with leaf_type_dependencies := igvn.leaf_type_dependencies ++ [ik] }

end PhaseIterGVN

/-- Modelled from the spec: `MultiNode::proj_out(which)` (opto/multnode.hpp is not among
the sources), the projection of the node with the number `which`. -/
def Node.proj_out (n : Node) (which : Nat) : Node := Node.Proj n which

namespace ShenandoahBarrierSetC2

/-- The result and the phase, in which a leaf-type dependency may have been recorded. -/
def clone_needs_postbarrier (H : Host) (ac : Node) (igvn : PhaseIterGVN) :
    Bool × PhaseIterGVN :=
  let src := ac.in_ ArrayCopyNode.Src
  let src_type := H.is_oopptr (H.type src)
  if H.isa_instptr src_type ≠ none then
    let ik := H.klass src_type
    if (H.klass_is_exact src_type = true ∨
        (H.is_interface ik = false ∧ H.has_subklass ik = false)) ∧
        H.has_injected_fields ik = false then
      if H.has_object_fields ik = true then (true, igvn)
      else if H.klass_is_exact src_type = false then (false, igvn.assert_leaf_type ik)
      else (false, igvn)
    else (true, igvn)
  else if H.isa_aryptr src_type = true then
    let src_elem := H.element_basic_type (H.klass src_type)
    if src_elem = .T_OBJECT ∨ src_elem = .T_ARRAY then (true, igvn)
    else (false, igvn)
  else (true, igvn)

def clone_barrier_at_expansion (H : Host) (ac call : Node) (igvn : PhaseIterGVN) :
    Option PhaseIterGVN :=
  if ac.is_clonebasic = false then none
  else
    let needs := clone_needs_postbarrier H ac igvn
    if needs.1 = false then some (H.clone_barrier_at_expansion ac call needs.2)
    else
      let raw_adr_type := Ty.TypeRawPtr_BOTTOM
      let c := needs.2.transform H (Node.Proj call TypeFunc.Control)
      let m := c.2.transform H (Node.Proj call TypeFunc.Memory)
      let dest := ac.in_ ArrayCopyNode.Dest
      if dest.is_AddP = false then none
      else
        let barrier_call := m.2.transform H
          (Node.CallLeafNode shenandoah_clone_barrier_Type Address.shenandoah_clone_barrier
            "shenandoah_clone_barrier" raw_adr_type
            c.1 Node.top m.1 Node.top Node.top (dest.in_ AddPNode.Base))
        let c1 := barrier_call.2.transform H (Node.Proj barrier_call.1 TypeFunc.Control)
        let m1 := c1.2.transform H (Node.Proj barrier_call.1 TypeFunc.Memory)
        let out_c := ac.proj_out TypeFunc.Control
        let out_m := ac.proj_out TypeFunc.Memory
        some ((m1.2.replace_node out_c c1.1).replace_node out_m m1.1)

end ShenandoahBarrierSetC2

/-! ## The peepholes of `ideal_node` and the final graph reshaping -/

namespace Node

/-- Modelled from the spec: `Node::req()` (opto/node.hpp is not among the sources), the
number of inputs, for the leaf calls, the nodes of which the file reads it: the five
fixed inputs, the parameters, and the extra input when there is one. -/
def req : Node → Nat
  | CallLeaf _ _ _ _ extra => if extra = NULL then 7 else 8
  | CallLeafNode _ _ _ _ _ _ _ _ _ _ => 6
  | _ => 0

/-- Modelled from the spec: `Node::del_req(idx)`, for the input that the file deletes, the
extra input of a leaf call with two parameters. -/
def del_req (n : Node) (idx : Nat) : Node :=
  match n with
  | CallLeaf entry_point name parm0 parm1 extra =>
    match idx with
    | 7 => CallLeaf entry_point name parm0 parm1 NULL
    | _ => CallLeaf entry_point name parm0 parm1 extra
  | _ => n

/-- Modelled from the spec: `Node::set_req(i, n)`, for the node that the file applies it
to, the comparison of two pointers. -/
def set_req (n : Node) (i : Nat) (x : Node) : Node :=
  match n with
  | CmpP in1 in2 =>
    match i with
    | 1 => CmpP x in2
    | 2 => CmpP in1 x
    | _ => CmpP in1 in2
  | _ => n

end Node

namespace ShenandoahBarrierSetC2

def step_over_gc_barrier (c : Node) : Node :=
  if c.Opcode = .Op_ShenandoahLoadReferenceBarrier then
    c.in_ ShenandoahLoadReferenceBarrierNode.ValueIn
  else if c.Opcode = .Op_ShenandoahEnqueueBarrier then c.in_ 1
  else c

/-- The `while` loop of `ideal_node`, with the variables `dist`, `dom` and `prev_dom` of
the source. Each call is one evaluation of the loop condition. The result is `some none`
where the source returns `NULL` from within the loop and `some (some (dom, prev_dom))`
where the loop is left; `none` is the end of the fuel, which `ideal_node` gives amply
(`dist` is 16 at the start, and the loop is left when `dist` is below zero). -/
def ideal_node_search (H : Host) (op : Opcode) :
    Nat → Int → Node → Node → Option (Option (Node × Node))
  | 0, _, _, _ => none
  | fuel + 1, dist, dom, prev_dom =>
    if dom.Opcode ≠ op ∨ H.is_heap_stable_test dom = false ∨ prev_dom.in_ 0 ≠ dom then
      if dist < 0 then some none
      else
        if H.up_one_dom dom = Node.NULL then some none
        else ideal_node_search H op fuel (dist - 1) (H.up_one_dom dom) dom
    else some (some (dom, prev_dom))

/-- The part of `ideal_node` from `if (n->Opcode() == Op_CmpP)` on. The result is the
node returned (`Node.NULL` for `NULL`; the node `n` with its changed input where the
source changes `n` in place and returns it) and the phase. -/
def ideal_node_peepholes (H : Host) (phase : PhaseGVN) (n : Node) (can_reshape : Bool) :
    Option (Node × PhaseGVN) :=
  if n.Opcode = .Op_CmpP then
    let in1 := n.in_ 1
    let in2 := n.in_ 2
    let in2_stepped := if H.bottom_type in1 = Ty.NULL_PTR then step_over_gc_barrier in2 else in2
    let in1_stepped :=
      if H.bottom_type in2_stepped = Ty.NULL_PTR then step_over_gc_barrier in1 else in1
    let igvn := phase.is_IterGVN
    if in1_stepped ≠ n.in_ 1 then
      let n1 := n.set_req 1 in1_stepped
      let phase1 : PhaseGVN :=
        match igvn with
        | some i => ⟨some (H.set_req_X n 1 in1_stepped i)⟩
        | none => phase
      if in2_stepped = n1.in_ 2 then some (n1, phase1) else none
    else if in2_stepped ≠ n.in_ 2 then
      let n1 := n.set_req 2 in2_stepped
      let phase1 : PhaseGVN :=
        match igvn with
        | some i => ⟨some (H.set_req_X n 2 in2_stepped i)⟩
        | none => phase
      some (n1, phase1)
    else some (Node.NULL, phase)
  else if can_reshape = true ∧ n.Opcode = .Op_If ∧ H.is_heap_stable_test n = true ∧
      n.in_ 0 ≠ Node.NULL then
    match ideal_node_search H n.Opcode 18 16 (n.in_ 0) n with
    | none => none
    | some none => some (Node.NULL, phase)
    | some (some (dom, prev_dom)) =>
      if n = dom then some (Node.NULL, phase)
      else
        let r := H.dominated_by n prev_dom phase.is_IterGVN
        some (r.1, ⟨r.2⟩)
  else some (Node.NULL, phase)

/-- The result is the node returned and the phase; pushing on the worklist of a phase
that is not an iterative one is a fault. -/
def ideal_node (H : Host) (fast_outs : Node → List Node) (phase : PhaseGVN) (n : Node)
    (can_reshape : Bool) : Option (Node × PhaseGVN) :=
  if is_shenandoah_wb_pre_call n = true then
    let cnt := write_ref_field_pre_entry_Type.domain.cnt
    if n.req > cnt then
      let addp := n.in_ cnt
      if has_only_shenandoah_wb_pre_uses fast_outs addp = true then
        let n1 := n.del_req cnt
        if can_reshape = true then
          match phase.is_IterGVN with
          | none => none
          | some igvn => some (n1, ⟨some { igvn with _worklist := igvn._worklist ++ [addp] }⟩)
        else some (n1, phase)
      else ideal_node_peepholes H phase n can_reshape
    else ideal_node_peepholes H phase n can_reshape
  else ideal_node_peepholes H phase n can_reshape

/-- Modelled from the spec: `MemNode::Address` (opto/memnode.hpp is not among the
sources), the position of the address input. -/
def MemNode_Address : Nat := 2

/-- The result is the value returned and the node `n`, of which the extra input may have
been deleted. The block under `VerifyOptoOopOffsets` is that of a debug build. -/
def final_graph_reshaping (F : Flags) (H : Host) (fast_outs : Node → List Node) (n : Node)
    (opcode : Opcode) : Option (Bool × Node) :=
  if opcode = .Op_CallLeaf ∨ opcode = .Op_CallLeafNoFP then
    if n.is_Call = false then none
    else if is_shenandoah_wb_pre_call n = true then
      let cnt := write_ref_field_pre_entry_Type.domain.cnt
      if n.req > cnt then
        if n.req ≠ cnt + 1 then none
        else
          let addp := n.in_ cnt
          if has_only_shenandoah_wb_pre_uses fast_outs addp = true then none
          else some (false, n.del_req cnt)
      else some (false, n)
    else some (false, n)
  else if opcode = .Op_ShenandoahCompareAndSwapP ∨ opcode = .Op_ShenandoahCompareAndSwapN ∨
      opcode = .Op_ShenandoahWeakCompareAndSwapN ∨
      opcode = .Op_ShenandoahWeakCompareAndSwapP ∨
      opcode = .Op_ShenandoahCompareAndExchangeP ∨
      opcode = .Op_ShenandoahCompareAndExchangeN then
    if F.VerifyOptoOopOffsets = true then
      if H.is_Mem n = false then none
      else
        match H.isa_instptr (H.bottom_type (n.in_ MemNode_Address)) with
        | none => none
        | some tp =>
          if H.contains_field_offset (H.klass tp) (H.offset tp) = true then some (true, n)
          else none
    else some (true, n)
  else if opcode = .Op_ShenandoahLoadReferenceBarrier then none
  else some (false, n)

end ShenandoahBarrierSetC2

/-! ## The nodes that the dominator search of `ideal_node` meets -/

/-- The value of the variable `dom` of the search after `k` applications of
`IfNode::up_one_dom`, from the value `dom` on. -/
def dom_after (H : Host) (dom : Node) (k : Nat) : Node := Nat.iterate H.up_one_dom k dom

/-- The value of the variable `prev_dom` at that point: the value of `dom` one
application before. -/
def prev_dom_after (H : Host) (dom prev_dom : Node) : Nat → Node
  | 0 => prev_dom
  | k + 1 => dom_after H dom k

/-- The condition of the `while` loop after `k` applications of `up_one_dom`: the node
reached is not a node of the opcode `op`, or not a marking test, or the node before is
not one of its projections. -/
def search_goes_on (H : Host) (op : Opcode) (dom prev_dom : Node) (k : Nat) : Bool :=
  decide ((dom_after H dom k).Opcode ≠ op ∨
    H.is_heap_stable_test (dom_after H dom k) = false ∨
    (prev_dom_after H dom prev_dom k).in_ 0 ≠ dom_after H dom k)

/-- The test of `step_over_gc_barrier`: the node is a load reference barrier or an
enqueue barrier. Its value input is the input 1 of both. -/
def is_gc_barrier (c : Node) : Bool :=
  decide (c.Opcode = .Op_ShenandoahLoadReferenceBarrier ∨
    c.Opcode = .Op_ShenandoahEnqueueBarrier)

/-! ## Array copies and escape analysis -/

/-- The phases of `BarrierSetC2::ArrayCopyPhase`. -/
inductive ArrayCopyPhase where
  | Parsing | Optimization | Expansion
  deriving DecidableEq, Repr

/-- The escape states of `PointsToNode`. -/
inductive EscapeState where
  | NoEscape | ArgEscape | GlobalEscape
  deriving DecidableEq, Repr

/-- Modelled from the spec: the calls into the `ConnectionGraph` (opto/escape.hpp is not
among the sources) that the hooks make, with their arguments; `delayed_worklist` tells
whether a worklist was passed (true) or `NULL` (false). -/
inductive ConnectionGraphCall where
  | add_objload_to_connection_graph (n : Node)
  | add_to_congraph_unsafe_access (n : Node) (opcode : Opcode)
  | add_local_var_and_edge (n : Node) (es : EscapeState) (to_n : Node)
      (delayed_worklist : Bool)
  | add_final_edges_unsafe_access (n : Node) (opcode : Opcode)
  deriving DecidableEq, Repr

/-- The state of a `ConnectionGraph`: the calls made into it, in order. -/
abbrev ConnectionGraph := List ConnectionGraphCall

/-- Modelled from the spec: `PhaseTransform::find_intptr_t_con(n, value_if_unknown)`
(opto/phaseX.hpp is not among the sources): the constant of the node when its type is a
constant, and `value_if_unknown` otherwise. -/
def find_intptr_t_con (H : Host) (n : Node) (value_if_unknown : Int) : Int :=
  match H.find_intptr_t_type n with
  | some t => if t.is_con = true then t.get_con else value_if_unknown
  | none => value_if_unknown

/-- The conversion `(int)` of an `intptr_t`: the value modulo `2 ^ 32`, as a signed
32-bit integer. -/
def int_cast (x : Int) : Int := (x + 2 ^ 31) % 2 ^ 32 - 2 ^ 31

namespace ShenandoahBarrierSetC2

def array_copy_requires_gc_barriers (F : Flags) (tightly_coupled_alloc : Bool)
    (type : BasicType) (is_clone : Bool) (phase : ArrayCopyPhase) : Bool :=
  let is_oop := decide (type = .T_OBJECT ∨ type = .T_ARRAY)
  if !is_oop then false
  else if tightly_coupled_alloc then
    if phase = .Optimization then false
    else !is_clone
  else if phase = .Optimization then !F.ShenandoahStoreValEnqueueBarrier
  else true

/-- The result is the value returned and the connection graph. -/
def escape_add_to_con_graph (H : Host) (conn_graph : ConnectionGraph) (n : Node)
    (opcode : Opcode) : Bool × ConnectionGraph :=
  if opcode = .Op_ShenandoahCompareAndExchangeP ∨
      opcode = .Op_ShenandoahCompareAndExchangeN then
    (true, conn_graph ++ [.add_objload_to_connection_graph n,
      .add_to_congraph_unsafe_access n opcode])
  else if opcode = .Op_ShenandoahWeakCompareAndSwapP ∨
      opcode = .Op_ShenandoahWeakCompareAndSwapN ∨
      opcode = .Op_ShenandoahCompareAndSwapP ∨
      opcode = .Op_ShenandoahCompareAndSwapN then
    (true, conn_graph ++ [.add_to_congraph_unsafe_access n opcode])
  else if opcode = .Op_StoreP then
    let adr := n.in_ MemNode_Address
    let adr_type := H.type adr
    if H.isa_rawptr adr_type = true ∧ adr.is_AddP = true then
      let base := H.get_addp_base adr
      if base.Opcode = .Op_LoadP ∧ (base.in_ MemNode_Address).is_AddP = true then
        let adr1 := base.in_ MemNode_Address
        let tls := H.get_addp_base adr1
        if tls.Opcode = .Op_ThreadLocal then
          let offs := int_cast (find_intptr_t_con H (adr1.in_ AddPNode.Offset) H.OffsetBot)
          let buf_offset := H.buffer_offset
          if offs = buf_offset then (true, conn_graph)
          else (false, conn_graph)
        else (false, conn_graph)
      else (false, conn_graph)
    else (false, conn_graph)
  else if opcode = .Op_ShenandoahEnqueueBarrier then
    (false, conn_graph ++ [.add_local_var_and_edge n .NoEscape (n.in_ 1) true])
  else if opcode = .Op_ShenandoahLoadReferenceBarrier then
    (true, conn_graph ++ [.add_local_var_and_edge n .NoEscape
      (n.in_ ShenandoahLoadReferenceBarrierNode.ValueIn) true])
  else (false, conn_graph)

/-- The result is the value returned and the connection graph. -/
def escape_add_final_edges (H : Host) (conn_graph : ConnectionGraph) (n : Node)
    (opcode : Opcode) : Bool × ConnectionGraph :=
  if opcode = .Op_ShenandoahCompareAndExchangeP ∨
      opcode = .Op_ShenandoahCompareAndExchangeN then
    let adr := n.in_ MemNode_Address
    (H.add_final_edges_unsafe_access n opcode,
      conn_graph ++ [.add_local_var_and_edge n .NoEscape adr false,
        .add_final_edges_unsafe_access n opcode])
  else if opcode = .Op_ShenandoahCompareAndSwapP ∨
      opcode = .Op_ShenandoahCompareAndSwapN ∨
      opcode = .Op_ShenandoahWeakCompareAndSwapP ∨
      opcode = .Op_ShenandoahWeakCompareAndSwapN then
    (H.add_final_edges_unsafe_access n opcode,
      conn_graph ++ [.add_final_edges_unsafe_access n opcode])
  else if opcode = .Op_ShenandoahEnqueueBarrier then
    (true, conn_graph ++ [.add_local_var_and_edge n .NoEscape (n.in_ 1) false])
  else if opcode = .Op_ShenandoahLoadReferenceBarrier then
    (true, conn_graph ++ [.add_local_var_and_edge n .NoEscape
      (n.in_ ShenandoahLoadReferenceBarrierNode.ValueIn) false])
  else (false, conn_graph)

end ShenandoahBarrierSetC2

/-! ## A concrete host and concrete inputs

A small host on which the statements below can be evaluated: value numbering returns the
new node, the thread-local offsets and `MARKING` are those of the 64-bit build. -/

/-- A chain of `k` stores of eight bytes to offset 24 of the object `Parm 0`, on top of
the memory state `mem`. -/
def exampleStoreChain : Nat → Node → Node
  | 0, mem => mem
  | k + 1, mem =>
    Node.Store (exampleStoreChain k mem)
      (Node.AddP (Node.Parm 0) (Node.Parm 0) (Node.ConX 24)) (Node.Parm 5) 8

/-- The concrete host. Offsets are read off an `AddP` with a constant offset, and
`Allocate 0` is the allocation of the base `Parm 0`. The type `other 10` is an array of
objects, `other 11` an array of `int`, `other 12` an exactly known instance type
without object fields; the `If` nodes whose condition is `Parm 20` are the marking
tests, and the dominator of a node is its control input. -/
def exampleHost : Host where
  transform := fun n => n
  bottom_type := fun n => match n with
    | .ConP_null => Ty.NULL_PTR
    | .ShenandoahLoadReferenceBarrier _ .ConP_null => Ty.NULL_PTR
    | .ShenandoahEnqueueBarrier .ConP_null => Ty.NULL_PTR
    | .Parm 9 => Ty.other 9
    | _ => Ty.TypeInstPtr_NOTNULL
  basic_type := fun t => match t with
    | .TypeInt_BYTE => .T_BYTE
    | .TypeX_X => .T_LONG
    | .TypeRawPtr_NOTNULL => .T_ADDRESS
    | .TypeRawPtr_BOTTOM => .T_ADDRESS
    | _ => .T_OBJECT
  is_ptr_to_narrowoop := fun t => decide (t = Ty.other 9)
  make_narrowoop := fun t => t
  is_oopptr := fun t => t
  get_ptr_type := fun _ => Ty.TypeInstPtr_NOTNULL
  get_alias_index := fun _ => 4
  control := fun _ => Node.Parm 100
  memory := fun _ idx => match idx with
    | 4 => Node.Store (Node.Proj (Node.Initialize 0) 2)
             (Node.AddP (Node.Parm 0) (Node.Parm 0) (Node.ConX 24)) (Node.Parm 5) 8
    | 5 => Node.Store (Node.Proj (Node.Initialize 1) 2)
             (Node.AddP (Node.Parm 0) (Node.Parm 0) (Node.ConX 24)) (Node.Parm 5) 8
    | 6 => Node.Proj (Node.Initialize 2) 2
    | 7 => exampleStoreChain 50 (Node.Proj (Node.Initialize 0) 2)
    | 8 => exampleStoreChain 49 (Node.Proj (Node.Initialize 0) 2)
    | 9 => Node.Store (Node.Proj (Node.Initialize 0) 2)
             (Node.AddP (Node.Parm 0) (Node.Parm 0) (Node.ConX 8)) (Node.Parm 5) 16
    | _ => Node.Parm 101
  Ideal_base_and_offset := fun n => match n with
    | .AddP base _ (.ConX c) => (base, c)
    | _ => (Node.NULL, -2000000001)
  Ideal_allocation := fun n => match n with
    | .Parm 0 => Node.Allocate 0
    | _ => Node.NULL
  detect_ptr_independence := fun _ _ _ _ => false
  allocation := fun n => match n with
    | .Initialize 0 => Node.Allocate 0
    | .Initialize 1 => Node.Allocate 0
    | .Initialize 2 => Node.Allocate 2
    | _ => Node.NULL
  find_captured_store := fun n start _ => match n with
    | .Initialize 1 => if start = 16 then Node.Parm 7 else Node.NULL
    | _ => Node.NULL
  zero_memory := fun n => Node.Proj n 2
  type2aelembytes := fun bt => match bt with
    | .T_BOOLEAN => 1 | .T_BYTE => 1 | .T_CHAR => 2 | .T_SHORT => 2
    | .T_INT => 4 | .T_FLOAT => 4 | .T_NARROWOOP => 4 | .T_VOID => 0
    | _ => 8
  OffsetBot := -2000000001
  MARKING := 2
  index_offset := 40
  buffer_offset := 56
  gc_state_offset := 32
  is_gc_state_load := fun _ => true
  find_intptr_t_type := fun n => match n with
    | .ConX c => some ⟨true, c⟩
    | _ => none
  referent_offset := 12
  isa_oopptr := fun t => some t
  isa_aryptr := fun t => decide (t = Ty.other 10 ∨ t = Ty.other 11)
  isa_instptr := fun t => if t = Ty.other 10 ∨ t = Ty.other 11 then none else some t
  klass := fun t => match t with
    | .other 10 => 10
    | .other 11 => 11
    | .other 12 => 12
    | _ => 0
  is_loaded := fun _ => true
  is_subtype_of := fun a b => decide (b = 0 ∨ a = b)
  Reference_klass := 1
  Object_klass := 0
  makecon_klass := fun k => Node.Parm (200 + k)
  gen_instanceof := fun _ _ => Node.Parm 300
  store_at_resolved := fun _ val kit => (Node.Parm 400, kit)
  load_at_resolved := fun _ _ kit => (Node.Parm 401, kit)
  atomic_cmpxchg_val_at_resolved := fun _ _ _ _ kit => (Node.Parm 402, Node.Parm 402, kit)
  atomic_cmpxchg_bool_at_resolved := fun _ _ _ _ kit => (Node.Parm 403, Node.Parm 403, kit)
  atomic_xchg_at_resolved := fun _ _ _ kit => (Node.Parm 404, Node.Parm 404, kit)
  pin_atomic_op := fun _ kit => kit
  type := fun n => match n with
    | .Parm 10 => Ty.other 10
    | .Parm 11 => Ty.other 11
    | .Parm 12 => Ty.other 12
    | .AddP .top _ _ => Ty.TypeRawPtr_NOTNULL
    | _ => Ty.TypeInstPtr_NOTNULL
  klass_is_exact := fun t => decide (t = Ty.other 12)
  is_interface := fun _ => false
  has_subklass := fun k => decide (k = 0)
  has_injected_fields := fun _ => false
  has_object_fields := fun k => decide (k ≠ 12)
  element_basic_type := fun k => if k = 10 then .T_OBJECT else .T_INT
  clone_barrier_at_expansion := fun _ _ igvn => igvn
  is_heap_stable_test := fun n => match n with
    | .If _ (.Parm 20) => true
    | _ => false
  up_one_dom := fun n => n.in_ 0
  dominated_by := fun _ _ igvn => (Node.ConI 0, igvn)
  set_req_X := fun _ _ _ igvn => igvn
  is_Mem := fun _ => false
  offset := fun _ => 0
  contains_field_offset := fun _ _ => true
  isa_rawptr := fun t => decide (t = Ty.TypeRawPtr_NOTNULL ∨ t = Ty.TypeRawPtr_BOTTOM)
  get_addp_base := fun n => match n with
    | .AddP .top address _ => address
    | .AddP base _ _ => base
    | _ => Node.NULL
  add_final_edges_unsafe_access := fun _ _ => true

/-- A host like `exampleHost` whose value numbering replaces a new load reference barrier
by its value input, as it does for a value that needs no barrier. -/
def foldingHost : Host :=
  { exampleHost with
    transform := fun n => match n with
      | .ShenandoahLoadReferenceBarrier _ val => val
      | n => n }

/-- All barrier flags enabled; the develop flag `VerifyOptoOopOffsets` has its default. -/
def exampleFlags : Flags := ⟨true, true, true, true, true, true, false⟩

/-- A concrete parse-time store or load of a reference into the heap. -/
def exampleAccess : C2Access where
  decorators := ⟨false, false, true, true, false, false, false, false⟩
  addr_node := Node.AddP (Node.Parm 0) (Node.Parm 0) (Node.ConX 16)
  addr_type := Ty.TypeInstPtr_NOTNULL
  base := Node.Parm 0
  type := .T_OBJECT
  is_oop := true
  is_parse_access := true
  is_opt_access := false

/-- A concrete atomic access to the same slot. -/
def exampleAtomicAccess : C2AtomicParseAccess where
  toC2Access := exampleAccess
  memory := Node.Parm 102
  mem_node_mo := .seqcst
  raw_access := Node.NULL

/-- A chain of control nodes for the dominator search: `k` branches that are no marking
tests, each entered through its projection 0, below the control node `ctrl`. -/
def exampleBranches : Nat → Node → Node
  | 0, ctrl => ctrl
  | k + 1, ctrl => Node.Proj (Node.If (exampleBranches k ctrl) (Node.Parm 21)) 0

/-- The marking test that dominates the examples. -/
def exampleMarkingTest : Node := Node.If (Node.Parm 100) (Node.Parm 20)

/-- A marking test below `exampleMarkingTest`, with `k` other branches between them: its
control input is `2 * k` applications of `up_one_dom` away from the projection of
`exampleMarkingTest`, and `2 * k + 1` applications away from `exampleMarkingTest`. -/
def exampleDominatedTest (k : Nat) : Node :=
  Node.If (exampleBranches k (Node.Proj exampleMarkingTest 0)) (Node.Parm 20)

/-- The empty kit. -/
def exampleKit : GraphKit := ⟨[], []⟩

/-- A memory for the runs: the thread is at address 1000, its gc-state byte is 2
(marking), its queue index is 16 and its queue buffer is at 5000. -/
def exampleMemory : Nat → Nat := fun a =>
  if a = 1032 then 2 else if a = 1040 then 16 else if a = 1056 then 5000 else 0

/-! ## Theorems -/

section Registry

open ShenandoahBarrierSetC2 ShenandoahBarrierSetC2State

theorem record_for_igvn_foldl_state (C : Compile) (l : List Node) :
    (l.foldl Compile.record_for_igvn C).barrier_set_state = C.barrier_set_state := by
  induction l generalizing C with
  | nil => rfl
  | cons x xs ih => simp [List.foldl_cons, ih, Compile.record_for_igvn]

theorem record_useful_addp_users_state (fast_outs : Node → List Node)
    (useful : Unique_Node_List) (C : Compile) :
    (record_useful_addp_users fast_outs useful C).barrier_set_state
      = C.barrier_set_state := by
  unfold record_useful_addp_users
  induction useful generalizing C with
  | nil => rfl
  | cons x xs ih =>
    simp only [List.foldl_cons]
    rw [ih]
    split
    · exact record_for_igvn_foldl_state _ _
    · rfl

theorem at_append_length (pre suf : List Node) (x : Node) :
    GrowableArray.at_ (pre ++ x :: suf) pre.length = some x := by
  unfold GrowableArray.at_
  rw [List.getElem?_append_right (le_refl _)]
  simp

theorem remove_append_of_not_mem (pre suf : List Node) (x : Node) (h : x ∉ pre) :
    GrowableArray.remove (pre ++ x :: suf) x = pre ++ suf := by
  simp [GrowableArray.remove, List.erase_append_right _ h]

theorem sweep_enqueue_barriers_eq (useful : Unique_Node_List) (pre : List Node) :
    ∀ (suf lrb : List Node), pre.Nodup →
      sweep_enqueue_barriers useful pre.length ⟨pre ++ suf, lrb⟩
        = some ⟨pre.filter useful.member ++ suf, lrb⟩ := by
  induction pre using List.reverseRecOn with
  | nil => intro suf lrb _; rfl
  | append_singleton pre x ih =>
    intro suf lrb hnd
    have hx : x ∉ pre := by
      intro hmem
      exact (List.nodup_append.mp hnd).2.2 hmem (List.mem_singleton_self x)
    have hpre : pre.Nodup := (List.nodup_append.mp hnd).1
    have hlen : (pre ++ [x]).length = pre.length + 1 := by simp
    rw [hlen, sweep_enqueue_barriers]
    have hat : ShenandoahBarrierSetC2State.enqueue_barrier ⟨pre ++ [x] ++ suf, lrb⟩ pre.length
        = some x := by
      unfold ShenandoahBarrierSetC2State.enqueue_barrier
      rw [List.append_assoc, List.singleton_append]
      exact at_append_length pre suf x
    rw [hat]
    simp only
    by_cases hu : useful.member x = true
    · have := ih (x :: suf) lrb hpre
      simp only [hu, Bool.not_true, Bool.false_eq_true, if_false]
      rw [List.append_assoc, List.singleton_append, this]
      simp [List.filter_append, hu]
    · have hu2 : useful.member x = false := by simpa using hu
      have hc : GrowableArray.contains (pre ++ [x] ++ suf) x = true := by
        simp [GrowableArray.contains]
      have hr : GrowableArray.remove (pre ++ [x] ++ suf) x = pre ++ suf := by
        rw [List.append_assoc, List.singleton_append]
        exact remove_append_of_not_mem pre suf x hx
      simp only [hu2, Bool.not_false, if_true, remove_enqueue_barrier, hc, hr]
      rw [ih suf lrb hpre]
      simp [List.filter_append, hu2]

theorem sweep_load_reference_barriers_eq (useful : Unique_Node_List) (pre : List Node) :
    ∀ (suf enq : List Node), pre.Nodup →
      sweep_load_reference_barriers useful pre.length ⟨enq, pre ++ suf⟩
        = some ⟨enq, pre.filter useful.member ++ suf⟩ := by
  induction pre using List.reverseRecOn with
  | nil => intro suf enq _; rfl
  | append_singleton pre x ih =>
    intro suf enq hnd
    have hx : x ∉ pre := by
      intro hmem
      exact (List.nodup_append.mp hnd).2.2 hmem (List.mem_singleton_self x)
    have hpre : pre.Nodup := (List.nodup_append.mp hnd).1
    have hlen : (pre ++ [x]).length = pre.length + 1 := by simp
    rw [hlen, sweep_load_reference_barriers]
    have hat : ShenandoahBarrierSetC2State.load_reference_barrier
        ⟨enq, pre ++ [x] ++ suf⟩ pre.length = some x := by
      unfold ShenandoahBarrierSetC2State.load_reference_barrier
      rw [List.append_assoc, List.singleton_append]
      exact at_append_length pre suf x
    rw [hat]
    simp only
    by_cases hu : useful.member x = true
    · have := ih (x :: suf) enq hpre
      simp only [hu, Bool.not_true, Bool.false_eq_true, if_false]
      rw [List.append_assoc, List.singleton_append, this]
      simp [List.filter_append, hu]
    · have hu2 : useful.member x = false := by simpa using hu
      have hc : GrowableArray.contains (pre ++ [x] ++ suf) x = true := by
        simp [GrowableArray.contains]
      have hr : GrowableArray.remove (pre ++ [x] ++ suf) x = pre ++ suf := by
        rw [List.append_assoc, List.singleton_append]
        exact remove_append_of_not_mem pre suf x hx
      simp only [hu2, Bool.not_false, if_true, remove_load_reference_barrier, hc, hr]
      rw [ih suf enq hpre]
      simp [List.filter_append, hu2]

/-- C1: for a registry whose two collections are duplicate-free and any live set
`useful`, `eliminate_useless_gc_barriers` returns, and afterwards each collection is the
original one restricted to the members of `useful`, in the original order. -/
theorem C1_eliminate_useless_gc_barriers_filter (fast_outs : Node → List Node)
    (useful : Unique_Node_List) (C : Compile)
    (henq : C.barrier_set_state._enqueue_barriers.Nodup)
    (hlrb : C.barrier_set_state._load_reference_barriers.Nodup) :
    ∃ C2, eliminate_useless_gc_barriers fast_outs useful C = some C2 ∧
      C2.barrier_set_state._enqueue_barriers
        = C.barrier_set_state._enqueue_barriers.filter (fun n => useful.member n) ∧
      C2.barrier_set_state._load_reference_barriers
        = C.barrier_set_state._load_reference_barriers.filter (fun n => useful.member n) := by
  obtain ⟨⟨enq, lrb⟩, igvn⟩ := C
  simp only at henq hlrb
  have h1 := sweep_enqueue_barriers_eq useful enq [] lrb henq
  have h2 := sweep_load_reference_barriers_eq useful lrb [] (enq.filter useful.member) hlrb
  simp only [List.append_nil] at h1 h2
  unfold eliminate_useless_gc_barriers
  simp only [record_useful_addp_users_state, enqueue_barriers_count, h1,
    load_reference_barriers_count, h2]
  exact ⟨_, rfl, rfl, rfl⟩

/-- Witness of C1: a registry with two enqueue barriers and two load reference barriers,
of which one each is useful. -/
theorem C1_eliminate_useless_gc_barriers_filter_witness :
    ∃ C2, eliminate_useless_gc_barriers (fun _ => []) [Node.Parm 1, Node.Parm 3]
        ⟨⟨[Node.Parm 0, Node.Parm 1], [Node.Parm 2, Node.Parm 3]⟩, []⟩ = some C2 ∧
      C2.barrier_set_state._enqueue_barriers
        = [Node.Parm 0, Node.Parm 1].filter
            (fun n => Unique_Node_List.member [Node.Parm 1, Node.Parm 3] n) ∧
      C2.barrier_set_state._load_reference_barriers
        = [Node.Parm 2, Node.Parm 3].filter
            (fun n => Unique_Node_List.member [Node.Parm 1, Node.Parm 3] n) :=
  C1_eliminate_useless_gc_barriers_filter (fun _ => []) [Node.Parm 1, Node.Parm 3]
    ⟨⟨[Node.Parm 0, Node.Parm 1], [Node.Parm 2, Node.Parm 3]⟩, []⟩
    (by decide) (by decide)

end Registry

section PreBarrier
open ShenandoahBarrierSetC2

theorem modify_control_append_two (f : Stmt → Option Stmt) (pre : List Stmt) (a b : Stmt) :
    Stmt.modify_control f (pre ++ [a, b]) = (f b).map (fun b1 => pre ++ [a, b1]) := by
  have h1 : (pre ++ [a, b]).getLast? = some b := by
    simp [List.getLast?_append]
  have h2 : (pre ++ [a, b]).dropLast = pre ++ [a] := by
    have : pre ++ [a, b] = (pre ++ [a]) ++ [b] := by simp
    rw [this, List.dropLast_concat]
  unfold Stmt.modify_control
  rw [h1]
  simp only [h2]
  cases f b <;> simp

theorem modify_control_singleton (f : Stmt → Option Stmt) (b : Stmt) :
    Stmt.modify_control f [b] = (f b).map (fun b1 => [b1]) := by
  unfold Stmt.modify_control
  cases h : f b <;> simp [h]

theorem modify_control_append_one (f : Stmt → Option Stmt) (pre : List Stmt) (b : Stmt) :
    Stmt.modify_control f (pre ++ [b]) = (f b).map (fun b1 => pre ++ [b1]) := by
  unfold Stmt.modify_control
  cases h : f b <;> simp [h]

theorem modify_control_cons_cons (f : Stmt → Option Stmt) (a b : Stmt) (l : List Stmt) :
    Stmt.modify_control f (a :: b :: l)
      = (Stmt.modify_control f (b :: l)).map (fun r => a :: r) := by
  unfold Stmt.modify_control
  rw [List.getLast?_cons_cons]
  cases h1 : (b :: l).getLast? with
  | none => simp
  | some s => simp [List.dropLast, Option.map_map, Function.comp_def]

theorem satb_write_barrier_pre_template_eq (F : Flags) (H : Host) (kit : GraphKit)
    (do_load : Bool) (adr : Node) (alias_idx : Nat) (val_type : Option Ty) (pre_val : Node)
    (hgc : H.is_gc_state_load (Node.Load (Node.AddP Node.top Node.ThreadLocal
      (Node.ConX H.gc_state_offset)) (some Ty.TypeInt_BYTE) .T_BYTE AliasIdxRaw) = true)
    (hsz : H.type2aelembytes .T_LONG = 8) :
    satb_write_barrier_pre_template F H kit do_load adr alias_idx val_type pre_val .T_OBJECT
      = some ⟨kit.emitted ++ satb_pre_barrier_code H do_load adr alias_idx val_type pre_val
            (if F.ShenandoahSATBBarrier = true ∧ adr ≠ Node.NULL then adr else Node.NULL),
          kit.transformed ++ [Node.SubX (Node.Load (Node.AddP Node.top Node.ThreadLocal
            (Node.ConX H.index_offset)) (some Ty.TypeX_X) .T_LONG AliasIdxRaw)
            (Node.ConX sizeof_intptr_t)]⟩ := by
  by_cases hadd : F.ShenandoahSATBBarrier = true ∧ adr ≠ Node.NULL
  · cases do_load <;>
    simp [satb_write_barrier_pre_template, hgc, hsz, sizeof_size_t, GraphKit.transform,
      GraphKit.final_sync, hadd, modify_control_append_two, Stmt.modify_in1,
      modify_control_singleton, modify_control_append_one, modify_control_cons_cons,
      is_shenandoah_wb_pre_call,
      Node.add_req, satb_pre_barrier_code]
  · cases do_load <;>
    simp [satb_write_barrier_pre_template, hgc, hsz, sizeof_size_t, GraphKit.transform,
      GraphKit.final_sync, hadd, satb_pre_barrier_code]


theorem exec_load_Load (tls : Nat) (value_of : Node → Nat) (adr : Node) (t : Option Ty)
    (bt : BasicType) (i : Nat) (st : RunState) :
    exec tls value_of (.load (.Load adr t bt i)) st =
      { st with loaded :=
          (.Load adr t bt i, load_value bt (st.memory (eval tls value_of st.loaded adr)))
            :: st.loaded } := by
  simp [exec]

theorem exec_store (tls : Nat) (value_of : Node → Nat) (adr val : Node) (bt : BasicType)
    (i : Nat) (mo : MemOrd) (st : RunState) :
    exec tls value_of (.store adr val bt i mo) st =
      { st with
        memory := Function.update st.memory (eval tls value_of st.loaded adr)
          (eval tls value_of st.loaded val)
        trace := st.trace ++
          [Effect.store (eval tls value_of st.loaded adr) (eval tls value_of st.loaded val)] } := by
  simp [exec]

theorem exec_make_leaf_call (tls : Nat) (value_of : Node → Nat) (e : Address) (nm : String)
    (p0 p1 x : Node) (st : RunState) :
    exec tls value_of (.make_leaf_call (.CallLeaf e nm p0 p1 x)) st =
      { st with trace := st.trace ++
          [Effect.leaf_call e [eval tls value_of st.loaded p0, eval tls value_of st.loaded p1]] } := by
  simp [exec]

theorem exec_if_then_none (tls : Nat) (value_of : Node → Nat) (l r : Node) (relop : BoolTest)
    (p : Prob) (t : List Stmt) (st : RunState) :
    exec tls value_of (.if_then l relop r p t none) st =
      if relop.holds (eval tls value_of st.loaded l) (eval tls value_of st.loaded r) = true then
        exec_block tls value_of t st
      else st := by
  simp [exec]

theorem exec_if_then_some (tls : Nat) (value_of : Node → Nat) (l r : Node) (relop : BoolTest)
    (p : Prob) (t e : List Stmt) (st : RunState) :
    exec tls value_of (.if_then l relop r p t (some e)) st =
      if relop.holds (eval tls value_of st.loaded l) (eval tls value_of st.loaded r) = true then
        exec_block tls value_of t st
      else exec_block tls value_of e st := by
  simp [exec]

theorem exec_block_nil (tls : Nat) (value_of : Node → Nat) (st : RunState) :
    exec_block tls value_of [] st = st := by
  simp [exec_block]

theorem exec_block_cons (tls : Nat) (value_of : Node → Nat) (s : Stmt) (rest : List Stmt)
    (st : RunState) :
    exec_block tls value_of (s :: rest) st
      = exec_block tls value_of rest (exec tls value_of s st) := by
  simp [exec_block]

theorem eval_Load (tls : Nat) (value_of : Node → Nat) (loaded : List (Node × Nat))
    (adr : Node) (t : Option Ty) (bt : BasicType) (i : Nat) :
    eval tls value_of loaded (.Load adr t bt i) =
      match lookup_loaded loaded (.Load adr t bt i) with
      | some v => v
      | none => value_of (.Load adr t bt i) := by
  simp [eval]

theorem eval_AddP (tls : Nat) (value_of : Node → Nat) (loaded : List (Node × Nat))
    (b a o : Node) :
    eval tls value_of loaded (.AddP b a o)
      = word_add (eval tls value_of loaded a) (eval tls value_of loaded o) := by
  simp [eval]

theorem eval_AndI (tls : Nat) (value_of : Node → Nat) (loaded : List (Node × Nat))
    (a b : Node) :
    eval tls value_of loaded (.AndI a b)
      = Nat.land (eval tls value_of loaded a) (eval tls value_of loaded b) := by
  simp [eval]

theorem eval_SubX (tls : Nat) (value_of : Node → Nat) (loaded : List (Node × Nat))
    (a b : Node) :
    eval tls value_of loaded (.SubX a b)
      = word_sub (eval tls value_of loaded a) (eval tls value_of loaded b) := by
  simp [eval]

theorem eval_ConX (tls : Nat) (value_of : Node → Nat) (loaded : List (Node × Nat))
    (c : Int) : eval tls value_of loaded (.ConX c) = (c % 2 ^ 64).toNat := by
  simp [eval]

theorem eval_ConI (tls : Nat) (value_of : Node → Nat) (loaded : List (Node × Nat))
    (c : Int) : eval tls value_of loaded (.ConI c) = (c % 2 ^ 32).toNat := by
  simp [eval]

theorem eval_ConP_null (tls : Nat) (value_of : Node → Nat) (loaded : List (Node × Nat)) :
    eval tls value_of loaded .ConP_null = 0 := by
  simp [eval]

theorem eval_ThreadLocal (tls : Nat) (value_of : Node → Nat) (loaded : List (Node × Nat)) :
    eval tls value_of loaded .ThreadLocal = tls := by
  simp [eval]


theorem lookup_loaded_cons (k n : Node) (v : Nat) (rest : List (Node × Nat)) :
    lookup_loaded ((k, v) :: rest) n = if n = k then some v else lookup_loaded rest n := by
  simp [lookup_loaded]

theorem toNat_zero_emod_32 : ((0 : Int) % 2 ^ 32).toNat = 0 := by norm_num

theorem toNat_zero_emod_64 : ((0 : Int) % 2 ^ 64).toNat = 0 := by norm_num

theorem toNat_eight_emod_64 : ((8 : Int) % 2 ^ 64).toNat = 8 := by decide

theorem run_satb_pre_barrier_code (H : Host) (do_load : Bool) (adr : Node) (alias_idx : Nat)
    (val_type : Option Ty) (pre_val extra : Node)
    (tls : Nat) (value_of : Node → Nat) (memory : Nat → Nat) (src : Nat)
    (hT : ∀ loaded n, eval tls value_of loaded (H.transform n) = eval tls value_of loaded n)
    (hsrc : ∀ loaded, eval tls value_of loaded (if do_load then adr else pre_val) = src) :
    run tls value_of memory
        (satb_pre_barrier_code H do_load adr alias_idx val_type pre_val extra)
      = if Nat.land (load_value .T_BYTE (memory (thread_field tls H.gc_state_offset)))
            (H.MARKING % 2 ^ 32).toNat ≠ 0 ∧
           (if do_load then load_value .T_OBJECT (memory src) else src) ≠ 0 then
          if load_value .T_LONG (memory (thread_field tls H.index_offset)) ≠ 0 then
            [Effect.store
               (word_add (load_value .T_ADDRESS (memory (thread_field tls H.buffer_offset)))
                 (word_sub (load_value .T_LONG (memory (thread_field tls H.index_offset))) 8))
               (if do_load then load_value .T_OBJECT (memory src) else src),
             Effect.store (thread_field tls H.index_offset)
               (word_sub (load_value .T_LONG (memory (thread_field tls H.index_offset))) 8)]
          else
            [Effect.leaf_call Address.write_ref_field_pre_entry
               [if do_load then load_value .T_OBJECT (memory src) else src, tls]]
        else [] := by
  cases do_load
  · simp only [Bool.false_eq_true, if_false] at hsrc ⊢
    simp only [run, satb_pre_barrier_code, exec_block_cons, exec_block_nil, exec_load_Load,
      exec_store, exec_make_leaf_call, exec_if_then_none, exec_if_then_some, eval_Load,
      eval_AddP, eval_AndI, eval_SubX, eval_ConX, eval_ConI, eval_ConP_null, eval_ThreadLocal,
      lookup_loaded_cons, hT, hsrc,
      if_true, if_false, Bool.false_eq_true, List.append_nil,
      List.nil_append, List.cons_append, List.singleton_append, sizeof_intptr_t]
    simp only [Node.Load.injEq, reduceCtorEq, false_and, and_false, if_false, Option.some.injEq,
      toNat_zero_emod_32, toNat_zero_emod_64, toNat_eight_emod_64, BoolTest.holds,
      decide_eq_true_eq, thread_field]
    split_ifs <;> simp_all
  · simp only [if_true] at hsrc ⊢
    simp only [run, satb_pre_barrier_code, exec_block_cons, exec_block_nil, exec_load_Load,
      exec_store, exec_make_leaf_call, exec_if_then_none, exec_if_then_some, eval_Load,
      eval_AddP, eval_AndI, eval_SubX, eval_ConX, eval_ConI, eval_ConP_null, eval_ThreadLocal,
      lookup_loaded_cons, hT, hsrc,
      if_true, if_false, Bool.false_eq_true, List.append_nil,
      List.nil_append, List.cons_append, List.singleton_append, sizeof_intptr_t]
    simp only [Node.Load.injEq, reduceCtorEq, false_and, and_false, if_false, Option.some.injEq,
      toNat_zero_emod_32, toNat_zero_emod_64, toNat_eight_emod_64, BoolTest.holds,
      decide_eq_true_eq, thread_field]
    split_ifs <;> simp_all



theorem satb_write_barrier_pre_emits (F : Flags) (H : Host) (kit : GraphKit) (do_load : Bool)
    (obj adr : Node) (alias_idx : Nat) (val : Node) (val_type : Option Ty) (pre_val : Node)
    (hload : do_load = true →
      obj ≠ Node.NULL ∧ adr ≠ Node.NULL ∧ pre_val = Node.NULL ∧ val_type ≠ none)
    (hpre : do_load = false →
      pre_val ≠ Node.NULL ∧ H.basic_type (H.bottom_type pre_val) = .T_OBJECT)
    (hgc : H.is_gc_state_load (Node.Load (Node.AddP Node.top Node.ThreadLocal
      (Node.ConX H.gc_state_offset)) (some Ty.TypeInt_BYTE) .T_BYTE AliasIdxRaw) = true)
    (hsz : H.type2aelembytes .T_LONG = 8)
    (hkeep : do_load = true →
      ¬(F.ReduceInitialCardMarks = true ∧
        satb_can_remove_pre_barrier H kit adr .T_OBJECT alias_idx = true))
    (hnn : do_load = false → H.bottom_type pre_val ≠ Ty.NULL_PTR) :
    satb_write_barrier_pre F H kit do_load obj adr alias_idx val val_type pre_val .T_OBJECT
      = some ⟨kit.emitted ++ satb_pre_barrier_code H do_load adr alias_idx val_type pre_val
            (if F.ShenandoahSATBBarrier = true ∧ adr ≠ Node.NULL then adr else Node.NULL),
          kit.transformed ++ [Node.SubX (Node.Load (Node.AddP Node.top Node.ThreadLocal
            (Node.ConX H.index_offset)) (some Ty.TypeX_X) .T_LONG AliasIdxRaw)
            (Node.ConX sizeof_intptr_t)]⟩ := by
  cases do_load
  · obtain ⟨h1, h2⟩ := hpre rfl
    have h3 := hnn rfl
    unfold satb_write_barrier_pre
    rw [if_neg (by simp), if_neg h1, if_neg h3, if_neg (not_not.mpr h2)]
    exact satb_write_barrier_pre_template_eq F H kit false adr alias_idx val_type pre_val hgc hsz
  · obtain ⟨h1, h2, h3, h4⟩ := hload rfl
    have h5 := hkeep rfl
    unfold satb_write_barrier_pre
    rw [if_pos rfl, if_neg h1, if_neg h2, if_neg (not_not.mpr h3), if_neg h4, if_neg h5]
    exact satb_write_barrier_pre_template_eq F H kit true adr alias_idx val_type pre_val hgc hsz

theorem word_sub_of_le (a b : Nat) (ha : a < 2 ^ 64) (hb : b ≤ a) : word_sub a b = a - b := by
  unfold word_sub
  have hb2 : b < 2 ^ 64 := lt_of_le_of_lt hb ha
  rw [Nat.mod_eq_of_lt hb2]
  have : a + (2 ^ 64 - b) = (a - b) + 2 ^ 64 := by omega
  rw [this, Nat.add_mod_right, Nat.mod_eq_of_lt (by omega)]

theorem load_value_T_LONG_lt (raw : Nat) : load_value .T_LONG raw < 2 ^ 64 := by
  unfold load_value
  simp only [reduceCtorEq, if_false]
  exact Nat.mod_lt _ (by norm_num)

/-- C3: the control flow that `satb_write_barrier_pre` emits never drops a non-null old
value `X` while marking is active. When the assertions of the function hold and the
barrier is not removed statically, the function returns and appends `code` to the kit; in
a run of `code` from any memory with `(gc_state & MARKING) != 0` and `X != null`, a
non-zero queue index makes the run store `X` at `queue_buffer + (queue_index - 8)` and
then store `queue_index - 8` as the index, with no call; a zero queue index makes the run
do exactly one leaf call of the enqueue slow path with the arguments `(X, thread)` and no
store. `X` is the value of `pre_val`, or with `do_load` the word loaded from `adr`. -/
theorem C3_satb_pre_barrier_logs_old_value (F : Flags) (H : Host) (kit : GraphKit)
    (do_load : Bool) (obj adr : Node) (alias_idx : Nat) (val : Node) (val_type : Option Ty)
    (pre_val : Node) (tls : Nat) (value_of : Node → Nat) (memory : Nat → Nat) (src : Nat)
    (hload : do_load = true →
      obj ≠ Node.NULL ∧ adr ≠ Node.NULL ∧ pre_val = Node.NULL ∧ val_type ≠ none)
    (hpre : do_load = false →
      pre_val ≠ Node.NULL ∧ H.basic_type (H.bottom_type pre_val) = .T_OBJECT)
    (hgc : H.is_gc_state_load (Node.Load (Node.AddP Node.top Node.ThreadLocal
      (Node.ConX H.gc_state_offset)) (some Ty.TypeInt_BYTE) .T_BYTE AliasIdxRaw) = true)
    (hsz : H.type2aelembytes .T_LONG = 8)
    (hkeep : do_load = true →
      ¬(F.ReduceInitialCardMarks = true ∧
        satb_can_remove_pre_barrier H kit adr .T_OBJECT alias_idx = true))
    (hnn : do_load = false → H.bottom_type pre_val ≠ Ty.NULL_PTR)
    (hT : ∀ loaded n, eval tls value_of loaded (H.transform n) = eval tls value_of loaded n)
    (hsrc : ∀ loaded, eval tls value_of loaded (if do_load then adr else pre_val) = src) :
    ∃ kit1 code,
      satb_write_barrier_pre F H kit do_load obj adr alias_idx val val_type pre_val .T_OBJECT
        = some kit1 ∧
      kit1.emitted = kit.emitted ++ code ∧
      (Nat.land (load_value .T_BYTE (memory (thread_field tls H.gc_state_offset)))
          (H.MARKING % 2 ^ 32).toNat ≠ 0 →
       (if do_load then load_value .T_OBJECT (memory src) else src) ≠ 0 →
       (load_value .T_LONG (memory (thread_field tls H.index_offset)) ≠ 0 →
          run tls value_of memory code =
            [Effect.store
               (word_add (load_value .T_ADDRESS (memory (thread_field tls H.buffer_offset)))
                 (word_sub (load_value .T_LONG (memory (thread_field tls H.index_offset))) 8))
               (if do_load then load_value .T_OBJECT (memory src) else src),
             Effect.store (thread_field tls H.index_offset)
               (word_sub (load_value .T_LONG (memory (thread_field tls H.index_offset))) 8)]) ∧
       (load_value .T_LONG (memory (thread_field tls H.index_offset)) = 0 →
          run tls value_of memory code =
            [Effect.leaf_call Address.write_ref_field_pre_entry
               [if do_load then load_value .T_OBJECT (memory src) else src, tls]]) ∧
       (8 ≤ load_value .T_LONG (memory (thread_field tls H.index_offset)) →
          word_sub (load_value .T_LONG (memory (thread_field tls H.index_offset))) 8
            = load_value .T_LONG (memory (thread_field tls H.index_offset)) - 8)) := by
  refine ⟨_, _, satb_write_barrier_pre_emits F H kit do_load obj adr alias_idx val val_type
    pre_val hload hpre hgc hsz hkeep hnn, rfl, ?_⟩
  intro hm hx
  rw [run_satb_pre_barrier_code H do_load adr alias_idx val_type pre_val _ tls value_of memory
    src hT hsrc]
  refine ⟨?_, ?_, ?_⟩
  · intro hi
    rw [if_pos ⟨hm, hx⟩, if_pos hi]
  · intro hi
    rw [if_pos ⟨hm, hx⟩, if_neg (by simp [hi])]
  · intro h8
    exact word_sub_of_le _ _ (load_value_T_LONG_lt _) h8

/-- C4: the control flow that `satb_write_barrier_pre` emits leaves the marking queue
alone when it is not needed: in a run from any memory with `(gc_state & MARKING) == 0`, or
with a null old value `X`, there is no store and no call. -/
theorem C4_satb_pre_barrier_no_effect (F : Flags) (H : Host) (kit : GraphKit)
    (do_load : Bool) (obj adr : Node) (alias_idx : Nat) (val : Node) (val_type : Option Ty)
    (pre_val : Node) (tls : Nat) (value_of : Node → Nat) (memory : Nat → Nat) (src : Nat)
    (hload : do_load = true →
      obj ≠ Node.NULL ∧ adr ≠ Node.NULL ∧ pre_val = Node.NULL ∧ val_type ≠ none)
    (hpre : do_load = false →
      pre_val ≠ Node.NULL ∧ H.basic_type (H.bottom_type pre_val) = .T_OBJECT)
    (hgc : H.is_gc_state_load (Node.Load (Node.AddP Node.top Node.ThreadLocal
      (Node.ConX H.gc_state_offset)) (some Ty.TypeInt_BYTE) .T_BYTE AliasIdxRaw) = true)
    (hsz : H.type2aelembytes .T_LONG = 8)
    (hkeep : do_load = true →
      ¬(F.ReduceInitialCardMarks = true ∧
        satb_can_remove_pre_barrier H kit adr .T_OBJECT alias_idx = true))
    (hnn : do_load = false → H.bottom_type pre_val ≠ Ty.NULL_PTR)
    (hT : ∀ loaded n, eval tls value_of loaded (H.transform n) = eval tls value_of loaded n)
    (hsrc : ∀ loaded, eval tls value_of loaded (if do_load then adr else pre_val) = src) :
    ∃ kit1 code,
      satb_write_barrier_pre F H kit do_load obj adr alias_idx val val_type pre_val .T_OBJECT
        = some kit1 ∧
      kit1.emitted = kit.emitted ++ code ∧
      (Nat.land (load_value .T_BYTE (memory (thread_field tls H.gc_state_offset)))
          (H.MARKING % 2 ^ 32).toNat = 0 ∨
       (if do_load then load_value .T_OBJECT (memory src) else src) = 0 →
       run tls value_of memory code = []) := by
  refine ⟨_, _, satb_write_barrier_pre_emits F H kit do_load obj adr alias_idx val val_type
    pre_val hload hpre hgc hsz hkeep hnn, rfl, ?_⟩
  intro h
  rw [run_satb_pre_barrier_code H do_load adr alias_idx val_type pre_val _ tls value_of memory
    src hT hsrc]
  rw [if_neg]
  rintro ⟨h1, h2⟩
  rcases h with h | h
  · exact h1 h
  · exact h2 h

/-- Witness of C3: the pre-barrier for the already loaded value `Parm 7`, run on a thread
that is marking, with the queue index 16 and the old value 77. -/
theorem C3_satb_pre_barrier_logs_old_value_witness :
    ∃ kit1 code,
      satb_write_barrier_pre exampleFlags exampleHost exampleKit false Node.NULL Node.NULL
        max_juint Node.NULL none (Node.Parm 7) .T_OBJECT = some kit1 ∧
      kit1.emitted = exampleKit.emitted ++ code ∧
      run 1000 (fun _ => 77) exampleMemory code
        = [Effect.store 5008 77, Effect.store 1040 8] := by
  obtain ⟨kit1, code, h1, h2, h3⟩ :=
    C3_satb_pre_barrier_logs_old_value exampleFlags exampleHost exampleKit false Node.NULL
      Node.NULL max_juint Node.NULL none (Node.Parm 7) 1000 (fun _ => 77) exampleMemory 77
      (by simp) (by decide) rfl rfl (by simp) (by decide) (fun _ _ => rfl) (fun _ => rfl)
  exact ⟨kit1, code, h1, h2, (h3 (by decide) (by decide)).1 (by decide)⟩

/-- Witness of C4: the same pre-barrier run on a thread that is not marking. -/
theorem C4_satb_pre_barrier_no_effect_witness :
    ∃ kit1 code,
      satb_write_barrier_pre exampleFlags exampleHost exampleKit false Node.NULL Node.NULL
        max_juint Node.NULL none (Node.Parm 7) .T_OBJECT = some kit1 ∧
      kit1.emitted = exampleKit.emitted ++ code ∧
      run 1000 (fun _ => 77) (fun _ => 0) code = [] := by
  obtain ⟨kit1, code, h1, h2, h3⟩ :=
    C4_satb_pre_barrier_no_effect exampleFlags exampleHost exampleKit false Node.NULL
      Node.NULL max_juint Node.NULL none (Node.Parm 7) 1000 (fun _ => 77) (fun _ => 0) 77
      (by simp) (by decide) rfl rfl (by simp) (by decide) (fun _ _ => rfl) (fun _ => rfl)
  exact ⟨kit1, code, h1, h2, h3 (Or.inl (by decide))⟩

end PreBarrier

section Elimination
open ShenandoahBarrierSetC2

theorem loop_step_independent (H : Host) (base alloc : Node) (offset size_in_bytes : Int)
    (n : Nat) (mem : Node)
    (h : independent_store H base alloc offset size_in_bytes mem = true) :
    satb_can_remove_pre_barrier_loop H base alloc offset size_in_bytes (n + 1) mem
      = satb_can_remove_pre_barrier_loop H base alloc offset size_in_bytes n (mem.in_ 1) := by
  cases mem <;> simp only [independent_store, Bool.false_eq_true] at h
  rename_i st_mem st_adr v sz
  rw [decide_eq_true_iff] at h
  obtain ⟨h1, h2, h3⟩ := h
  have hin : (Node.Store st_mem st_adr v sz).in_ 1 = st_mem := rfl
  rw [hin]
  simp only [satb_can_remove_pre_barrier_loop]
  rw [if_neg h1, if_neg h2]
  by_cases ho : offsets_independent H offset size_in_bytes (H.Ideal_base_and_offset st_adr).2 sz
  · rw [if_pos (by unfold offsets_independent at ho; exact ho)]
  · have hb := h3.resolve_left ho
    rw [if_neg (by unfold offsets_independent at ho; exact ho),
      if_pos (by unfold bases_independent at hb; exact hb)]

theorem loop_through (H : Host) (base alloc : Node) (offset size_in_bytes : Int) (k : Nat) :
    ∀ (n : Nat) (mem mem1 : Node),
      through_independent_stores H base alloc offset size_in_bytes k mem = some mem1 →
      satb_can_remove_pre_barrier_loop H base alloc offset size_in_bytes (n + k) mem
        = satb_can_remove_pre_barrier_loop H base alloc offset size_in_bytes n mem1 := by
  induction k with
  | zero =>
    intro n mem mem1 h
    simp only [through_independent_stores, Option.some.injEq] at h
    subst h
    rfl
  | succ k ih =>
    intro n mem mem1 h
    simp only [through_independent_stores] at h
    split at h
    · rename_i hi
      rw [← Nat.add_assoc, loop_step_independent H base alloc offset size_in_bytes (n + k) mem hi]
      exact ih n _ _ h
    · cases h

theorem loop_exhausted (H : Host) (base alloc : Node) (offset size_in_bytes : Int) (n : Nat) :
    ∀ (k : Nat) (mem mem1 : Node), n ≤ k →
      through_independent_stores H base alloc offset size_in_bytes k mem = some mem1 →
      satb_can_remove_pre_barrier_loop H base alloc offset size_in_bytes n mem = false := by
  induction n with
  | zero => intro k mem mem1 _ _; cases mem <;> rfl
  | succ n ih =>
    intro k mem mem1 hk h
    cases k with
    | zero => omega
    | succ k =>
      simp only [through_independent_stores] at h
      split at h
      · rename_i hi
        rw [loop_step_independent H base alloc offset size_in_bytes n mem hi]
        exact ih k _ _ (by omega) h
      · cases h

theorem loop_at_initialize (H : Host) (base alloc : Node) (offset size_in_bytes : Int)
    (n : Nat) (in0 : Node) (con : Nat) (hinit : in0.is_Initialize = true)
    (hsame : H.allocation in0 = alloc) :
    satb_can_remove_pre_barrier_loop H base alloc offset size_in_bytes (n + 1) (.Proj in0 con)
      = decide (H.find_captured_store in0 offset (H.type2aelembytes .T_OBJECT) = Node.NULL ∨
          H.find_captured_store in0 offset (H.type2aelembytes .T_OBJECT) = H.zero_memory in0) := by
  simp only [satb_can_remove_pre_barrier_loop, hinit, if_true, hsame]
  by_cases hc : H.find_captured_store in0 offset (H.type2aelembytes .T_OBJECT) = Node.NULL ∨
      H.find_captured_store in0 offset (H.type2aelembytes .T_OBJECT) = H.zero_memory in0
  · simp [hc]
  · simp [hc]

theorem satb_can_remove_pre_barrier_eq_loop (H : Host) (kit : GraphKit) (adr : Node)
    (bt : BasicType) (adr_idx : Nat)
    (hoff : (H.Ideal_base_and_offset adr).2 ≠ H.OffsetBot)
    (halloc : H.Ideal_allocation (H.Ideal_base_and_offset adr).1 ≠ Node.NULL) :
    satb_can_remove_pre_barrier H kit adr bt adr_idx
      = satb_can_remove_pre_barrier_loop H (H.Ideal_base_and_offset adr).1
          (H.Ideal_allocation (H.Ideal_base_and_offset adr).1) (H.Ideal_base_and_offset adr).2
          (H.type2aelembytes bt) 50 (H.memory kit adr_idx) := by
  simp only [satb_can_remove_pre_barrier, if_neg hoff, if_neg halloc]

/-- C9: for an address with a precise offset and a known allocation, when the walk
reaches, through `k < 50` provably independent stores, the `Initialize` projection of the
same allocation, `satb_can_remove_pre_barrier` returns true if and only if the
initialization has no captured store at the offset or the captured store is the
zero-memory state. With `ReduceInitialCardMarks`, `satb_write_barrier_pre` then emits
nothing; when another store is captured at the offset the function returns false and
`satb_write_barrier_pre` emits the pre-barrier. -/
theorem C9_satb_can_remove_at_initialize (F : Flags) (H : Host) (kit : GraphKit)
    (obj adr : Node) (adr_idx : Nat) (val : Node) (val_type : Option Ty) (bt : BasicType)
    (k : Nat) (in0 : Node) (con : Nat)
    (hoff : (H.Ideal_base_and_offset adr).2 ≠ H.OffsetBot)
    (halloc : H.Ideal_allocation (H.Ideal_base_and_offset adr).1 ≠ Node.NULL)
    (hk : k < 50)
    (hwalk : through_independent_stores H (H.Ideal_base_and_offset adr).1
      (H.Ideal_allocation (H.Ideal_base_and_offset adr).1) (H.Ideal_base_and_offset adr).2
      (H.type2aelembytes bt) k (H.memory kit adr_idx) = some (.Proj in0 con))
    (hinit : in0.is_Initialize = true)
    (hsame : H.allocation in0 = H.Ideal_allocation (H.Ideal_base_and_offset adr).1)
    (hobj : obj ≠ Node.NULL) (hadr : adr ≠ Node.NULL) (hvt : val_type ≠ none)
    (hgc : H.is_gc_state_load (Node.Load (Node.AddP Node.top Node.ThreadLocal
      (Node.ConX H.gc_state_offset)) (some Ty.TypeInt_BYTE) .T_BYTE AliasIdxRaw) = true)
    (hsz : H.type2aelembytes .T_LONG = 8) :
    (satb_can_remove_pre_barrier H kit adr bt adr_idx = true ↔
      (H.find_captured_store in0 (H.Ideal_base_and_offset adr).2 (H.type2aelembytes .T_OBJECT)
          = Node.NULL ∨
       H.find_captured_store in0 (H.Ideal_base_and_offset adr).2 (H.type2aelembytes .T_OBJECT)
          = H.zero_memory in0)) ∧
    (F.ReduceInitialCardMarks = true →
      (H.find_captured_store in0 (H.Ideal_base_and_offset adr).2 (H.type2aelembytes .T_OBJECT)
          = Node.NULL ∨
       H.find_captured_store in0 (H.Ideal_base_and_offset adr).2 (H.type2aelembytes .T_OBJECT)
          = H.zero_memory in0) →
      satb_write_barrier_pre F H kit true obj adr adr_idx val val_type Node.NULL bt
        = some kit) ∧
    (bt = .T_OBJECT →
      ¬(H.find_captured_store in0 (H.Ideal_base_and_offset adr).2 (H.type2aelembytes .T_OBJECT)
          = Node.NULL ∨
        H.find_captured_store in0 (H.Ideal_base_and_offset adr).2 (H.type2aelembytes .T_OBJECT)
          = H.zero_memory in0) →
      satb_can_remove_pre_barrier H kit adr bt adr_idx = false ∧
      ∃ kit1, satb_write_barrier_pre F H kit true obj adr adr_idx val val_type Node.NULL bt
          = some kit1 ∧
        kit1.emitted = kit.emitted ++
          satb_pre_barrier_code H true adr adr_idx val_type Node.NULL
            (if F.ShenandoahSATBBarrier = true then adr else Node.NULL)) := by
  have hloop : satb_can_remove_pre_barrier H kit adr bt adr_idx
      = decide (H.find_captured_store in0 (H.Ideal_base_and_offset adr).2
            (H.type2aelembytes .T_OBJECT) = Node.NULL ∨
          H.find_captured_store in0 (H.Ideal_base_and_offset adr).2
            (H.type2aelembytes .T_OBJECT) = H.zero_memory in0) := by
    rw [satb_can_remove_pre_barrier_eq_loop H kit adr bt adr_idx hoff halloc]
    have h50 : 50 = (50 - k - 1 + 1) + k := by omega
    rw [h50, loop_through _ _ _ _ _ k _ _ _ hwalk]
    exact loop_at_initialize _ _ _ _ _ _ in0 con hinit hsame
  refine ⟨?_, ?_, ?_⟩
  · rw [hloop, decide_eq_true_iff]
  · intro hr hc
    have hrem : satb_can_remove_pre_barrier H kit adr bt adr_idx = true := by
      rw [hloop, decide_eq_true_iff]; exact hc
    unfold satb_write_barrier_pre
    rw [if_pos rfl, if_neg hobj, if_neg hadr, if_neg (by simp), if_neg hvt, if_pos ⟨hr, hrem⟩]
  · intro hbt hc
    have hrem : satb_can_remove_pre_barrier H kit adr bt adr_idx = false := by
      rw [hloop, decide_eq_false_iff_not]; exact hc
    subst hbt
    refine ⟨hrem, _, satb_write_barrier_pre_emits F H kit true obj adr adr_idx val val_type
      Node.NULL (fun _ => ⟨hobj, hadr, rfl, hvt⟩) (by simp) hgc hsz
      (fun _ h => by rw [hrem] at h; exact absurd h.2 (by simp)) (by simp), ?_⟩
    simp [hadr]

/-- Witness of C9: the store to the field at offset 16 of the fresh object `Parm 0`; the
chain is one store to offset 24 and then the initialization of the same allocation, which
has captured nothing. -/
theorem C9_satb_can_remove_at_initialize_witness :
    satb_can_remove_pre_barrier exampleHost exampleKit exampleAccess.addr_node .T_OBJECT 4
        = true ∧
    satb_write_barrier_pre exampleFlags exampleHost exampleKit true (Node.Parm 0)
        exampleAccess.addr_node 4 (Node.Parm 8) (some Ty.TypeInstPtr_NOTNULL) Node.NULL
        .T_OBJECT = some exampleKit := by
  have h := C9_satb_can_remove_at_initialize exampleFlags exampleHost exampleKit (Node.Parm 0)
    exampleAccess.addr_node 4 (Node.Parm 8) (some Ty.TypeInstPtr_NOTNULL) .T_OBJECT 1
    (Node.Initialize 0) 2 (by decide) (by decide) (by decide) (by decide) rfl (by decide)
    (by decide) (by decide) (by simp) rfl rfl
  exact ⟨h.1.mpr (by decide), h.2.1 rfl (by decide)⟩

theorem loop_at_other_state (H : Host) (base alloc : Node) (offset size_in_bytes : Int)
    (n : Nat) (mem1 : Node)
    (hbad :
      (∃ st_mem st_adr v sz, mem1 = Node.Store st_mem st_adr v sz ∧
        ((H.Ideal_base_and_offset st_adr).1 = Node.NULL ∨
         ((H.Ideal_base_and_offset st_adr).1 = base ∧
           (H.Ideal_base_and_offset st_adr).2 = offset) ∨
         (¬offsets_independent H offset size_in_bytes (H.Ideal_base_and_offset st_adr).2 sz ∧
           ¬bases_independent H base alloc (H.Ideal_base_and_offset st_adr).1))) ∨
      (∃ in0 con, mem1 = Node.Proj in0 con ∧ in0.is_Initialize = true ∧
        H.allocation in0 ≠ alloc) ∨
      (mem1.is_Store = false ∧ ¬(mem1.is_Proj = true ∧ (mem1.in_ 0).is_Initialize = true))) :
    satb_can_remove_pre_barrier_loop H base alloc offset size_in_bytes n mem1 = false := by
  cases n with
  | zero => cases mem1 <;> rfl
  | succ n =>
    rcases hbad with ⟨st_mem, st_adr, v, sz, rfl, h⟩ | ⟨in0, con, rfl, hinit, hne⟩ | ⟨hns, hnp⟩
    · simp only [satb_can_remove_pre_barrier_loop]
      rcases h with h | h | ⟨ho, hb⟩
      · rw [if_pos h]
      · by_cases h1 : (H.Ideal_base_and_offset st_adr).1 = Node.NULL
        · rw [if_pos h1]
        · rw [if_neg h1, if_pos h]
      · by_cases h1 : (H.Ideal_base_and_offset st_adr).1 = Node.NULL
        · rw [if_pos h1]
        · rw [if_neg h1]
          by_cases h2 : (H.Ideal_base_and_offset st_adr).1 = base ∧
              (H.Ideal_base_and_offset st_adr).2 = offset
          · rw [if_pos h2]
          · rw [if_neg h2, if_neg (by unfold offsets_independent at ho; exact ho),
              if_neg (by unfold bases_independent at hb; exact hb)]
    · simp only [satb_can_remove_pre_barrier_loop, hinit, if_true]
      rw [if_neg (fun h => hne h.symm)]
    · cases mem1 with
      | Store st_mem st_adr v sz => exact absurd hns (by simp [Node.is_Store])
      | Proj in0 con =>
        have hin : (Node.Proj in0 con).in_ 0 = in0 := rfl
        rw [hin] at hnp
        have hni : ¬ in0.is_Initialize = true := fun h => hnp ⟨rfl, h⟩
        simp only [satb_can_remove_pre_barrier_loop]
        rw [if_neg hni]
      | _ => simp only [satb_can_remove_pre_barrier_loop]

/-- C10: `satb_can_remove_pre_barrier` returns false, and `satb_write_barrier_pre` emits
the pre-barrier, for every shape other than the proven-safe one: an offset that is
`OffsetBot`, no allocation for the base, or a walk that meets, after any number of
provably independent stores, a store with an unknown base, a store to the same base and
offset, a store that passes neither the offset test nor the base test, the `Initialize`
projection of another allocation, or a state that is neither a store nor an `Initialize`
projection. -/
theorem C10_satb_can_remove_fails_safe (F : Flags) (H : Host) (kit : GraphKit)
    (obj adr : Node) (adr_idx : Nat) (val : Node) (val_type : Option Ty) (bt : BasicType)
    (k : Nat) (mem1 : Node)
    (hobj : obj ≠ Node.NULL) (hadr : adr ≠ Node.NULL) (hvt : val_type ≠ none)
    (hgc : H.is_gc_state_load (Node.Load (Node.AddP Node.top Node.ThreadLocal
      (Node.ConX H.gc_state_offset)) (some Ty.TypeInt_BYTE) .T_BYTE AliasIdxRaw) = true)
    (hsz : H.type2aelembytes .T_LONG = 8)
    (hshape :
      (H.Ideal_base_and_offset adr).2 = H.OffsetBot ∨
      H.Ideal_allocation (H.Ideal_base_and_offset adr).1 = Node.NULL ∨
      (through_independent_stores H (H.Ideal_base_and_offset adr).1
          (H.Ideal_allocation (H.Ideal_base_and_offset adr).1) (H.Ideal_base_and_offset adr).2
          (H.type2aelembytes bt) k (H.memory kit adr_idx) = some mem1 ∧
        ((∃ st_mem st_adr v sz, mem1 = Node.Store st_mem st_adr v sz ∧
            ((H.Ideal_base_and_offset st_adr).1 = Node.NULL ∨
             ((H.Ideal_base_and_offset st_adr).1 = (H.Ideal_base_and_offset adr).1 ∧
               (H.Ideal_base_and_offset st_adr).2 = (H.Ideal_base_and_offset adr).2) ∨
             (¬offsets_independent H (H.Ideal_base_and_offset adr).2 (H.type2aelembytes bt)
                 (H.Ideal_base_and_offset st_adr).2 sz ∧
               ¬bases_independent H (H.Ideal_base_and_offset adr).1
                 (H.Ideal_allocation (H.Ideal_base_and_offset adr).1)
                 (H.Ideal_base_and_offset st_adr).1))) ∨
         (∃ in0 con, mem1 = Node.Proj in0 con ∧ in0.is_Initialize = true ∧
            H.allocation in0 ≠ H.Ideal_allocation (H.Ideal_base_and_offset adr).1) ∨
         (mem1.is_Store = false ∧
            ¬(mem1.is_Proj = true ∧ (mem1.in_ 0).is_Initialize = true))))) :
    satb_can_remove_pre_barrier H kit adr bt adr_idx = false ∧
    (bt = .T_OBJECT →
      ∃ kit1, satb_write_barrier_pre F H kit true obj adr adr_idx val val_type Node.NULL bt
          = some kit1 ∧
        kit1.emitted = kit.emitted ++
          satb_pre_barrier_code H true adr adr_idx val_type Node.NULL
            (if F.ShenandoahSATBBarrier = true then adr else Node.NULL)) := by
  have hrem : satb_can_remove_pre_barrier H kit adr bt adr_idx = false := by
    rcases hshape with h | h | ⟨hwalk, hbad⟩
    · simp only [satb_can_remove_pre_barrier, if_pos h]
    · by_cases hoff : (H.Ideal_base_and_offset adr).2 = H.OffsetBot
      · simp only [satb_can_remove_pre_barrier, if_pos hoff]
      · simp only [satb_can_remove_pre_barrier, if_neg hoff, if_pos h]
    · by_cases hoff : (H.Ideal_base_and_offset adr).2 = H.OffsetBot
      · simp only [satb_can_remove_pre_barrier, if_pos hoff]
      · by_cases halloc : H.Ideal_allocation (H.Ideal_base_and_offset adr).1 = Node.NULL
        · simp only [satb_can_remove_pre_barrier, if_neg hoff, if_pos halloc]
        · rw [satb_can_remove_pre_barrier_eq_loop H kit adr bt adr_idx hoff halloc]
          by_cases hk : k < 50
          · have h50 : 50 = (50 - k) + k := by omega
            rw [h50, loop_through _ _ _ _ _ k _ _ _ hwalk]
            exact loop_at_other_state _ _ _ _ _ _ _ hbad
          · exact loop_exhausted _ _ _ _ _ 50 k _ _ (by omega) hwalk
  refine ⟨hrem, ?_⟩
  intro hbt
  subst hbt
  refine ⟨_, satb_write_barrier_pre_emits F H kit true obj adr adr_idx val val_type
    Node.NULL (fun _ => ⟨hobj, hadr, rfl, hvt⟩) (by simp) hgc hsz
    (fun _ h => by rw [hrem] at h; exact absurd h.2 (by simp)) (by simp), ?_⟩
  simp [hadr]

/-- Witness of C10: the memory state of alias index 6 is the initialization of another
allocation than that of the base `Parm 0`. -/
theorem C10_satb_can_remove_fails_safe_witness :
    satb_can_remove_pre_barrier exampleHost exampleKit exampleAccess.addr_node .T_OBJECT 6
        = false ∧
    ∃ kit1, satb_write_barrier_pre exampleFlags exampleHost exampleKit true (Node.Parm 0)
        exampleAccess.addr_node 6 (Node.Parm 8) (some Ty.TypeInstPtr_NOTNULL) Node.NULL
        .T_OBJECT = some kit1 ∧
      kit1.emitted = exampleKit.emitted ++
        satb_pre_barrier_code exampleHost true exampleAccess.addr_node 6
          (some Ty.TypeInstPtr_NOTNULL) Node.NULL
          (if exampleFlags.ShenandoahSATBBarrier = true then exampleAccess.addr_node
            else Node.NULL) := by
  have h := C10_satb_can_remove_fails_safe exampleFlags exampleHost exampleKit (Node.Parm 0)
    exampleAccess.addr_node 6 (Node.Parm 8) (some Ty.TypeInstPtr_NOTNULL) .T_OBJECT 0
    (Node.Proj (Node.Initialize 2) 2) (by decide) (by decide) (by simp) rfl rfl
    (Or.inr (Or.inr ⟨rfl, Or.inr (Or.inl ⟨Node.Initialize 2, 2, rfl, rfl, by decide⟩)⟩))
  exact ⟨h.1, h.2 rfl⟩

end Elimination

section Atomics
open ShenandoahBarrierSetC2

/-- What `shenandoah_write_barrier_pre` does for a value that is already loaded
(`do_load = false`, no object, no address): where it returns, it has either emitted
nothing, which is the case exactly when `ShenandoahSATBBarrier` is off or the type of the
value is the null constant, or it has emitted the template for the value without a load
of it. -/
theorem shenandoah_write_barrier_pre_loaded (F : Flags) (H : Host) (kit kit2 : GraphKit)
    (pre_val : Node)
    (h : shenandoah_write_barrier_pre F H kit false Node.NULL Node.NULL max_juint Node.NULL
      none pre_val .T_OBJECT = some kit2) :
    ((F.ShenandoahSATBBarrier = false ∨ H.bottom_type pre_val = Ty.NULL_PTR) → kit2 = kit) ∧
    ((F.ShenandoahSATBBarrier = true ∧ H.bottom_type pre_val ≠ Ty.NULL_PTR) →
      kit2 = ⟨kit.emitted ++
          satb_pre_barrier_code H false Node.NULL max_juint none pre_val Node.NULL,
        kit.transformed ++ [Node.SubX (Node.Load (Node.AddP Node.top Node.ThreadLocal
          (Node.ConX H.index_offset)) (some Ty.TypeX_X) .T_LONG AliasIdxRaw)
          (Node.ConX sizeof_intptr_t)]⟩) := by
  unfold shenandoah_write_barrier_pre at h
  by_cases hs : F.ShenandoahSATBBarrier = true
  · rw [if_pos hs] at h
    unfold satb_write_barrier_pre at h
    rw [if_neg (by simp)] at h
    by_cases h1 : pre_val = Node.NULL
    · rw [if_pos h1] at h; cases h
    · rw [if_neg h1] at h
      by_cases h2 : H.bottom_type pre_val = Ty.NULL_PTR
      · rw [if_pos h2] at h
        simp only [Option.some.injEq] at h
        subst h
        exact ⟨fun _ => rfl, fun hc => absurd h2 hc.2⟩
      · rw [if_neg h2] at h
        by_cases h3 : H.basic_type (H.bottom_type pre_val) ≠ .T_OBJECT
        · rw [if_pos h3] at h; cases h
        · rw [if_neg h3] at h
          refine ⟨fun hc => ?_, fun _ => ?_⟩
          · rcases hc with hc | hc
            · rw [hs] at hc; cases hc
            · exact absurd hc h2
          · by_cases hgc : H.is_gc_state_load (Node.Load (Node.AddP Node.top Node.ThreadLocal
                (Node.ConX H.gc_state_offset)) (some Ty.TypeInt_BYTE) .T_BYTE AliasIdxRaw) = true
            · by_cases hsz : H.type2aelembytes .T_LONG = 8
              · rw [satb_write_barrier_pre_template_eq F H kit false Node.NULL max_juint none
                  pre_val hgc hsz] at h
                simp only [ne_eq, not_true_eq_false, and_false, if_false,
                  Option.some.injEq] at h
                exact h.symm
              · simp [satb_write_barrier_pre_template, hgc, sizeof_size_t, Ne.symm hsz] at h
            · simp [satb_write_barrier_pre_template, hgc] at h
  · simp only [Bool.not_eq_true] at hs
    rw [hs] at h
    simp only [Bool.false_eq_true, if_false, Option.some.injEq] at h
    subst h
    exact ⟨fun _ => rfl, fun hc => by rw [hs] at hc; cases hc.1⟩

theorem shenandoah_write_barrier_pre_loaded_returns (F : Flags) (H : Host) (kit : GraphKit)
    (pre_val : Node)
    (hok : F.ShenandoahSATBBarrier = true →
      pre_val ≠ Node.NULL ∧
      (H.bottom_type pre_val ≠ Ty.NULL_PTR →
        H.basic_type (H.bottom_type pre_val) = .T_OBJECT ∧
        H.is_gc_state_load (Node.Load (Node.AddP Node.top Node.ThreadLocal
          (Node.ConX H.gc_state_offset)) (some Ty.TypeInt_BYTE) .T_BYTE AliasIdxRaw) = true ∧
        H.type2aelembytes .T_LONG = 8)) :
    ∃ kit2, shenandoah_write_barrier_pre F H kit false Node.NULL Node.NULL max_juint Node.NULL
      none pre_val .T_OBJECT = some kit2 := by
  unfold shenandoah_write_barrier_pre
  by_cases hs : F.ShenandoahSATBBarrier = true
  · rw [if_pos hs]
    obtain ⟨h1, h2⟩ := hok hs
    by_cases hn : H.bottom_type pre_val = Ty.NULL_PTR
    · unfold satb_write_barrier_pre
      rw [if_neg (by simp), if_neg h1, if_pos hn]
      exact ⟨_, rfl⟩
    · obtain ⟨h3, h4, h5⟩ := h2 hn
      exact ⟨_, satb_write_barrier_pre_emits F H kit false Node.NULL Node.NULL max_juint
        Node.NULL none pre_val (by simp) (fun _ => ⟨h1, h3⟩) h4 h5 (by simp) (fun _ => hn)⟩
  · rw [if_neg hs]
    exact ⟨_, rfl⟩

theorem atomic_cmpxchg_bool_load_store_eq (F : Flags) (H : Host)
    (access : C2AtomicParseAccess) (expected_val new_val : Node) (kit : GraphKit) :
    ∃ op ctrl newval oldval encs,
      atomic_cmpxchg_bool_load_store F H access expected_val new_val kit
        = (H.transform (Node.LoadStoreConditional op ctrl access.memory access.addr_node
              newval oldval access.mem_node_mo),
           ⟨kit.emitted, kit.transformed ++ (encs ++
             [Node.LoadStoreConditional op ctrl access.memory access.addr_node newval oldval
               access.mem_node_mo])⟩) ∧
      (∀ n ∈ encs, n.Opcode = .Op_EncodeP) ∧
      op.is_compare_and_swap = true ∧
      op.is_shenandoah_variant = F.ShenandoahCASBarrier ∧
      op.is_weak_variant = access.decorators.C2_WEAK_CMPXCHG ∧
      op.is_narrow_form = H.is_ptr_to_narrowoop (H.bottom_type access.addr_node) := by
  unfold atomic_cmpxchg_bool_load_store
  cases hn : H.is_ptr_to_narrowoop (H.bottom_type access.addr_node) <;>
    cases hc : F.ShenandoahCASBarrier <;>
    cases hw : access.decorators.C2_WEAK_CMPXCHG <;>
    simp only [hn, hc, hw, GraphKit.transform, Bool.false_eq_true, if_false, if_true,
      List.append_assoc]
  all_goals first
    | exact ⟨_, _, _, _, [], rfl, by simp, rfl, rfl, rfl, rfl⟩
    | exact ⟨_, _, _, _, [_, _], rfl, by simp [Node.Opcode], rfl, rfl, rfl, rfl⟩

theorem atomic_cmpxchg_val_load_store_eq (F : Flags) (H : Host)
    (access : C2AtomicParseAccess) (expected_val new_val : Node) (value_type : Ty)
    (kit : GraphKit) :
    ∃ op ctrl newval oldval t encs,
      atomic_cmpxchg_val_load_store F H access expected_val new_val value_type kit
        = (H.transform (Node.CompareAndExchange op ctrl access.memory access.addr_node
              newval oldval access.addr_type t access.mem_node_mo),
           ⟨kit.emitted, kit.transformed ++ (encs ++
             [Node.CompareAndExchange op ctrl access.memory access.addr_node newval oldval
               access.addr_type t access.mem_node_mo])⟩) ∧
      (∀ n ∈ encs, n.Opcode = .Op_EncodeP) ∧
      op.is_compare_and_exchange = true ∧
      op.is_shenandoah_variant = F.ShenandoahCASBarrier ∧
      op.is_narrow_form = H.is_ptr_to_narrowoop (H.bottom_type access.addr_node) := by
  unfold atomic_cmpxchg_val_load_store
  cases hn : H.is_ptr_to_narrowoop (H.bottom_type access.addr_node) <;>
    cases hc : F.ShenandoahCASBarrier <;>
    simp only [hn, hc, GraphKit.transform, Bool.false_eq_true, if_false, if_true,
      List.append_assoc]
  all_goals first
    | exact ⟨_, _, _, _, _, [], rfl, by simp, rfl, rfl, rfl⟩
    | exact ⟨_, _, _, _, _, [_, _], rfl, by simp [Node.Opcode], rfl, rfl, rfl⟩

/-- C6, as the code has it: for a reference-typed compare-and-swap, weak compare-and-swap
or compare-and-exchange, the SATB pre-barrier is requested for the expected value with
`do_load = false`, after the store-value barrier of the new value and before the atomic
node is made. Where the function returns, the request has emitted the template for the
expected value, with no load of it, exactly when `ShenandoahSATBBarrier` is on and the
type of the expected value is not the null constant; otherwise it has emitted nothing.
The function returns whenever the assertions of the pre-barrier hold. -/
theorem C6_cmpxchg_pre_barrier_when_enabled (F : Flags) (H : Host)
    (access : C2AtomicParseAccess) (expected_val new_val : Node) (value_type : Ty)
    (kit : GraphKit) (hoop : access.is_oop = true) :
    (∀ r, atomic_cmpxchg_bool_at_resolved F H access expected_val new_val value_type kit
        = some r →
      ∃ kit2,
        shenandoah_write_barrier_pre F H (shenandoah_storeval_barrier F H kit new_val).2 false
          Node.NULL Node.NULL max_juint Node.NULL none expected_val .T_OBJECT = some kit2 ∧
        r.2.2 = H.pin_atomic_op r.2.1 (atomic_cmpxchg_bool_load_store F H access expected_val
          (shenandoah_storeval_barrier F H kit new_val).1 kit2).2 ∧
        (atomic_cmpxchg_bool_load_store F H access expected_val
          (shenandoah_storeval_barrier F H kit new_val).1 kit2).2.emitted = kit2.emitted ∧
        ((F.ShenandoahSATBBarrier = true ∧ H.bottom_type expected_val ≠ Ty.NULL_PTR) →
          kit2.emitted = (shenandoah_storeval_barrier F H kit new_val).2.emitted ++
            satb_pre_barrier_code H false Node.NULL max_juint none expected_val Node.NULL) ∧
        ((F.ShenandoahSATBBarrier = false ∨ H.bottom_type expected_val = Ty.NULL_PTR) →
          kit2 = (shenandoah_storeval_barrier F H kit new_val).2)) ∧
    (∀ r, atomic_cmpxchg_val_at_resolved F H access expected_val new_val value_type kit
        = some r →
      ∃ kit2,
        shenandoah_write_barrier_pre F H (shenandoah_storeval_barrier F H kit new_val).2 false
          Node.NULL Node.NULL max_juint Node.NULL none expected_val .T_OBJECT = some kit2 ∧
        r.2.1 = access.set_raw_access (atomic_cmpxchg_val_load_store F H access expected_val
          (shenandoah_storeval_barrier F H kit new_val).1 value_type kit2).1 ∧
        r.2.2.emitted = (H.pin_atomic_op r.2.1 (atomic_cmpxchg_val_load_store F H access
          expected_val (shenandoah_storeval_barrier F H kit new_val).1 value_type
          kit2).2).emitted ∧
        (atomic_cmpxchg_val_load_store F H access expected_val
          (shenandoah_storeval_barrier F H kit new_val).1 value_type kit2).2.emitted
          = kit2.emitted ∧
        ((F.ShenandoahSATBBarrier = true ∧ H.bottom_type expected_val ≠ Ty.NULL_PTR) →
          kit2.emitted = (shenandoah_storeval_barrier F H kit new_val).2.emitted ++
            satb_pre_barrier_code H false Node.NULL max_juint none expected_val Node.NULL) ∧
        ((F.ShenandoahSATBBarrier = false ∨ H.bottom_type expected_val = Ty.NULL_PTR) →
          kit2 = (shenandoah_storeval_barrier F H kit new_val).2)) ∧
    ((F.ShenandoahSATBBarrier = true →
        expected_val ≠ Node.NULL ∧
        (H.bottom_type expected_val ≠ Ty.NULL_PTR →
          H.basic_type (H.bottom_type expected_val) = .T_OBJECT ∧
          H.is_gc_state_load (Node.Load (Node.AddP Node.top Node.ThreadLocal
            (Node.ConX H.gc_state_offset)) (some Ty.TypeInt_BYTE) .T_BYTE AliasIdxRaw) = true ∧
          H.type2aelembytes .T_LONG = 8)) →
      (∃ r, atomic_cmpxchg_bool_at_resolved F H access expected_val new_val value_type kit
        = some r) ∧
      (∃ r, atomic_cmpxchg_val_at_resolved F H access expected_val new_val value_type kit
        = some r)) := by
  refine ⟨?_, ?_, ?_⟩
  · intro r hr
    unfold atomic_cmpxchg_bool_at_resolved at hr
    rw [if_pos hoop] at hr
    simp only at hr
    split at hr
    · cases hr
    · rename_i kit2 hk
      simp only [Option.some.injEq] at hr
      subst hr
      have hl := shenandoah_write_barrier_pre_loaded F H _ kit2 expected_val hk
      obtain ⟨op, ctrl, newval, oldval, encs, heq, _⟩ :=
        atomic_cmpxchg_bool_load_store_eq F H access expected_val
          (shenandoah_storeval_barrier F H kit new_val).1 kit2
      refine ⟨kit2, hk, rfl, by rw [heq], ?_, hl.1⟩
      intro hc
      rw [hl.2 hc]
  · intro r hr
    unfold atomic_cmpxchg_val_at_resolved at hr
    rw [if_pos hoop] at hr
    simp only at hr
    split at hr
    · cases hr
    · rename_i kit2 hk
      have hl := shenandoah_write_barrier_pre_loaded F H _ kit2 expected_val hk
      obtain ⟨op, ctrl, newval, oldval, t, encs, heq, _⟩ :=
        atomic_cmpxchg_val_load_store_eq F H access expected_val
          (shenandoah_storeval_barrier F H kit new_val).1 value_type kit2
      simp only [GraphKit.transform, Option.some.injEq] at hr
      subst hr
      refine ⟨kit2, hk, rfl, ?_, by rw [heq], ?_, hl.1⟩
      · split <;> rfl
      · intro hc
        rw [hl.2 hc]
  · intro hok
    obtain ⟨kit2, hk⟩ := shenandoah_write_barrier_pre_loaded_returns F H
      (shenandoah_storeval_barrier F H kit new_val).2 expected_val hok
    constructor
    · unfold atomic_cmpxchg_bool_at_resolved
      rw [if_pos hoop]
      simp only [hk]
      exact ⟨_, rfl⟩
    · unfold atomic_cmpxchg_val_at_resolved
      rw [if_pos hoop]
      simp only [hk]
      exact ⟨_, rfl⟩

/-- Witness of the amended C6: a compare-and-swap with all barrier flags on and the
expected value `Parm 7`; the template is emitted after the kit's control flow. -/
theorem C6_cmpxchg_pre_barrier_when_enabled_witness :
    ∃ r, atomic_cmpxchg_bool_at_resolved exampleFlags exampleHost exampleAtomicAccess
        (Node.Parm 7) (Node.Parm 8) Ty.TypeInstPtr_NOTNULL exampleKit = some r ∧
      r.2.2.emitted = satb_pre_barrier_code exampleHost false Node.NULL max_juint none
        (Node.Parm 7) Node.NULL := by
  have h := C6_cmpxchg_pre_barrier_when_enabled exampleFlags exampleHost exampleAtomicAccess
    (Node.Parm 7) (Node.Parm 8) Ty.TypeInstPtr_NOTNULL exampleKit rfl
  obtain ⟨r, hr⟩ := (h.2.2 (fun _ => ⟨by decide, fun _ => ⟨rfl, rfl, rfl⟩⟩)).1
  obtain ⟨kit2, _, h2, _, h3, _⟩ := h.1 r hr
  refine ⟨r, hr, ?_⟩
  rw [h2]
  exact h3 ⟨rfl, by decide⟩

/-- Counterexample to C6 as stated: with `ShenandoahSATBBarrier` off, and also with all
flags on and the null constant as the expected value, a reference-typed compare-and-swap
returns with nothing emitted, whereas the template for the expected value is not empty. -/
theorem C6_counterexample :
    (∃ r, atomic_cmpxchg_bool_at_resolved ⟨false, true, true, true, true, true, false⟩ exampleHost
        exampleAtomicAccess (Node.Parm 7) (Node.Parm 8) Ty.TypeInstPtr_NOTNULL exampleKit
        = some r ∧ r.2.2.emitted = []) ∧
    (∃ r, atomic_cmpxchg_bool_at_resolved exampleFlags exampleHost
        exampleAtomicAccess Node.ConP_null (Node.Parm 8) Ty.TypeInstPtr_NOTNULL exampleKit
        = some r ∧ r.2.2.emitted = []) ∧
    satb_pre_barrier_code exampleHost false Node.NULL max_juint none (Node.Parm 7) Node.NULL
      ≠ [] ∧
    satb_pre_barrier_code exampleHost false Node.NULL max_juint none Node.ConP_null Node.NULL
      ≠ [] := by
  refine ⟨⟨_, rfl, rfl⟩, ⟨_, rfl, rfl⟩, ?_, ?_⟩ <;> simp [satb_pre_barrier_code]

end Atomics

section Loads
open ShenandoahBarrierSetC2

theorem satb_write_barrier_pre_loaded_transformed (F : Flags) (H : Host) (kit kit2 : GraphKit)
    (pre_val : Node)
    (h : satb_write_barrier_pre F H kit false Node.NULL Node.NULL max_juint Node.NULL
      none pre_val .T_OBJECT = some kit2) :
    ∃ l, kit2.transformed = kit.transformed ++ l := by
  unfold satb_write_barrier_pre at h
  rw [if_neg (by simp)] at h
  by_cases h1 : pre_val = Node.NULL
  · rw [if_pos h1] at h; cases h
  · rw [if_neg h1] at h
    by_cases h2 : H.bottom_type pre_val = Ty.NULL_PTR
    · rw [if_pos h2] at h
      simp only [Option.some.injEq] at h
      subst h
      exact ⟨[], by simp⟩
    · rw [if_neg h2] at h
      by_cases h3 : H.basic_type (H.bottom_type pre_val) ≠ .T_OBJECT
      · rw [if_pos h3] at h; cases h
      · rw [if_neg h3] at h
        by_cases hgc : H.is_gc_state_load (Node.Load (Node.AddP Node.top Node.ThreadLocal
            (Node.ConX H.gc_state_offset)) (some Ty.TypeInt_BYTE) .T_BYTE AliasIdxRaw) = true
        · by_cases hsz : H.type2aelembytes .T_LONG = 8
          · rw [satb_write_barrier_pre_template_eq F H kit false Node.NULL max_juint none
              pre_val hgc hsz] at h
            simp only [Option.some.injEq] at h
            subst h
            exact ⟨_, rfl⟩
          · simp [satb_write_barrier_pre_template, hgc, sizeof_size_t, Ne.symm hsz] at h
        · simp [satb_write_barrier_pre_template, hgc] at h

theorem insert_pre_barrier_transformed (F : Flags) (H : Host) (kit kit2 : GraphKit)
    (base_oop offset pre_val : Node) (need_mem_bar : Bool)
    (h : insert_pre_barrier F H kit base_oop offset pre_val need_mem_bar = some kit2) :
    ∃ l, kit2.transformed = kit.transformed ++ l := by
  unfold insert_pre_barrier at h
  simp only at h
  split_ifs at h
  all_goals first
    | (cases h; exact ⟨[], by simp⟩)
    | (split at h
       · cases h
       · rename_i inner hinner
         obtain ⟨l, hl⟩ := satb_write_barrier_pre_loaded_transformed F H _ inner pre_val hinner
         simp only [Option.some.injEq] at h
         subst h
         exact ⟨l, by simpa [GraphKit.final_sync, GraphKit.insert_mem_bar] using hl⟩)

/-- C2 (amended): wherever `load_at_resolved` returns, the node it returns for a
reference-typed access with `ShenandoahLoadRefBarrier` on is what value numbering
(`gvn.transform`) makes of a new `ShenandoahLoadReferenceBarrier` node whose value input
is the node of the generic load lowering, and that new node is among the nodes handed to
value numbering. For an access that is not reference-typed, or with the flag off, the node
of the generic load lowering is returned as it is. The function returns for every access
that needs no keep-alive barrier. -/
theorem C2_load_at_resolved_wraps_load (F : Flags) (H : Host) (access : C2Access)
    (val_type : Ty) (kit : GraphKit) :
    (∀ r, load_at_resolved F H access val_type kit = some r →
      ((access.is_oop = true ∧ F.ShenandoahLoadRefBarrier = true) →
        r.1 = H.transform (Node.ShenandoahLoadReferenceBarrier Node.NULL
          (H.load_at_resolved access val_type kit).1) ∧
        ∃ l, r.2.transformed = (H.load_at_resolved access val_type kit).2.transformed ++
          [Node.ShenandoahLoadReferenceBarrier Node.NULL
            (H.load_at_resolved access val_type kit).1] ++ l) ∧
      ((access.is_oop = false ∨ F.ShenandoahLoadRefBarrier = false) →
        r.1 = (H.load_at_resolved access val_type kit).1)) ∧
    ((access.is_oop = false ∨
        (F.ShenandoahKeepAliveBarrier &&
          (access.decorators.IN_HEAP && (access.decorators.ON_WEAK_OOP_REF ||
            (access.decorators.ON_UNKNOWN_OOP_REF &&
              decide ((if access.addr_node.is_AddP then access.addr_node.in_ AddPNode.Offset
                else Node.top) ≠ Node.top) &&
              decide (access.base ≠ Node.top))))) = false) →
      ∃ r, load_at_resolved F H access val_type kit = some r) := by
  have key : ∀ r, load_at_resolved F H access val_type kit = some r →
      r.1 = (if access.is_oop = true then
          if F.ShenandoahLoadRefBarrier = true then
            H.transform (Node.ShenandoahLoadReferenceBarrier Node.NULL
              (H.load_at_resolved access val_type kit).1)
          else (H.load_at_resolved access val_type kit).1
        else (H.load_at_resolved access val_type kit).1) := by
    intro r hr
    unfold load_at_resolved at hr
    simp only [GraphKit.transform] at hr
    generalize (if access.addr_node.is_AddP = true then access.addr_node.in_ AddPNode.Offset
      else Node.top) = offset at hr
    cases h1 : access.is_oop <;> cases h2 : F.ShenandoahLoadRefBarrier <;>
      simp only [h1, h2, if_true, if_false, Bool.false_eq_true] at hr ⊢ <;>
      (repeat' split at hr) <;> cases hr <;> rfl
  have made : ∀ r, load_at_resolved F H access val_type kit = some r →
      access.is_oop = true → F.ShenandoahLoadRefBarrier = true →
      ∃ l, r.2.transformed = (H.load_at_resolved access val_type kit).2.transformed ++
          [Node.ShenandoahLoadReferenceBarrier Node.NULL
            (H.load_at_resolved access val_type kit).1] ++ l := by
    intro r hr h1 h2
    unfold load_at_resolved at hr
    simp only [GraphKit.transform, h1, h2, if_true] at hr
    generalize (if access.addr_node.is_AddP = true then access.addr_node.in_ AddPNode.Offset
      else Node.top) = offset at hr
    split_ifs at hr
    · cases hr; exact ⟨[], by simp⟩
    · split at hr
      · cases hr
      · rename_i k hk
        obtain ⟨l, hl⟩ := satb_write_barrier_pre_loaded_transformed F H _ k _ hk
        cases hr
        exact ⟨l, by simpa [GraphKit.insert_mem_bar] using hl⟩
    · split at hr
      · cases hr
      · rename_i k hk
        obtain ⟨l, hl⟩ := insert_pre_barrier_transformed F H _ k _ _ _ _ hk
        cases hr
        exact ⟨l, by simpa using hl⟩
    · cases hr; exact ⟨[], by simp⟩
  refine ⟨fun r hr => ⟨?_, ?_⟩, ?_⟩
  · rintro ⟨h1, h2⟩
    have hk := key r hr
    rw [if_pos h1, if_pos h2] at hk
    exact ⟨hk, made r hr h1 h2⟩
  · intro h
    have hk := key r hr
    rcases h with h | h
    · rw [if_neg (by simp [h])] at hk
      exact hk
    · by_cases h1 : access.is_oop = true
      · rw [if_pos h1, if_neg (by simp [h])] at hk
        exact hk
      · rw [if_neg h1] at hk
        exact hk
  · intro h
    unfold load_at_resolved
    simp only
    rw [if_pos]
    · exact ⟨_, rfl⟩
    · rcases h with h | h
      · simp [h]
      · simp only [Bool.or_eq_true, Bool.not_eq_true']
        right
        exact h

/-- Witness of C2: a parse-time reference load from the heap with all flags on, on the
host whose value numbering keeps every new node; the generic lowering yields `Parm 401`
and the node returned is the new barrier on it. -/
theorem C2_load_at_resolved_wraps_load_witness :
    ∃ r, load_at_resolved exampleFlags exampleHost exampleAccess Ty.TypeInstPtr_NOTNULL
        exampleKit = some r ∧
      r.1 = Node.ShenandoahLoadReferenceBarrier Node.NULL (Node.Parm 401) := by
  have h := C2_load_at_resolved_wraps_load exampleFlags exampleHost exampleAccess
    Ty.TypeInstPtr_NOTNULL exampleKit
  obtain ⟨r, hr⟩ := h.2 (Or.inr (by decide))
  exact ⟨r, hr, ((h.1 r hr).1 ⟨rfl, rfl⟩).1⟩

/-- Counterexample to C2 as stated: on a host whose value numbering replaces a new load
reference barrier by its value input, a reference-typed load with
`ShenandoahLoadRefBarrier` on returns the raw load itself, the node `Parm 401` of the
generic load lowering, which is no load reference barrier. -/
theorem C2_counterexample :
    exampleAccess.is_oop = true ∧ exampleFlags.ShenandoahLoadRefBarrier = true ∧
    ∃ r, load_at_resolved exampleFlags foldingHost exampleAccess Ty.TypeInstPtr_NOTNULL
        exampleKit = some r ∧
      r.1 = (foldingHost.load_at_resolved exampleAccess Ty.TypeInstPtr_NOTNULL exampleKit).1 ∧
      r.1 = Node.Parm 401 ∧
      r.1.Opcode ≠ .Op_ShenandoahLoadReferenceBarrier :=
  ⟨rfl, rfl, _, rfl, rfl, rfl, by decide⟩

end Loads

section AtomicNodes
open ShenandoahBarrierSetC2

/-- C7 (amended): wherever they return for a reference-typed access, compare-and-exchange
and atomic exchange return what value numbering (`gvn.transform`) makes of a new
`ShenandoahLoadReferenceBarrier` node whose value input is the result of the atomic
operation, decoded first when the address points to a narrow oop; that new node is the
last node that compare-and-exchange hands to value numbering, and for atomic exchange it
is handed to value numbering before the SATB pre-barrier is requested, for the node
returned. Compare-and-swap and weak compare-and-swap return the atomic node itself, what
value numbering makes of the new compare-and-swap node, and hand no load reference
barrier to value numbering. Each function returns when the assertions of the pre-barrier
hold for the value it is requested for. -/
theorem C7_atomic_results_load_reference_barrier (F : Flags) (H : Host)
    (access : C2AtomicParseAccess) (expected_val new_val : Node) (value_type : Ty)
    (kit : GraphKit) (hoop : access.is_oop = true) :
    (∀ r, atomic_cmpxchg_val_at_resolved F H access expected_val new_val value_type kit
        = some r →
      r.1 = H.transform (Node.ShenandoahLoadReferenceBarrier Node.NULL
        (if H.is_ptr_to_narrowoop (H.bottom_type access.addr_node) = true then
          H.transform (Node.DecodeN r.2.1.raw_access (H.get_ptr_type r.2.1.raw_access))
         else r.2.1.raw_access)) ∧
      (∃ op ctrl newval oldval t,
        r.2.1.raw_access = H.transform (Node.CompareAndExchange op ctrl access.memory
          access.addr_node newval oldval access.addr_type t access.mem_node_mo) ∧
        op.is_compare_and_exchange = true) ∧
      (∃ l, r.2.2.transformed = l ++ [Node.ShenandoahLoadReferenceBarrier Node.NULL
        (if H.is_ptr_to_narrowoop (H.bottom_type access.addr_node) = true then
          H.transform (Node.DecodeN r.2.1.raw_access (H.get_ptr_type r.2.1.raw_access))
         else r.2.1.raw_access)])) ∧
    (∀ r, atomic_xchg_at_resolved F H access new_val value_type kit = some r →
      r.1 = H.transform (Node.ShenandoahLoadReferenceBarrier Node.NULL
        (H.atomic_xchg_at_resolved access (shenandoah_storeval_barrier F H kit new_val).1
          value_type (shenandoah_storeval_barrier F H kit new_val).2).1) ∧
      shenandoah_write_barrier_pre F H
        ⟨(H.atomic_xchg_at_resolved access (shenandoah_storeval_barrier F H kit new_val).1
            value_type (shenandoah_storeval_barrier F H kit new_val).2).2.2.emitted,
         (H.atomic_xchg_at_resolved access (shenandoah_storeval_barrier F H kit new_val).1
            value_type (shenandoah_storeval_barrier F H kit new_val).2).2.2.transformed ++
          [Node.ShenandoahLoadReferenceBarrier Node.NULL
            (H.atomic_xchg_at_resolved access (shenandoah_storeval_barrier F H kit new_val).1
              value_type (shenandoah_storeval_barrier F H kit new_val).2).1]⟩
        false Node.NULL Node.NULL max_juint Node.NULL none r.1 .T_OBJECT = some r.2.2) ∧
    (∀ r, atomic_cmpxchg_bool_at_resolved F H access expected_val new_val value_type kit
        = some r →
      r.1 = r.2.1.raw_access ∧
      (∃ op ctrl newval oldval,
        r.1 = H.transform (Node.LoadStoreConditional op ctrl access.memory access.addr_node
          newval oldval access.mem_node_mo) ∧
        op.is_compare_and_swap = true) ∧
      (∃ k l, r.2.2 = H.pin_atomic_op r.2.1 k ∧ k.transformed = kit.transformed ++ l ∧
        ∀ n ∈ l, n.Opcode ≠ .Op_ShenandoahLoadReferenceBarrier)) ∧
    ((F.ShenandoahSATBBarrier = true →
        expected_val ≠ Node.NULL ∧
        (H.bottom_type expected_val ≠ Ty.NULL_PTR →
          H.basic_type (H.bottom_type expected_val) = .T_OBJECT ∧
          H.is_gc_state_load (Node.Load (Node.AddP Node.top Node.ThreadLocal
            (Node.ConX H.gc_state_offset)) (some Ty.TypeInt_BYTE) .T_BYTE AliasIdxRaw) = true ∧
          H.type2aelembytes .T_LONG = 8)) →
      ∃ r, atomic_cmpxchg_val_at_resolved F H access expected_val new_val value_type kit
        = some r) ∧
    ((F.ShenandoahSATBBarrier = true →
        H.transform (Node.ShenandoahLoadReferenceBarrier Node.NULL
          (H.atomic_xchg_at_resolved access (shenandoah_storeval_barrier F H kit new_val).1
            value_type (shenandoah_storeval_barrier F H kit new_val).2).1) ≠ Node.NULL ∧
        (H.bottom_type (H.transform (Node.ShenandoahLoadReferenceBarrier Node.NULL
          (H.atomic_xchg_at_resolved access (shenandoah_storeval_barrier F H kit new_val).1
            value_type (shenandoah_storeval_barrier F H kit new_val).2).1)) ≠ Ty.NULL_PTR →
          H.basic_type (H.bottom_type (H.transform (Node.ShenandoahLoadReferenceBarrier
            Node.NULL (H.atomic_xchg_at_resolved access
              (shenandoah_storeval_barrier F H kit new_val).1
              value_type (shenandoah_storeval_barrier F H kit new_val).2).1))) = .T_OBJECT ∧
          H.is_gc_state_load (Node.Load (Node.AddP Node.top Node.ThreadLocal
            (Node.ConX H.gc_state_offset)) (some Ty.TypeInt_BYTE) .T_BYTE AliasIdxRaw) = true ∧
          H.type2aelembytes .T_LONG = 8)) →
      ∃ r, atomic_xchg_at_resolved F H access new_val value_type kit = some r) := by
  refine ⟨?_, ?_, ?_, ?_, ?_⟩
  · intro r hr
    unfold atomic_cmpxchg_val_at_resolved at hr
    rw [if_pos hoop] at hr
    simp only at hr
    split at hr
    · cases hr
    · rename_i kit2 hk
      obtain ⟨op, ctrl, newval, oldval, t, encs, heq, _, hop, _, _⟩ :=
        atomic_cmpxchg_val_load_store_eq F H access expected_val
          (shenandoah_storeval_barrier F H kit new_val).1 value_type kit2
      rw [heq] at hr
      simp only [GraphKit.transform, C2AtomicParseAccess.set_raw_access,
        Option.some.injEq] at hr
      subst hr
      refine ⟨?_, ⟨op, ctrl, newval, oldval, t, rfl, hop⟩, ?_⟩
      · cases hn : H.is_ptr_to_narrowoop (H.bottom_type access.addr_node) <;> simp [hn]
      · cases hn : H.is_ptr_to_narrowoop (H.bottom_type access.addr_node) <;>
          simp only [Bool.false_eq_true, if_false, if_true] <;>
          exact ⟨_, rfl⟩
  · intro r hr
    unfold atomic_xchg_at_resolved at hr
    simp only [hoop, if_true, GraphKit.transform, C2AtomicParseAccess.set_raw_access] at hr
    split at hr
    · cases hr
    · rename_i kit2 hk
      simp only [Option.some.injEq] at hr
      subst hr
      exact ⟨rfl, hk⟩
  · intro r hr
    unfold atomic_cmpxchg_bool_at_resolved at hr
    rw [if_pos hoop] at hr
    simp only at hr
    split at hr
    · cases hr
    · rename_i kit2 hk
      obtain ⟨op, ctrl, newval, oldval, encs, heq, henc, hop, _, _, _⟩ :=
        atomic_cmpxchg_bool_load_store_eq F H access expected_val
          (shenandoah_storeval_barrier F H kit new_val).1 kit2
      rw [heq] at hr
      simp only [C2AtomicParseAccess.set_raw_access, Option.some.injEq] at hr
      subst hr
      refine ⟨rfl, ⟨op, ctrl, newval, oldval, rfl, hop⟩, ?_⟩
      have hop' : op ≠ .Op_ShenandoahLoadReferenceBarrier := by
        intro hc
        rw [hc] at hop
        cases hop
      have h1 : ∃ l1, (shenandoah_storeval_barrier F H kit new_val).2.transformed
          = kit.transformed ++ l1 ∧
          ∀ n ∈ l1, n.Opcode ≠ .Op_ShenandoahLoadReferenceBarrier := by
        unfold shenandoah_storeval_barrier shenandoah_enqueue_barrier GraphKit.transform
        split
        · exact ⟨[_], rfl, by simp [Node.Opcode]⟩
        · exact ⟨[], by simp, by simp⟩
      have h2 : ∃ l2, kit2.transformed
          = (shenandoah_storeval_barrier F H kit new_val).2.transformed ++ l2 ∧
          ∀ n ∈ l2, n.Opcode ≠ .Op_ShenandoahLoadReferenceBarrier := by
        have hl := shenandoah_write_barrier_pre_loaded F H _ kit2 expected_val hk
        by_cases hc : F.ShenandoahSATBBarrier = true ∧ H.bottom_type expected_val ≠ Ty.NULL_PTR
        · rw [hl.2 hc]
          exact ⟨[_], rfl, by simp [Node.Opcode]⟩
        · have : F.ShenandoahSATBBarrier = false ∨ H.bottom_type expected_val = Ty.NULL_PTR := by
            by_cases hs : F.ShenandoahSATBBarrier = true
            · right
              by_contra hn
              exact hc ⟨hs, hn⟩
            · left
              simpa using hs
          rw [hl.1 this]
          exact ⟨[], by simp, by simp⟩
      obtain ⟨l1, e1, n1⟩ := h1
      obtain ⟨l2, e2, n2⟩ := h2
      refine ⟨_, l1 ++ (l2 ++ (encs ++ [Node.LoadStoreConditional op ctrl access.memory
        access.addr_node newval oldval access.mem_node_mo])), rfl, ?_, ?_⟩
      · simp only [e2, e1, List.append_assoc]
      · intro n hn
        simp only [List.mem_append, List.mem_singleton] at hn
        rcases hn with hn | hn | hn | hn
        · exact n1 n hn
        · exact n2 n hn
        · rw [henc n hn]
          decide
        · rw [hn]
          exact hop'
  · intro hok
    obtain ⟨kit2, hk⟩ := shenandoah_write_barrier_pre_loaded_returns F H
      (shenandoah_storeval_barrier F H kit new_val).2 expected_val hok
    unfold atomic_cmpxchg_val_at_resolved
    rw [if_pos hoop]
    simp only [hk]
    exact ⟨_, rfl⟩
  · intro hok
    obtain ⟨kit2, hk⟩ := shenandoah_write_barrier_pre_loaded_returns F H
      ⟨(H.atomic_xchg_at_resolved access (shenandoah_storeval_barrier F H kit new_val).1
          value_type (shenandoah_storeval_barrier F H kit new_val).2).2.2.emitted,
       (H.atomic_xchg_at_resolved access (shenandoah_storeval_barrier F H kit new_val).1
          value_type (shenandoah_storeval_barrier F H kit new_val).2).2.2.transformed ++
        [Node.ShenandoahLoadReferenceBarrier Node.NULL
          (H.atomic_xchg_at_resolved access (shenandoah_storeval_barrier F H kit new_val).1
            value_type (shenandoah_storeval_barrier F H kit new_val).2).1]⟩ _ hok
    unfold atomic_xchg_at_resolved
    simp only [hoop, if_true, GraphKit.transform, C2AtomicParseAccess.set_raw_access, hk]
    exact ⟨_, rfl⟩

/-- Witness of C7: a compare-and-exchange with all flags on, on the host whose value
numbering keeps every new node: the node returned is the new barrier. -/
theorem C7_atomic_results_load_reference_barrier_witness :
    ∃ r, atomic_cmpxchg_val_at_resolved exampleFlags exampleHost exampleAtomicAccess
        (Node.Parm 7) (Node.Parm 8) Ty.TypeInstPtr_NOTNULL exampleKit = some r ∧
      r.1 = Node.ShenandoahLoadReferenceBarrier Node.NULL r.2.1.raw_access := by
  have h := C7_atomic_results_load_reference_barrier exampleFlags exampleHost
    exampleAtomicAccess (Node.Parm 7) (Node.Parm 8) Ty.TypeInstPtr_NOTNULL exampleKit rfl
  obtain ⟨r, hr⟩ := h.2.2.2.1 (fun _ => ⟨by decide, fun _ => ⟨rfl, rfl, rfl⟩⟩)
  exact ⟨r, hr, (h.1 r hr).1⟩

/-- Counterexample to C7 as stated: on a host whose value numbering replaces a new load
reference barrier by its value input, a reference-typed compare-and-exchange returns the
atomic node itself and a reference-typed atomic exchange returns the node of the generic
lowering; neither is a load reference barrier. -/
theorem C7_counterexample :
    (∃ r, atomic_cmpxchg_val_at_resolved exampleFlags foldingHost exampleAtomicAccess
        (Node.Parm 7) (Node.Parm 8) Ty.TypeInstPtr_NOTNULL exampleKit = some r ∧
      r.1 = r.2.1.raw_access ∧
      r.1.Opcode = .Op_ShenandoahCompareAndExchangeP ∧
      r.1.Opcode ≠ .Op_ShenandoahLoadReferenceBarrier) ∧
    (∃ r, atomic_xchg_at_resolved exampleFlags foldingHost exampleAtomicAccess
        (Node.Parm 8) Ty.TypeInstPtr_NOTNULL exampleKit = some r ∧
      r.1 = Node.Parm 404 ∧
      r.1.Opcode ≠ .Op_ShenandoahLoadReferenceBarrier) := by
  refine ⟨⟨_, rfl, rfl, rfl, by decide⟩, ⟨_, rfl, rfl, by decide⟩⟩

end AtomicNodes

section WalkBound
open ShenandoahBarrierSetC2

theorem loop_host_congr (H1 H2 : Host) (base alloc : Node) (offset size_in_bytes : Int)
    (h1 : H1.Ideal_base_and_offset = H2.Ideal_base_and_offset)
    (h2 : H1.OffsetBot = H2.OffsetBot)
    (h3 : H1.detect_ptr_independence = H2.detect_ptr_independence)
    (h4 : H1.Ideal_allocation = H2.Ideal_allocation)
    (h5 : H1.allocation = H2.allocation)
    (h6 : H1.find_captured_store = H2.find_captured_store)
    (h7 : H1.type2aelembytes = H2.type2aelembytes)
    (h8 : H1.zero_memory = H2.zero_memory) :
    ∀ (n : Nat) (mem : Node),
      satb_can_remove_pre_barrier_loop H1 base alloc offset size_in_bytes n mem
        = satb_can_remove_pre_barrier_loop H2 base alloc offset size_in_bytes n mem := by
  intro n
  induction n with
  | zero => intro mem; cases mem <;> rfl
  | succ n ih =>
    intro mem
    cases mem <;> simp only [satb_can_remove_pre_barrier_loop, h1, h2, h3, h4, h5, h6, h7, h8, ih]

theorem loop_replace_state_at (H : Host) (base alloc : Node) (offset size_in_bytes : Int)
    (above : Node) :
    ∀ (n : Nat) (mem : Node),
      satb_can_remove_pre_barrier_loop H base alloc offset size_in_bytes n
          (replace_state_at n mem above)
        = satb_can_remove_pre_barrier_loop H base alloc offset size_in_bytes n mem := by
  intro n
  induction n with
  | zero => intro mem; simp only [satb_can_remove_pre_barrier_loop]
  | succ n ih =>
    intro mem
    cases mem <;> simp only [replace_state_at, satb_can_remove_pre_barrier_loop, ih]

/-- C11: the walk of `satb_can_remove_pre_barrier` inspects at most 50 memory states: its
result is the same whatever state `above` lies 50 stores up the chain. For every chain
whose first 50 states are provably independent stores it returns false, whatever the
state `mem1` above them is (the `Initialize` projection of the same allocation included),
and `satb_write_barrier_pre` emits the pre-barrier. -/
theorem C11_satb_walk_bounded (F : Flags) (H : Host) (kit : GraphKit)
    (obj adr : Node) (adr_idx : Nat) (val : Node) (val_type : Option Ty) (bt : BasicType)
    (mem1 : Node)
    (hobj : obj ≠ Node.NULL) (hadr : adr ≠ Node.NULL) (hvt : val_type ≠ none)
    (hgc : H.is_gc_state_load (Node.Load (Node.AddP Node.top Node.ThreadLocal
      (Node.ConX H.gc_state_offset)) (some Ty.TypeInt_BYTE) .T_BYTE AliasIdxRaw) = true)
    (hsz : H.type2aelembytes .T_LONG = 8)
    (hwalk : through_independent_stores H (H.Ideal_base_and_offset adr).1
      (H.Ideal_allocation (H.Ideal_base_and_offset adr).1) (H.Ideal_base_and_offset adr).2
      (H.type2aelembytes bt) 50 (H.memory kit adr_idx) = some mem1) :
    (∀ above : Node,
      satb_can_remove_pre_barrier
          { H with memory := fun k i => replace_state_at 50 (H.memory k i) above }
          kit adr bt adr_idx
        = satb_can_remove_pre_barrier H kit adr bt adr_idx) ∧
    satb_can_remove_pre_barrier H kit adr bt adr_idx = false ∧
    (bt = .T_OBJECT →
      ∃ kit1, satb_write_barrier_pre F H kit true obj adr adr_idx val val_type Node.NULL bt
          = some kit1 ∧
        kit1.emitted = kit.emitted ++
          satb_pre_barrier_code H true adr adr_idx val_type Node.NULL
            (if F.ShenandoahSATBBarrier = true then adr else Node.NULL)) := by
  have hrem : satb_can_remove_pre_barrier H kit adr bt adr_idx = false := by
    by_cases hoff : (H.Ideal_base_and_offset adr).2 = H.OffsetBot
    · simp only [satb_can_remove_pre_barrier, if_pos hoff]
    · by_cases halloc : H.Ideal_allocation (H.Ideal_base_and_offset adr).1 = Node.NULL
      · simp only [satb_can_remove_pre_barrier, if_neg hoff, if_pos halloc]
      · rw [satb_can_remove_pre_barrier_eq_loop H kit adr bt adr_idx hoff halloc]
        exact loop_exhausted _ _ _ _ _ 50 50 _ _ (le_refl _) hwalk
  refine ⟨?_, hrem, ?_⟩
  · intro above
    simp only [satb_can_remove_pre_barrier]
    split_ifs
    · rfl
    · rfl
    · rw [loop_replace_state_at]
      exact loop_host_congr _ _ _ _ _ _ rfl rfl rfl rfl rfl rfl rfl rfl 50 _
  · intro hbt
    subst hbt
    refine ⟨_, satb_write_barrier_pre_emits F H kit true obj adr adr_idx val val_type
      Node.NULL (fun _ => ⟨hobj, hadr, rfl, hvt⟩) (by simp) hgc hsz
      (fun _ h => by rw [hrem] at h; exact absurd h.2 (by simp)) (by simp), ?_⟩
    simp [hadr]

/-- Witness of C11: the memory state of alias index 7 is a chain of 50 stores to offset
24 on top of the initialization of the allocation of `Parm 0`, which has captured
nothing; with 49 stores (alias index 8) the barrier is removed. -/
theorem C11_satb_walk_bounded_witness :
    satb_can_remove_pre_barrier exampleHost exampleKit exampleAccess.addr_node .T_OBJECT 7
        = false ∧
    satb_can_remove_pre_barrier exampleHost exampleKit exampleAccess.addr_node .T_OBJECT 8
        = true ∧
    ∃ kit1, satb_write_barrier_pre exampleFlags exampleHost exampleKit true (Node.Parm 0)
        exampleAccess.addr_node 7 (Node.Parm 8) (some Ty.TypeInstPtr_NOTNULL) Node.NULL
        .T_OBJECT = some kit1 ∧
      kit1.emitted = exampleKit.emitted ++
        satb_pre_barrier_code exampleHost true exampleAccess.addr_node 7
          (some Ty.TypeInstPtr_NOTNULL) Node.NULL
          (if exampleFlags.ShenandoahSATBBarrier = true then exampleAccess.addr_node
            else Node.NULL) := by
  have h := C11_satb_walk_bounded exampleFlags exampleHost exampleKit (Node.Parm 0)
    exampleAccess.addr_node 7 (Node.Parm 8) (some Ty.TypeInstPtr_NOTNULL) .T_OBJECT
    (Node.Proj (Node.Initialize 0) 2) (by decide) (by decide) (by simp) rfl rfl (by decide)
  exact ⟨h.2.1, by decide, h.2.2 rfl⟩

end WalkBound

section RegistryInvariant
open ShenandoahBarrierSetC2 ShenandoahBarrierSetC2State

theorem contains_eq_true_iff (a : List Node) (n : Node) :
    GrowableArray.contains a n = true ↔ n ∈ a := by
  simp [GrowableArray.contains]

/-- C19: duplicate-freedom is an invariant of the registry. From a registry neither of
whose collections holds a node twice, `add_enqueue_barrier` and
`add_load_reference_barrier` of a node that is not yet in the collection succeed,
`remove_enqueue_barrier` and `remove_load_reference_barrier` of any node, and
`eliminate_useless_gc_barriers`, each lead to a registry neither of whose collections
holds a node twice. -/
theorem C19_registry_duplicate_free (fast_outs : Node → List Node)
    (useful : Unique_Node_List) (C : Compile) (n : Node)
    (henq : C.barrier_set_state._enqueue_barriers.Nodup)
    (hlrb : C.barrier_set_state._load_reference_barriers.Nodup) :
    (n ∉ C.barrier_set_state._enqueue_barriers →
      ∃ s1, C.barrier_set_state.add_enqueue_barrier n = some s1 ∧
        s1._enqueue_barriers.Nodup ∧ s1._load_reference_barriers.Nodup) ∧
    (n ∉ C.barrier_set_state._load_reference_barriers →
      ∃ s1, C.barrier_set_state.add_load_reference_barrier n = some s1 ∧
        s1._enqueue_barriers.Nodup ∧ s1._load_reference_barriers.Nodup) ∧
    ((C.barrier_set_state.remove_enqueue_barrier n)._enqueue_barriers.Nodup ∧
      (C.barrier_set_state.remove_enqueue_barrier n)._load_reference_barriers.Nodup) ∧
    ((C.barrier_set_state.remove_load_reference_barrier n)._enqueue_barriers.Nodup ∧
      (C.barrier_set_state.remove_load_reference_barrier n)._load_reference_barriers.Nodup) ∧
    (∃ C2, eliminate_useless_gc_barriers fast_outs useful C = some C2 ∧
      C2.barrier_set_state._enqueue_barriers.Nodup ∧
      C2.barrier_set_state._load_reference_barriers.Nodup) := by
  obtain ⟨⟨enq, lrb⟩, igvn⟩ := C
  simp only at henq hlrb
  refine ⟨?_, ?_, ?_, ?_, ?_⟩
  · intro hn
    have hc : ¬ GrowableArray.contains enq n = true := by
      rw [contains_eq_true_iff]; exact hn
    refine ⟨⟨enq ++ [n], lrb⟩, ?_, ?_, hlrb⟩
    · simp only [add_enqueue_barrier, if_neg hc, GrowableArray.append]
    · exact List.Nodup.append henq (List.nodup_singleton n) (by simpa using hn)
  · intro hn
    have hc : ¬ GrowableArray.contains lrb n = true := by
      rw [contains_eq_true_iff]; exact hn
    refine ⟨⟨enq, lrb ++ [n]⟩, ?_, henq, ?_⟩
    · simp only [add_load_reference_barrier, if_neg hc, GrowableArray.append]
    · exact List.Nodup.append hlrb (List.nodup_singleton n) (by simpa using hn)
  · simp only [remove_enqueue_barrier]
    split_ifs
    · exact ⟨henq.erase n, hlrb⟩
    · exact ⟨henq, hlrb⟩
  · simp only [remove_load_reference_barrier]
    split_ifs
    · exact ⟨henq, hlrb.erase n⟩
    · exact ⟨henq, hlrb⟩
  · have h1 := sweep_enqueue_barriers_eq useful enq [] lrb henq
    have h2 := sweep_load_reference_barriers_eq useful lrb [] (enq.filter useful.member) hlrb
    simp only [List.append_nil] at h1 h2
    unfold eliminate_useless_gc_barriers
    simp only [record_useful_addp_users_state, enqueue_barriers_count, h1,
      load_reference_barriers_count, h2]
    exact ⟨_, rfl, henq.filter _, hlrb.filter _⟩

/-- Witness of C19: a registry with two enqueue barriers and one load reference barrier,
and a node that is in neither collection. -/
theorem C19_registry_duplicate_free_witness :
    (∃ s1, ShenandoahBarrierSetC2State.add_enqueue_barrier
        ⟨[Node.ShenandoahEnqueueBarrier (Node.Parm 1),
          Node.ShenandoahEnqueueBarrier (Node.Parm 2)],
         [Node.ShenandoahLoadReferenceBarrier Node.NULL (Node.Parm 3)]⟩
        (Node.ShenandoahEnqueueBarrier (Node.Parm 4)) = some s1 ∧
      s1._enqueue_barriers.Nodup ∧ s1._load_reference_barriers.Nodup) ∧
    (∃ s1, ShenandoahBarrierSetC2State.add_load_reference_barrier
        ⟨[Node.ShenandoahEnqueueBarrier (Node.Parm 1),
          Node.ShenandoahEnqueueBarrier (Node.Parm 2)],
         [Node.ShenandoahLoadReferenceBarrier Node.NULL (Node.Parm 3)]⟩
        (Node.ShenandoahEnqueueBarrier (Node.Parm 4)) = some s1 ∧
      s1._enqueue_barriers.Nodup ∧ s1._load_reference_barriers.Nodup) := by
  have h := C19_registry_duplicate_free (fun _ => []) []
    ⟨⟨[Node.ShenandoahEnqueueBarrier (Node.Parm 1),
        Node.ShenandoahEnqueueBarrier (Node.Parm 2)],
       [Node.ShenandoahLoadReferenceBarrier Node.NULL (Node.Parm 3)]⟩, []⟩
    (Node.ShenandoahEnqueueBarrier (Node.Parm 4)) (by decide) (by decide)
  exact ⟨h.1 (by decide), h.2.1 (by decide)⟩

/-- C20: removing a node that is not in the collection is a no-op: for every registry and
every node that is not among the enqueue barriers, `remove_enqueue_barrier` returns the
registry as it was (both collections, element by element, and so both counts); likewise
`remove_load_reference_barrier` for a node that is not among the load reference
barriers. -/
theorem C20_remove_absent_is_noop (s : ShenandoahBarrierSetC2State) (n : Node) :
    (n ∉ s._enqueue_barriers →
      s.remove_enqueue_barrier n = s ∧
      (s.remove_enqueue_barrier n).enqueue_barriers_count = s.enqueue_barriers_count ∧
      (s.remove_enqueue_barrier n).load_reference_barriers_count
        = s.load_reference_barriers_count) ∧
    (n ∉ s._load_reference_barriers →
      s.remove_load_reference_barrier n = s ∧
      (s.remove_load_reference_barrier n).enqueue_barriers_count = s.enqueue_barriers_count ∧
      (s.remove_load_reference_barrier n).load_reference_barriers_count
        = s.load_reference_barriers_count) := by
  constructor
  · intro hn
    have hc : ¬ GrowableArray.contains s._enqueue_barriers n = true := by
      rw [contains_eq_true_iff]; exact hn
    have h : s.remove_enqueue_barrier n = s := by
      simp only [remove_enqueue_barrier, if_neg hc]
    rw [h]
    exact ⟨rfl, rfl, rfl⟩
  · intro hn
    have hc : ¬ GrowableArray.contains s._load_reference_barriers n = true := by
      rw [contains_eq_true_iff]; exact hn
    have h : s.remove_load_reference_barrier n = s := by
      simp only [remove_load_reference_barrier, if_neg hc]
    rw [h]
    exact ⟨rfl, rfl, rfl⟩

/-- Witness of C20: the node `Parm 4` is in neither collection of the registry. -/
theorem C20_remove_absent_is_noop_witness :
    ShenandoahBarrierSetC2State.remove_enqueue_barrier
        ⟨[Node.ShenandoahEnqueueBarrier (Node.Parm 1)],
         [Node.ShenandoahLoadReferenceBarrier Node.NULL (Node.Parm 3)]⟩ (Node.Parm 4)
      = ⟨[Node.ShenandoahEnqueueBarrier (Node.Parm 1)],
         [Node.ShenandoahLoadReferenceBarrier Node.NULL (Node.Parm 3)]⟩ ∧
    ShenandoahBarrierSetC2State.remove_load_reference_barrier
        ⟨[Node.ShenandoahEnqueueBarrier (Node.Parm 1)],
         [Node.ShenandoahLoadReferenceBarrier Node.NULL (Node.Parm 3)]⟩ (Node.Parm 4)
      = ⟨[Node.ShenandoahEnqueueBarrier (Node.Parm 1)],
         [Node.ShenandoahLoadReferenceBarrier Node.NULL (Node.Parm 3)]⟩ := by
  have h := C20_remove_absent_is_noop
    ⟨[Node.ShenandoahEnqueueBarrier (Node.Parm 1)],
     [Node.ShenandoahLoadReferenceBarrier Node.NULL (Node.Parm 3)]⟩ (Node.Parm 4)
  exact ⟨(h.1 (by decide)).1, (h.2 (by decide)).1⟩

end RegistryInvariant

section CloneBarrier
open ShenandoahBarrierSetC2

/-- C12: `clone_needs_postbarrier` returns false if and only if the static type of the
source is an instance type that is exactly known or a non-interface class without a
subclass, and that has no injected fields and no object fields, or is (not an instance
type but) an array type whose element type is neither `T_OBJECT` nor `T_ARRAY`; for
every other source type it returns true. -/
theorem C12_clone_needs_postbarrier (H : Host) (ac : Node) (igvn : PhaseIterGVN) :
    ((clone_needs_postbarrier H ac igvn).1 = false ↔
      ((H.isa_instptr (H.is_oopptr (H.type (ac.in_ ArrayCopyNode.Src))) ≠ none ∧
        (H.klass_is_exact (H.is_oopptr (H.type (ac.in_ ArrayCopyNode.Src))) = true ∨
          (H.is_interface (H.klass (H.is_oopptr (H.type (ac.in_ ArrayCopyNode.Src)))) = false ∧
           H.has_subklass (H.klass (H.is_oopptr (H.type (ac.in_ ArrayCopyNode.Src))))
             = false)) ∧
        H.has_injected_fields (H.klass (H.is_oopptr (H.type (ac.in_ ArrayCopyNode.Src))))
          = false ∧
        H.has_object_fields (H.klass (H.is_oopptr (H.type (ac.in_ ArrayCopyNode.Src))))
          = false) ∨
       (H.isa_instptr (H.is_oopptr (H.type (ac.in_ ArrayCopyNode.Src))) = none ∧
        H.isa_aryptr (H.is_oopptr (H.type (ac.in_ ArrayCopyNode.Src))) = true ∧
        H.element_basic_type (H.klass (H.is_oopptr (H.type (ac.in_ ArrayCopyNode.Src))))
          ≠ .T_OBJECT ∧
        H.element_basic_type (H.klass (H.is_oopptr (H.type (ac.in_ ArrayCopyNode.Src))))
          ≠ .T_ARRAY))) ∧
    ((clone_needs_postbarrier H ac igvn).1 = true ↔
      ¬((H.isa_instptr (H.is_oopptr (H.type (ac.in_ ArrayCopyNode.Src))) ≠ none ∧
        (H.klass_is_exact (H.is_oopptr (H.type (ac.in_ ArrayCopyNode.Src))) = true ∨
          (H.is_interface (H.klass (H.is_oopptr (H.type (ac.in_ ArrayCopyNode.Src)))) = false ∧
           H.has_subklass (H.klass (H.is_oopptr (H.type (ac.in_ ArrayCopyNode.Src))))
             = false)) ∧
        H.has_injected_fields (H.klass (H.is_oopptr (H.type (ac.in_ ArrayCopyNode.Src))))
          = false ∧
        H.has_object_fields (H.klass (H.is_oopptr (H.type (ac.in_ ArrayCopyNode.Src))))
          = false) ∨
       (H.isa_instptr (H.is_oopptr (H.type (ac.in_ ArrayCopyNode.Src))) = none ∧
        H.isa_aryptr (H.is_oopptr (H.type (ac.in_ ArrayCopyNode.Src))) = true ∧
        H.element_basic_type (H.klass (H.is_oopptr (H.type (ac.in_ ArrayCopyNode.Src))))
          ≠ .T_OBJECT ∧
        H.element_basic_type (H.klass (H.is_oopptr (H.type (ac.in_ ArrayCopyNode.Src))))
          ≠ .T_ARRAY))) := by
  have key : (clone_needs_postbarrier H ac igvn).1 = false ↔
      ((H.isa_instptr (H.is_oopptr (H.type (ac.in_ ArrayCopyNode.Src))) ≠ none ∧
        (H.klass_is_exact (H.is_oopptr (H.type (ac.in_ ArrayCopyNode.Src))) = true ∨
          (H.is_interface (H.klass (H.is_oopptr (H.type (ac.in_ ArrayCopyNode.Src)))) = false ∧
           H.has_subklass (H.klass (H.is_oopptr (H.type (ac.in_ ArrayCopyNode.Src))))
             = false)) ∧
        H.has_injected_fields (H.klass (H.is_oopptr (H.type (ac.in_ ArrayCopyNode.Src))))
          = false ∧
        H.has_object_fields (H.klass (H.is_oopptr (H.type (ac.in_ ArrayCopyNode.Src))))
          = false) ∨
       (H.isa_instptr (H.is_oopptr (H.type (ac.in_ ArrayCopyNode.Src))) = none ∧
        H.isa_aryptr (H.is_oopptr (H.type (ac.in_ ArrayCopyNode.Src))) = true ∧
        H.element_basic_type (H.klass (H.is_oopptr (H.type (ac.in_ ArrayCopyNode.Src))))
          ≠ .T_OBJECT ∧
        H.element_basic_type (H.klass (H.is_oopptr (H.type (ac.in_ ArrayCopyNode.Src))))
          ≠ .T_ARRAY)) := by
    unfold clone_needs_postbarrier
    simp only
    split_ifs <;> first | (simp_all; done) | (simp_all; tauto)
  refine ⟨key, ?_⟩
  rw [← key]
  cases (clone_needs_postbarrier H ac igvn).1 <;> simp

/-- C13: for a basic clone whose source is an array of object elements (element type
`T_OBJECT` or `T_ARRAY`) and whose destination is an address node,
`clone_barrier_at_expansion` makes five nodes, of which exactly one is a leaf call: the
call to `shenandoah_clone_barrier`, whose control and memory inputs are the control
and memory projections of the copy call, whose signature has one parameter and whose
argument is the base of the destination address; the control and memory projections of
that call replace the control and memory projections of the array copy node. For the
same clone with another element type it hands over to the generic expansion and makes
no node itself. -/
theorem C13_clone_barrier_at_expansion (H : Host) (ac call : Node) (igvn : PhaseIterGVN)
    (hclone : ac.is_clonebasic = true)
    (hinst : H.isa_instptr (H.is_oopptr (H.type (ac.in_ ArrayCopyNode.Src))) = none)
    (hary : H.isa_aryptr (H.is_oopptr (H.type (ac.in_ ArrayCopyNode.Src))) = true) :
    ((H.element_basic_type (H.klass (H.is_oopptr (H.type (ac.in_ ArrayCopyNode.Src))))
          = .T_OBJECT ∨
      H.element_basic_type (H.klass (H.is_oopptr (H.type (ac.in_ ArrayCopyNode.Src))))
          = .T_ARRAY) →
      (ac.in_ ArrayCopyNode.Dest).is_AddP = true →
      ∃ igvn1 barrier_call,
        clone_barrier_at_expansion H ac call igvn = some igvn1 ∧
        barrier_call = Node.CallLeafNode shenandoah_clone_barrier_Type
          Address.shenandoah_clone_barrier "shenandoah_clone_barrier" Ty.TypeRawPtr_BOTTOM
          (H.transform (Node.Proj call TypeFunc.Control)) Node.top
          (H.transform (Node.Proj call TypeFunc.Memory)) Node.top Node.top
          ((ac.in_ ArrayCopyNode.Dest).in_ AddPNode.Base) ∧
        igvn1.transformed = igvn.transformed ++
          [Node.Proj call TypeFunc.Control, Node.Proj call TypeFunc.Memory, barrier_call,
           Node.Proj (H.transform barrier_call) TypeFunc.Control,
           Node.Proj (H.transform barrier_call) TypeFunc.Memory] ∧
        (igvn1.transformed.drop igvn.transformed.length).filter Node.is_Call
          = [barrier_call] ∧
        barrier_call.in_ TypeFunc.Control = H.transform (Node.Proj call TypeFunc.Control) ∧
        barrier_call.in_ TypeFunc.Memory = H.transform (Node.Proj call TypeFunc.Memory) ∧
        barrier_call.in_ TypeFunc.Parms = (ac.in_ ArrayCopyNode.Dest).in_ AddPNode.Base ∧
        barrier_call.req = TypeFunc.Parms + 1 ∧
        shenandoah_clone_barrier_Type.domain.cnt = TypeFunc.Parms + 1 ∧
        igvn1.replaced = igvn.replaced ++
          [(ac.proj_out TypeFunc.Control,
              H.transform (Node.Proj (H.transform barrier_call) TypeFunc.Control)),
           (ac.proj_out TypeFunc.Memory,
              H.transform (Node.Proj (H.transform barrier_call) TypeFunc.Memory))] ∧
        igvn1._worklist = igvn._worklist ∧
        igvn1.leaf_type_dependencies = igvn.leaf_type_dependencies) ∧
    ((H.element_basic_type (H.klass (H.is_oopptr (H.type (ac.in_ ArrayCopyNode.Src))))
          ≠ .T_OBJECT ∧
      H.element_basic_type (H.klass (H.is_oopptr (H.type (ac.in_ ArrayCopyNode.Src))))
          ≠ .T_ARRAY) →
      clone_barrier_at_expansion H ac call igvn
        = some (H.clone_barrier_at_expansion ac call igvn)) := by
  constructor
  · intro helem hdest
    have hneeds : clone_needs_postbarrier H ac igvn = (true, igvn) := by
      unfold clone_needs_postbarrier
      simp only [hinst, ne_eq, not_true_eq_false, if_false, hary, if_true, if_pos helem]
    refine ⟨?igvn1, ?bc, ?h1, ?h2, ?h3⟩
    case h2 => exact rfl
    case h1 =>
      unfold clone_barrier_at_expansion
      simp only [hclone, hneeds, hdest, Bool.true_eq_false, if_false]
      exact rfl
    case h3 =>
      refine ⟨?_, ?_, ?_, ?_, ?_, ?_, ?_, ?_, ?_, ?_⟩ <;>
        first
        | rfl
        | simp [PhaseIterGVN.replace_node, PhaseIterGVN.transform, Node.proj_out, List.filter,
            Node.is_Call]
  · intro helem
    have hneeds : clone_needs_postbarrier H ac igvn = (false, igvn) := by
      unfold clone_needs_postbarrier
      simp only [hinst, ne_eq, not_true_eq_false, if_false, hary, if_true]
      rw [if_neg (by tauto)]
    unfold clone_barrier_at_expansion
    simp only [hclone, hneeds, Bool.true_eq_false, if_false, if_true]

/-- Witness of C13: the basic clone of the object array `Parm 10` into a destination that
is an address node. -/
theorem C13_clone_barrier_at_expansion_witness :
    ∃ igvn1, clone_barrier_at_expansion exampleHost
        (Node.ArrayCopy .CloneBasic (Node.Parm 10)
          (Node.AddP (Node.Parm 13) (Node.Parm 13) (Node.ConX 16)))
        (Node.Parm 14) ⟨[], [], [], []⟩ = some igvn1 ∧
      igvn1.transformed.filter Node.is_Call =
        [Node.CallLeafNode shenandoah_clone_barrier_Type Address.shenandoah_clone_barrier
          "shenandoah_clone_barrier" Ty.TypeRawPtr_BOTTOM
          (Node.Proj (Node.Parm 14) 0) Node.top (Node.Proj (Node.Parm 14) 2) Node.top
          Node.top (Node.Parm 13)] := by
  obtain ⟨igvn1, bc, h1, h2, h3, h4, _⟩ :=
    (C13_clone_barrier_at_expansion exampleHost
      (Node.ArrayCopy .CloneBasic (Node.Parm 10)
        (Node.AddP (Node.Parm 13) (Node.Parm 13) (Node.ConX 16)))
      (Node.Parm 14) ⟨[], [], [], []⟩ rfl rfl rfl).1 (Or.inl rfl) rfl
  refine ⟨igvn1, h1, ?_⟩
  subst h2
  simpa using h4

end CloneBarrier

section Peepholes
open ShenandoahBarrierSetC2

theorem in_1_ne_self_of_is_gc_barrier (c : Node) (h : is_gc_barrier c = true) :
    c.in_ 1 ≠ c := by
  intro heq
  have hs := congrArg sizeOf heq
  cases c <;> simp [is_gc_barrier, Node.Opcode] at h <;>
    first
    | (simp [Node.in_] at hs; done)
    | (simp [Node.in_] at hs; omega)
    | (rcases h with h | h <;> split_ifs at h)

theorem step_over_gc_barrier_of_is_gc_barrier (c : Node) (h : is_gc_barrier c = true) :
    step_over_gc_barrier c = c.in_ 1 := by
  unfold is_gc_barrier at h
  rw [decide_eq_true_iff] at h
  unfold step_over_gc_barrier
  rcases h with h | h
  · rw [if_pos h]; rfl
  · by_cases h1 : c.Opcode = .Op_ShenandoahLoadReferenceBarrier
    · rw [if_pos h1]; rfl
    · rw [if_neg h1, if_pos h]

theorem step_over_gc_barrier_of_not_is_gc_barrier (c : Node) (h : is_gc_barrier c = false) :
    step_over_gc_barrier c = c := by
  unfold is_gc_barrier at h
  rw [decide_eq_false_iff_not, not_or] at h
  unfold step_over_gc_barrier
  rw [if_neg h.1, if_neg h.2]

theorem ideal_node_CmpP (H : Host) (fast_outs : Node → List Node) (phase : PhaseGVN)
    (a b : Node) (can_reshape : Bool) :
    ideal_node H fast_outs phase (Node.CmpP a b) can_reshape
      = ideal_node_peepholes H phase (Node.CmpP a b) can_reshape := by
  unfold ideal_node
  rw [if_neg (by simp [is_shenandoah_wb_pre_call])]

theorem ideal_node_peepholes_CmpP_second (H : Host) (phase : PhaseGVN) (a b x : Node)
    (can_reshape : Bool)
    (h2 : (if H.bottom_type a = Ty.NULL_PTR then step_over_gc_barrier b else b) = x)
    (h1 : (if H.bottom_type x = Ty.NULL_PTR then step_over_gc_barrier a else a) = a)
    (hx : x ≠ b) :
    ∃ phase1, ideal_node_peepholes H phase (Node.CmpP a b) can_reshape
        = some (Node.CmpP a x, phase1) ∧
      phase1.is_IterGVN = phase.is_IterGVN.map (H.set_req_X (Node.CmpP a b) 2 x) := by
  unfold ideal_node_peepholes
  simp only [Node.Opcode, Node.in_, if_true, h2, h1, ne_eq, not_true_eq_false, if_false, hx,
    not_false_eq_true, Node.set_req]
  cases hp : phase.is_IterGVN with
  | none => exact ⟨_, rfl, by simp [hp]⟩
  | some i => exact ⟨_, rfl, by simp⟩

theorem ideal_node_peepholes_CmpP_first (H : Host) (phase : PhaseGVN) (a b y : Node)
    (can_reshape : Bool)
    (h2 : (if H.bottom_type a = Ty.NULL_PTR then step_over_gc_barrier b else b) = b)
    (h1 : (if H.bottom_type b = Ty.NULL_PTR then step_over_gc_barrier a else a) = y)
    (hy : y ≠ a) :
    ∃ phase1, ideal_node_peepholes H phase (Node.CmpP a b) can_reshape
        = some (Node.CmpP y b, phase1) ∧
      phase1.is_IterGVN = phase.is_IterGVN.map (H.set_req_X (Node.CmpP a b) 1 y) := by
  unfold ideal_node_peepholes
  simp only [Node.Opcode, Node.in_, if_true, h2, h1, ne_eq, hy, not_false_eq_true,
    Node.set_req]
  cases hp : phase.is_IterGVN with
  | none => exact ⟨_, rfl, by simp [hp]⟩
  | some i => exact ⟨_, rfl, by simp⟩

theorem ideal_node_peepholes_CmpP_none (H : Host) (phase : PhaseGVN) (a b : Node)
    (can_reshape : Bool)
    (h2 : (if H.bottom_type a = Ty.NULL_PTR then step_over_gc_barrier b else b) = b)
    (h1 : (if H.bottom_type b = Ty.NULL_PTR then step_over_gc_barrier a else a) = a) :
    ideal_node_peepholes H phase (Node.CmpP a b) can_reshape = some (Node.NULL, phase) := by
  unfold ideal_node_peepholes
  simp only [Node.Opcode, Node.in_, if_true, h2, h1, ne_eq, not_true_eq_false, if_false]

theorem ideal_node_peepholes_CmpP_both (H : Host) (phase : PhaseGVN) (a b x y : Node)
    (can_reshape : Bool)
    (h2 : (if H.bottom_type a = Ty.NULL_PTR then step_over_gc_barrier b else b) = x)
    (h1 : (if H.bottom_type x = Ty.NULL_PTR then step_over_gc_barrier a else a) = y)
    (hx : x ≠ b) (hy : y ≠ a) :
    ideal_node_peepholes H phase (Node.CmpP a b) can_reshape = none := by
  unfold ideal_node_peepholes
  simp only [Node.Opcode, Node.in_, if_true, h2, h1, ne_eq, hy, not_false_eq_true,
    Node.set_req, hx, if_false]

theorem step_over_gc_barrier_cases (c : Node) :
    (is_gc_barrier c = true ∧ step_over_gc_barrier c = c.in_ 1) ∨
    (is_gc_barrier c = false ∧ step_over_gc_barrier c = c) := by
  cases h : is_gc_barrier c
  · exact Or.inr ⟨rfl, step_over_gc_barrier_of_not_is_gc_barrier c h⟩
  · exact Or.inl ⟨rfl, step_over_gc_barrier_of_is_gc_barrier c h⟩

/-- The null-comparison rule wherever the inputs are not both stepped over: for a
comparison `CmpP a b`, when `a` has the null-constant type and
`b` is a load reference barrier or an enqueue barrier, `ideal_node` replaces input 2 by
the value input of `b` and returns the comparison; when `b` has the null-constant type
and `a` is such a barrier, it replaces input 1 by the value input of `a` and returns the
comparison. In both cases the inputs are not both stepped over (the case in which input
1 has the null-constant type and is a barrier, and input 2 is a barrier whose value
input has the null-constant type, is left out). When the input opposite to each input of
the null-constant type is no barrier, in particular when no input has the null-constant
type, it changes nothing and returns `NULL`. -/
theorem cmpp_null_skip (H : Host) (fast_outs : Node → List Node) (phase : PhaseGVN)
    (a b : Node) (can_reshape : Bool) :
    (H.bottom_type a = Ty.NULL_PTR → is_gc_barrier b = true →
      ¬(H.bottom_type (b.in_ 1) = Ty.NULL_PTR ∧ is_gc_barrier a = true) →
      ∃ phase1, ideal_node H fast_outs phase (Node.CmpP a b) can_reshape
          = some (Node.CmpP a (b.in_ 1), phase1) ∧
        phase1.is_IterGVN
          = phase.is_IterGVN.map (H.set_req_X (Node.CmpP a b) 2 (b.in_ 1))) ∧
    (H.bottom_type b = Ty.NULL_PTR → is_gc_barrier a = true →
      ¬(H.bottom_type a = Ty.NULL_PTR ∧ is_gc_barrier b = true) →
      ∃ phase1, ideal_node H fast_outs phase (Node.CmpP a b) can_reshape
          = some (Node.CmpP (a.in_ 1) b, phase1) ∧
        phase1.is_IterGVN
          = phase.is_IterGVN.map (H.set_req_X (Node.CmpP a b) 1 (a.in_ 1))) ∧
    ((H.bottom_type a = Ty.NULL_PTR → is_gc_barrier b = false) →
      (H.bottom_type b = Ty.NULL_PTR → is_gc_barrier a = false) →
      ideal_node H fast_outs phase (Node.CmpP a b) can_reshape = some (Node.NULL, phase)) := by
  rw [ideal_node_CmpP]
  refine ⟨?_, ?_, ?_⟩
  · intro hta hb hnd
    refine ideal_node_peepholes_CmpP_second H phase a b (b.in_ 1) can_reshape ?_ ?_
      (in_1_ne_self_of_is_gc_barrier b hb)
    · rw [if_pos hta, step_over_gc_barrier_of_is_gc_barrier b hb]
    · by_cases ht : H.bottom_type (b.in_ 1) = Ty.NULL_PTR
      · rw [if_pos ht]
        apply step_over_gc_barrier_of_not_is_gc_barrier
        cases ha : is_gc_barrier a
        · rfl
        · exact absurd ⟨ht, ha⟩ hnd
      · rw [if_neg ht]
  · intro htb ha hnd
    refine ideal_node_peepholes_CmpP_first H phase a b (a.in_ 1) can_reshape ?_ ?_
      (in_1_ne_self_of_is_gc_barrier a ha)
    · by_cases ht : H.bottom_type a = Ty.NULL_PTR
      · rw [if_pos ht]
        apply step_over_gc_barrier_of_not_is_gc_barrier
        cases hb : is_gc_barrier b
        · rfl
        · exact absurd ⟨ht, hb⟩ hnd
      · rw [if_neg ht]
    · rw [if_pos htb, step_over_gc_barrier_of_is_gc_barrier a ha]
  · intro h1 h2
    refine ideal_node_peepholes_CmpP_none H phase a b can_reshape ?_ ?_
    · by_cases ht : H.bottom_type a = Ty.NULL_PTR
      · rw [if_pos ht]; exact step_over_gc_barrier_of_not_is_gc_barrier b (h1 ht)
      · rw [if_neg ht]
    · by_cases ht : H.bottom_type b = Ty.NULL_PTR
      · rw [if_pos ht]; exact step_over_gc_barrier_of_not_is_gc_barrier a (h2 ht)
      · rw [if_neg ht]

/-- The rule at the comparison of the null constant with a load reference barrier on
`Parm 7`. -/
theorem cmpp_null_skip_witness :
    ∃ phase1, ideal_node exampleHost (fun _ => []) ⟨none⟩
        (Node.CmpP Node.ConP_null (Node.ShenandoahLoadReferenceBarrier Node.NULL (Node.Parm 7)))
        false
      = some (Node.CmpP Node.ConP_null (Node.Parm 7), phase1) := by
  obtain ⟨phase1, h, _⟩ := (cmpp_null_skip exampleHost (fun _ => []) ⟨none⟩ Node.ConP_null
    (Node.ShenandoahLoadReferenceBarrier Node.NULL (Node.Parm 7)) false).1 rfl rfl (by decide)
  exact ⟨phase1, h⟩

/-- C14, at the input where the code departs from it: input 1 is a load reference barrier
of the null-constant type and input 2 is an enqueue barrier on the null constant. Input
1 has the null-constant type and input 2 is a barrier, but `ideal_node` does not return
the comparison with input 2 replaced by the value input of the barrier: both inputs are
stepped over and the assertion "only one change" fails. -/
theorem C14_cmpp_null_skip_both_stepped :
    exampleHost.bottom_type (Node.ShenandoahLoadReferenceBarrier Node.NULL Node.ConP_null)
      = Ty.NULL_PTR ∧
    is_gc_barrier (Node.ShenandoahEnqueueBarrier Node.ConP_null) = true ∧
    ideal_node exampleHost (fun _ => []) ⟨none⟩
        (Node.CmpP (Node.ShenandoahLoadReferenceBarrier Node.NULL Node.ConP_null)
          (Node.ShenandoahEnqueueBarrier Node.ConP_null)) false
      = none := by
  decide

/-- C15 (amended): a run of the null-comparison rule that changes the comparison
`CmpP a b` replaces exactly one input that is a barrier by the value input of that
barrier; and when neither input of the comparison that it produced is a barrier, a second
run on that comparison changes nothing and returns `NULL`. -/
theorem C15_cmpp_null_skip_second_run (H : Host) (fast_outs : Node → List Node)
    (phase : PhaseGVN) (a b : Node) (can_reshape : Bool) (n1 : Node) (phase1 : PhaseGVN)
    (hrun : ideal_node H fast_outs phase (Node.CmpP a b) can_reshape = some (n1, phase1))
    (hn1 : n1 ≠ Node.NULL) :
    ((n1 = Node.CmpP a (b.in_ 1) ∧ is_gc_barrier b = true) ∨
      (n1 = Node.CmpP (a.in_ 1) b ∧ is_gc_barrier a = true)) ∧
    (is_gc_barrier (n1.in_ 1) = false → is_gc_barrier (n1.in_ 2) = false →
      ∀ (phase2 : PhaseGVN) (can_reshape2 : Bool),
        ideal_node H fast_outs phase2 n1 can_reshape2 = some (Node.NULL, phase2)) := by
  rw [ideal_node_CmpP] at hrun
  have hshape : (n1 = Node.CmpP a (b.in_ 1) ∧ is_gc_barrier b = true) ∨
      (n1 = Node.CmpP (a.in_ 1) b ∧ is_gc_barrier a = true) := by
    by_cases hx : (if H.bottom_type a = Ty.NULL_PTR then step_over_gc_barrier b else b) = b
    · by_cases hy : (if H.bottom_type b = Ty.NULL_PTR then step_over_gc_barrier a else a) = a
      · rw [ideal_node_peepholes_CmpP_none H phase a b can_reshape hx hy] at hrun
        simp only [Option.some.injEq, Prod.mk.injEq] at hrun
        exact absurd hrun.1.symm hn1
      · obtain ⟨p, hp, _⟩ := ideal_node_peepholes_CmpP_first H phase a b _ can_reshape hx rfl hy
        rw [hp] at hrun
        simp only [Option.some.injEq, Prod.mk.injEq] at hrun
        right
        rcases step_over_gc_barrier_cases a with ⟨ha, hs⟩ | ⟨ha, hs⟩
        · refine ⟨?_, ha⟩
          rw [← hrun.1]
          split_ifs at hy ⊢ with ht
          · rw [hs]
          · exact absurd rfl hy
        · exfalso
          apply hy
          split_ifs
          · exact hs
          · rfl
    · by_cases hy : (if H.bottom_type
          (if H.bottom_type a = Ty.NULL_PTR then step_over_gc_barrier b else b) = Ty.NULL_PTR
          then step_over_gc_barrier a else a) = a
      · obtain ⟨p, hp, _⟩ := ideal_node_peepholes_CmpP_second H phase a b _ can_reshape rfl hy hx
        rw [hp] at hrun
        simp only [Option.some.injEq, Prod.mk.injEq] at hrun
        left
        rcases step_over_gc_barrier_cases b with ⟨hb, hs⟩ | ⟨hb, hs⟩
        · refine ⟨?_, hb⟩
          rw [← hrun.1]
          split_ifs at hx ⊢ with ht
          · rw [hs]
          · exact absurd rfl hx
        · exfalso
          apply hx
          split_ifs
          · exact hs
          · rfl
      · rw [ideal_node_peepholes_CmpP_both H phase a b _ _ can_reshape rfl rfl hx hy] at hrun
        cases hrun
  refine ⟨hshape, ?_⟩
  intro h1 h2 phase2 can_reshape2
  have hcmp : ∃ a1 b1, n1 = Node.CmpP a1 b1 := by
    rcases hshape with ⟨h, _⟩ | ⟨h, _⟩
    · exact ⟨_, _, h⟩
    · exact ⟨_, _, h⟩
  obtain ⟨a1, b1, rfl⟩ := hcmp
  have h1' : is_gc_barrier a1 = false := h1
  have h2' : is_gc_barrier b1 = false := h2
  rw [ideal_node_CmpP]
  refine ideal_node_peepholes_CmpP_none H phase2 a1 b1 can_reshape2 ?_ ?_
  · split_ifs
    · exact step_over_gc_barrier_of_not_is_gc_barrier b1 h2'
    · rfl
  · split_ifs
    · exact step_over_gc_barrier_of_not_is_gc_barrier a1 h1'
    · rfl

/-- Witness of C15: the comparison of the null constant with a load reference barrier on
`Parm 7`; the second run changes nothing. -/
theorem C15_cmpp_null_skip_second_run_witness :
    ideal_node exampleHost (fun _ => []) ⟨none⟩
        (Node.CmpP Node.ConP_null (Node.Parm 7)) false
      = some (Node.NULL, ⟨none⟩) :=
  (C15_cmpp_null_skip_second_run exampleHost (fun _ => []) ⟨none⟩ Node.ConP_null
    (Node.ShenandoahLoadReferenceBarrier Node.NULL (Node.Parm 7)) false
    (Node.CmpP Node.ConP_null (Node.Parm 7)) ⟨none⟩ (by decide) (by decide)).2
    (by decide) (by decide) ⟨none⟩ false

/-- Counterexample to C15 as stated: the comparison of the null constant with an enqueue
barrier on a load reference barrier. The first run steps over the enqueue barrier, the
second run on the comparison that it produced steps over the load reference barrier. -/
theorem C15_counterexample :
    ideal_node exampleHost (fun _ => []) ⟨none⟩
        (Node.CmpP Node.ConP_null
          (Node.ShenandoahEnqueueBarrier
            (Node.ShenandoahLoadReferenceBarrier Node.NULL (Node.Parm 7)))) false
      = some (Node.CmpP Node.ConP_null
          (Node.ShenandoahLoadReferenceBarrier Node.NULL (Node.Parm 7)), ⟨none⟩) ∧
    ideal_node exampleHost (fun _ => []) ⟨none⟩
        (Node.CmpP Node.ConP_null
          (Node.ShenandoahLoadReferenceBarrier Node.NULL (Node.Parm 7))) false
      = some (Node.CmpP Node.ConP_null (Node.Parm 7), ⟨none⟩) := by
  decide

end Peepholes

section MarkingTestMerge
open ShenandoahBarrierSetC2

theorem prev_dom_after_shift (H : Host) (dom prev_dom : Node) (i : Nat) :
    prev_dom_after H (H.up_one_dom dom) dom i = prev_dom_after H dom prev_dom (i + 1) := by
  cases i <;> rfl

theorem search_goes_on_shift (H : Host) (op : Opcode) (dom prev_dom : Node) (i : Nat) :
    search_goes_on H op (H.up_one_dom dom) dom i = search_goes_on H op dom prev_dom (i + 1) := by
  unfold search_goes_on
  rw [prev_dom_after_shift H dom prev_dom i]
  rfl

theorem search_goes_on_zero (H : Host) (op : Opcode) (dom prev_dom : Node) :
    search_goes_on H op dom prev_dom 0 = true ↔
      (dom.Opcode ≠ op ∨ H.is_heap_stable_test dom = false ∨ prev_dom.in_ 0 ≠ dom) := by
  unfold search_goes_on
  rw [decide_eq_true_iff]
  rfl

theorem ideal_node_search_gives_up (H : Host) (op : Opcode) :
    ∀ (m fuel : Nat) (dist : Int) (dom prev_dom : Node), m + 1 ≤ fuel →
      (∀ i, i ≤ m → search_goes_on H op dom prev_dom i = true) →
      (dom_after H dom (m + 1) = Node.NULL ∨ dist < m) →
      ideal_node_search H op fuel dist dom prev_dom = some none := by
  intro m
  induction m with
  | zero =>
    intro fuel dist dom prev_dom hfuel hgo hend
    obtain ⟨f, rfl⟩ : ∃ f, fuel = f + 1 := ⟨fuel - 1, by omega⟩
    have h0 := (search_goes_on_zero H op dom prev_dom).mp (hgo 0 (le_refl _))
    simp only [ideal_node_search]
    rw [if_pos h0]
    by_cases hd : dist < 0
    · rw [if_pos hd]
    · rw [if_neg hd]
      rcases hend with hnull | hlt
      · have : H.up_one_dom dom = Node.NULL := hnull
        rw [if_pos this]
      · exact absurd (by simpa using hlt) hd
  | succ m ih =>
    intro fuel dist dom prev_dom hfuel hgo hend
    obtain ⟨f, rfl⟩ : ∃ f, fuel = f + 1 := ⟨fuel - 1, by omega⟩
    have h0 := (search_goes_on_zero H op dom prev_dom).mp (hgo 0 (by omega))
    simp only [ideal_node_search]
    rw [if_pos h0]
    by_cases hd : dist < 0
    · rw [if_pos hd]
    · rw [if_neg hd]
      by_cases hn : H.up_one_dom dom = Node.NULL
      · rw [if_pos hn]
      · rw [if_neg hn]
        apply ih f (dist - 1) (H.up_one_dom dom) dom (by omega)
        · intro i hi
          rw [search_goes_on_shift H op dom prev_dom i]
          exact hgo (i + 1) (by omega)
        · rcases hend with hnull | hlt
          · left; exact hnull
          · right
            push_cast at hlt
            omega

theorem ideal_node_search_finds (H : Host) (op : Opcode) :
    ∀ (m fuel : Nat) (dist : Int) (dom prev_dom : Node), m + 1 ≤ fuel → (m : Int) ≤ dist + 1 →
      (∀ i, i < m → search_goes_on H op dom prev_dom i = true ∧
        dom_after H dom (i + 1) ≠ Node.NULL) →
      search_goes_on H op dom prev_dom m = false →
      ideal_node_search H op fuel dist dom prev_dom
        = some (some (dom_after H dom m, prev_dom_after H dom prev_dom m)) := by
  intro m
  induction m with
  | zero =>
    intro fuel dist dom prev_dom hfuel hdist hgo hfound
    obtain ⟨f, rfl⟩ : ∃ f, fuel = f + 1 := ⟨fuel - 1, by omega⟩
    have h0 : ¬(dom.Opcode ≠ op ∨ H.is_heap_stable_test dom = false ∨ prev_dom.in_ 0 ≠ dom) := by
      rw [← search_goes_on_zero H op dom prev_dom, hfound]
      simp
    simp only [ideal_node_search]
    rw [if_neg h0]
    rfl
  | succ m ih =>
    intro fuel dist dom prev_dom hfuel hdist hgo hfound
    obtain ⟨f, rfl⟩ : ∃ f, fuel = f + 1 := ⟨fuel - 1, by omega⟩
    have h0 := (search_goes_on_zero H op dom prev_dom).mp (hgo 0 (by omega)).1
    have hn : ¬ H.up_one_dom dom = Node.NULL := (hgo 0 (by omega)).2
    have hd : ¬ dist < 0 := by push_cast at hdist; omega
    simp only [ideal_node_search]
    rw [if_pos h0, if_neg hd, if_neg hn]
    rw [ih f (dist - 1) (H.up_one_dom dom) dom (by omega) (by push_cast at hdist; omega)
      (fun i hi => by
        rw [search_goes_on_shift H op dom prev_dom i]
        exact hgo (i + 1) (by omega))
      (by rw [search_goes_on_shift H op dom prev_dom m]; exact hfound)]
    rw [prev_dom_after_shift H dom prev_dom m]
    rfl

theorem ideal_node_of_Op_If (H : Host) (fast_outs : Node → List Node) (phase : PhaseGVN)
    (n : Node) (hop : n.Opcode = .Op_If) (hst : H.is_heap_stable_test n = true)
    (hin : n.in_ 0 ≠ Node.NULL) :
    ideal_node H fast_outs phase n true
      = match ideal_node_search H .Op_If 18 16 (n.in_ 0) n with
        | none => none
        | some none => some (Node.NULL, phase)
        | some (some (dom, prev_dom)) =>
          if n = dom then some (Node.NULL, phase)
          else some ((H.dominated_by n prev_dom phase.is_IterGVN).1,
            ⟨(H.dominated_by n prev_dom phase.is_IterGVN).2⟩) := by
  have hcall : is_shenandoah_wb_pre_call n = false := by
    cases n <;> simp [Node.Opcode] at hop <;> simp [is_shenandoah_wb_pre_call]
  unfold ideal_node
  rw [hcall]
  simp only [Bool.false_eq_true, if_false]
  unfold ideal_node_peepholes
  rw [if_neg (by rw [hop]; decide), if_pos ⟨rfl, hop, hst, hin⟩, hop]

/-- C16 (amended): the search for a dominating marking test goes up at most 17
dominators: for a marking test `n` (an `If` that is a heap stable test, with a control
input) such that the loop condition holds at the control input of `n` and after each of
the first 17 applications of `up_one_dom`, that is, whose closest dominating marking test
lies more than 17 applications above its control input, `ideal_node` merges nothing and
returns `NULL`, the phase unchanged. -/
theorem C16_marking_test_search_bound (H : Host) (fast_outs : Node → List Node)
    (phase : PhaseGVN) (n : Node)
    (hop : n.Opcode = .Op_If) (hst : H.is_heap_stable_test n = true)
    (hin : n.in_ 0 ≠ Node.NULL)
    (hfar : ∀ i, i ≤ 17 → search_goes_on H .Op_If (n.in_ 0) n i = true) :
    ideal_node H fast_outs phase n true = some (Node.NULL, phase) := by
  rw [ideal_node_of_Op_If H fast_outs phase n hop hst hin,
    ideal_node_search_gives_up H .Op_If 17 18 16 (n.in_ 0) n (by omega) hfar
      (Or.inr (by norm_num))]

/-- Witness of C16: a marking test with nine other branches between it and the marking
test that dominates it, which lies 19 applications of `up_one_dom` above its control
input. -/
theorem C16_marking_test_search_bound_witness :
    ideal_node exampleHost (fun _ => []) ⟨none⟩ (exampleDominatedTest 9) true
      = some (Node.NULL, ⟨none⟩) :=
  C16_marking_test_search_bound exampleHost (fun _ => []) ⟨none⟩ (exampleDominatedTest 9)
    rfl rfl (by decide) (by decide)

/-- Counterexample to C16 as stated: a marking test with eight other branches between it
and the marking test that dominates it. The loop condition holds at its control input
and after each of the first 16 applications of `up_one_dom`, the dominating marking test
is reached by the 17th, more than 16, and `ideal_node` merges: it returns the node that
`dominated_by` returns. -/
theorem C16_counterexample :
    (∀ i, i ≤ 16 → search_goes_on exampleHost .Op_If ((exampleDominatedTest 8).in_ 0)
      (exampleDominatedTest 8) i = true) ∧
    search_goes_on exampleHost .Op_If ((exampleDominatedTest 8).in_ 0)
      (exampleDominatedTest 8) 17 = false ∧
    dom_after exampleHost ((exampleDominatedTest 8).in_ 0) 17 = exampleMarkingTest ∧
    ideal_node exampleHost (fun _ => []) ⟨none⟩ (exampleDominatedTest 8) true
      = some (Node.ConI 0, ⟨none⟩) := by
  decide

/-- C17: for a marking test `n` (an `If` that is a heap stable test, with a control
input, reshaping allowed), when the search meets after `m` applications of `up_one_dom`,
`m` at most 17, the first node `d` that is an `If`, a marking test, and the control input
of the node `prev_dom` met before it, then `ideal_node` returns what
`n->dominated_by(prev_dom, igvn)` returns if `d` is another node than `n`, and `NULL`
with the phase unchanged if `d` is `n` itself; when the search meets no such node and
`up_one_dom` has no dominator to go to, it returns `NULL` with the phase unchanged. -/
theorem C17_marking_test_merge (H : Host) (fast_outs : Node → List Node)
    (phase : PhaseGVN) (n : Node) (m : Nat)
    (hop : n.Opcode = .Op_If) (hst : H.is_heap_stable_test n = true)
    (hin : n.in_ 0 ≠ Node.NULL) (hm : m ≤ 17)
    (hbefore : ∀ i, i < m → search_goes_on H .Op_If (n.in_ 0) n i = true ∧
      dom_after H (n.in_ 0) (i + 1) ≠ Node.NULL) :
    (search_goes_on H .Op_If (n.in_ 0) n m = false →
      ((dom_after H (n.in_ 0) m).Opcode = .Op_If ∧
        H.is_heap_stable_test (dom_after H (n.in_ 0) m) = true ∧
        (prev_dom_after H (n.in_ 0) n m).in_ 0 = dom_after H (n.in_ 0) m) ∧
      (dom_after H (n.in_ 0) m ≠ n →
        ideal_node H fast_outs phase n true
          = some ((H.dominated_by n (prev_dom_after H (n.in_ 0) n m) phase.is_IterGVN).1,
              ⟨(H.dominated_by n (prev_dom_after H (n.in_ 0) n m) phase.is_IterGVN).2⟩)) ∧
      (dom_after H (n.in_ 0) m = n →
        ideal_node H fast_outs phase n true = some (Node.NULL, phase))) ∧
    (search_goes_on H .Op_If (n.in_ 0) n m = true →
      dom_after H (n.in_ 0) (m + 1) = Node.NULL →
      ideal_node H fast_outs phase n true = some (Node.NULL, phase)) := by
  constructor
  · intro hfound
    have hs := ideal_node_search_finds H .Op_If m 18 16 (n.in_ 0) n (by omega)
      (by push_cast; omega) hbefore hfound
    refine ⟨?_, ?_, ?_⟩
    · unfold search_goes_on at hfound
      rw [decide_eq_false_iff_not] at hfound
      push_neg at hfound
      obtain ⟨h1, h2, h3⟩ := hfound
      refine ⟨h1, ?_, h3⟩
      cases h : H.is_heap_stable_test (dom_after H (n.in_ 0) m)
      · exact absurd h h2
      · rfl
    · intro hne
      rw [ideal_node_of_Op_If H fast_outs phase n hop hst hin, hs]
      simp only
      rw [if_neg (fun h => hne h.symm)]
    · intro heq
      rw [ideal_node_of_Op_If H fast_outs phase n hop hst hin, hs]
      simp only
      rw [if_pos heq.symm]
  · intro hgo hnull
    rw [ideal_node_of_Op_If H fast_outs phase n hop hst hin,
      ideal_node_search_gives_up H .Op_If m 18 16 (n.in_ 0) n (by omega)
        (fun i hi => by
          rcases Nat.lt_or_eq_of_le hi with h | h
          · exact (hbefore i h).1
          · rw [h]; exact hgo)
        (Or.inl hnull)]

/-- Witness of C17: a marking test whose control input is the projection of the marking
test that dominates it; the search meets that test after one application of
`up_one_dom`. -/
theorem C17_marking_test_merge_witness :
    ideal_node exampleHost (fun _ => []) ⟨none⟩ (exampleDominatedTest 0) true
      = some (Node.ConI 0, ⟨none⟩) :=
  ((C17_marking_test_merge exampleHost (fun _ => []) ⟨none⟩ (exampleDominatedTest 0) 1
    rfl rfl (by decide) (by decide) (by decide)).1 (by decide)).2.1 (by decide)

end MarkingTestMerge

section FinalGraphReshaping
open ShenandoahBarrierSetC2

end FinalGraphReshaping

section ReferentGuard
open ShenandoahBarrierSetC2

theorem satb_write_barrier_pre_loaded_eq (F : Flags) (H : Host) (kit : GraphKit)
    (pre_val : Node) (hpre : pre_val ≠ Node.NULL)
    (hok : H.bottom_type pre_val ≠ Ty.NULL_PTR →
      H.basic_type (H.bottom_type pre_val) = .T_OBJECT ∧
      H.is_gc_state_load (Node.Load (Node.AddP Node.top Node.ThreadLocal
        (Node.ConX H.gc_state_offset)) (some Ty.TypeInt_BYTE) .T_BYTE AliasIdxRaw) = true ∧
      H.type2aelembytes .T_LONG = 8) :
    satb_write_barrier_pre F H kit false Node.NULL Node.NULL max_juint Node.NULL none pre_val
        .T_OBJECT
      = if H.bottom_type pre_val = Ty.NULL_PTR then some kit
        else some ⟨kit.emitted ++
            satb_pre_barrier_code H false Node.NULL max_juint none pre_val Node.NULL,
          kit.transformed ++ [Node.SubX (Node.Load (Node.AddP Node.top Node.ThreadLocal
            (Node.ConX H.index_offset)) (some Ty.TypeX_X) .T_LONG AliasIdxRaw)
            (Node.ConX sizeof_intptr_t)]⟩ := by
  by_cases ht : H.bottom_type pre_val = Ty.NULL_PTR
  · rw [if_pos ht]
    unfold satb_write_barrier_pre
    simp only [Bool.false_eq_true, if_false, if_neg hpre, if_pos ht]
  · rw [if_neg ht]
    obtain ⟨h1, h2, h3⟩ := hok ht
    have h := satb_write_barrier_pre_emits F H kit false Node.NULL Node.NULL max_juint
      Node.NULL none pre_val (by simp) (fun _ => ⟨hpre, h1⟩) h2 h3 (by simp) (fun _ => ht)
    simpa using h

/-- C21: `insert_pre_barrier` returns the kit as it is when the offset is a constant
other than the offset of the referent field, or the static type of the base is an array
type, or it is an instance type whose klass is loaded, is no subtype of `Reference` and
no supertype of `Object`. In every other case, for a value that is loaded and passes
the assertions of the pre-barrier, it adds to the kit the guard `if (offset ==
referent_offset) { instanceof(base, Reference); if (is_instof == 1) { pre-barrier;
[MemBarCPUOrder] } }`, where the pre-barrier is what `satb_write_barrier_pre` emits for
the loaded value (nothing for a value of the null-constant type) and the memory barrier
is there exactly when `need_mem_bar` is set; the kit is then another one. -/
theorem C21_insert_pre_barrier (F : Flags) (H : Host) (kit : GraphKit)
    (base_oop offset pre_val : Node) (need_mem_bar : Bool) :
    (((∃ t, H.find_intptr_t_type offset = some t ∧ t.is_con = true ∧
          t.get_con ≠ H.referent_offset) ∨
      (∃ b, H.isa_oopptr (H.bottom_type base_oop) = some b ∧ H.isa_aryptr b = true) ∨
      (∃ b itype, H.isa_oopptr (H.bottom_type base_oop) = some b ∧
          H.isa_instptr b = some itype ∧ H.is_loaded (H.klass itype) = true ∧
          H.is_subtype_of (H.klass itype) H.Reference_klass = false ∧
          H.is_subtype_of H.Object_klass (H.klass itype) = false)) →
      insert_pre_barrier F H kit base_oop offset pre_val need_mem_bar = some kit) ∧
    (¬((∃ t, H.find_intptr_t_type offset = some t ∧ t.is_con = true ∧
          t.get_con ≠ H.referent_offset) ∨
      (∃ b, H.isa_oopptr (H.bottom_type base_oop) = some b ∧ H.isa_aryptr b = true) ∨
      (∃ b itype, H.isa_oopptr (H.bottom_type base_oop) = some b ∧
          H.isa_instptr b = some itype ∧ H.is_loaded (H.klass itype) = true ∧
          H.is_subtype_of (H.klass itype) H.Reference_klass = false ∧
          H.is_subtype_of H.Object_klass (H.klass itype) = false)) →
      pre_val ≠ Node.NULL →
      (H.bottom_type pre_val ≠ Ty.NULL_PTR →
        H.basic_type (H.bottom_type pre_val) = .T_OBJECT ∧
        H.is_gc_state_load (Node.Load (Node.AddP Node.top Node.ThreadLocal
          (Node.ConX H.gc_state_offset)) (some Ty.TypeInt_BYTE) .T_BYTE AliasIdxRaw) = true ∧
        H.type2aelembytes .T_LONG = 8) →
      ∃ kit1, insert_pre_barrier F H kit base_oop offset pre_val need_mem_bar = some kit1 ∧
        kit1.emitted = kit.emitted ++
          [Stmt.if_then offset .eq (Node.ConX H.referent_offset) .prob_unlikely
            [Stmt.gen_instanceof base_oop (H.makecon_klass H.Reference_klass),
             Stmt.if_then (H.gen_instanceof base_oop (H.makecon_klass H.Reference_klass))
               .eq (Node.ConI 1) .prob_unlikely
               ((if H.bottom_type pre_val = Ty.NULL_PTR then []
                 else satb_pre_barrier_code H false Node.NULL max_juint none pre_val
                   Node.NULL) ++
                (if need_mem_bar = true then [Stmt.insert_mem_bar .Op_MemBarCPUOrder]
                 else []))
               none]
            none] ∧
        kit1.emitted ≠ kit.emitted) := by
  constructor
  · intro h
    unfold insert_pre_barrier
    rcases h with ⟨t, ht, hc, hne⟩ | ⟨b, hb, ha⟩ | ⟨b, itype, hb, hi, h1, h2, h3⟩
    · simp [ht, hc, hne]
    · simp only [hb, Option.any_some, ha, if_true]
      split_ifs <;> rfl
    · simp only [hb, Option.any_some, hi, h1, h2, h3, Bool.not_false, Bool.and_self, if_true]
      split_ifs <;> rfl
  · intro hn hpre hok
    have h1 : ¬ (H.find_intptr_t_type offset).any
        (fun t => t.is_con && decide (t.get_con ≠ H.referent_offset)) = true := by
      intro hc
      apply hn
      left
      cases ho : H.find_intptr_t_type offset with
      | none => rw [ho] at hc; simp at hc
      | some t =>
        rw [ho] at hc
        simp only [Option.any_some, Bool.and_eq_true, decide_eq_true_eq] at hc
        exact ⟨t, rfl, hc.1, hc.2⟩
    have h2 : ¬ (H.isa_oopptr (H.bottom_type base_oop)).any (fun b => H.isa_aryptr b) = true := by
      intro hc
      apply hn
      right; left
      cases ho : H.isa_oopptr (H.bottom_type base_oop) with
      | none => rw [ho] at hc; simp at hc
      | some b =>
        rw [ho] at hc
        exact ⟨b, rfl, by simpa using hc⟩
    have h3 : ¬ (H.isa_oopptr (H.bottom_type base_oop)).any (fun b =>
        (H.isa_instptr b).any (fun itype =>
          H.is_loaded (H.klass itype) && !H.is_subtype_of (H.klass itype) H.Reference_klass &&
            !H.is_subtype_of H.Object_klass (H.klass itype))) = true := by
      intro hc
      apply hn
      right; right
      cases ho : H.isa_oopptr (H.bottom_type base_oop) with
      | none => rw [ho] at hc; simp at hc
      | some b =>
        rw [ho] at hc
        simp only [Option.any_some] at hc
        cases hi : H.isa_instptr b with
        | none => rw [hi] at hc; simp at hc
        | some itype =>
          rw [hi] at hc
          simp only [Option.any_some, Bool.and_eq_true, Bool.not_eq_true'] at hc
          exact ⟨b, itype, rfl, hi, hc.1.1, hc.1.2, hc.2⟩
    unfold insert_pre_barrier
    simp only [if_neg h1, if_neg h2, if_neg h3,
      satb_write_barrier_pre_loaded_eq F H _ pre_val hpre hok]
    by_cases ht : H.bottom_type pre_val = Ty.NULL_PTR
    · simp only [if_pos ht]
      cases need_mem_bar <;>
        exact ⟨_, rfl, by simp [GraphKit.final_sync, GraphKit.insert_mem_bar], by
          simp [GraphKit.final_sync, GraphKit.insert_mem_bar]⟩
    · simp only [if_neg ht]
      cases need_mem_bar <;>
        exact ⟨_, rfl, by simp [GraphKit.final_sync, GraphKit.insert_mem_bar], by
          simp [GraphKit.final_sync, GraphKit.insert_mem_bar]⟩

/-- Witness of C21: for the base `Parm 0`, of an instance type whose klass is `Object`,
the constant offset 16 is not that of the referent field, 12, and nothing is emitted;
with the offset 12 the guard is emitted. -/
theorem C21_insert_pre_barrier_witness :
    insert_pre_barrier exampleFlags exampleHost exampleKit (Node.Parm 0) (Node.ConX 16)
        (Node.Parm 7) true = some exampleKit ∧
    ∃ kit1, insert_pre_barrier exampleFlags exampleHost exampleKit (Node.Parm 0)
        (Node.ConX 12) (Node.Parm 7) true = some kit1 ∧
      kit1.emitted ≠ exampleKit.emitted := by
  have h := C21_insert_pre_barrier exampleFlags exampleHost exampleKit (Node.Parm 0)
  refine ⟨(h (Node.ConX 16) (Node.Parm 7) true).1
    (Or.inl ⟨⟨true, 16⟩, rfl, rfl, by decide⟩), ?_⟩
  obtain ⟨kit1, h1, _, h3⟩ := (h (Node.ConX 12) (Node.Parm 7) true).2
    (by
      rintro (⟨t, ht, hc, hne⟩ | ⟨b, hb, ha⟩ | ⟨b, itype, hb, hi, h1, h2, h3⟩)
      · simp only [exampleHost, Option.some.injEq] at ht
        subst ht
        exact hne rfl
      · simp only [exampleHost, Option.some.injEq] at hb
        subst hb
        simp [exampleHost] at ha
      · simp only [exampleHost, Option.some.injEq] at hb
        subst hb
        simp only [exampleHost] at hi
        simp at hi
        subst hi
        simp [exampleHost] at h3)
    (by decide) (fun _ => ⟨rfl, rfl, rfl⟩)
  exact ⟨kit1, h1, h3⟩

end ReferentGuard

section EscapeAnalysis
open ShenandoahBarrierSetC2

/-- The escape analysis hooks on the barrier nodes, apart from `escape_add_to_con_graph`
on an enqueue barrier: each adds one `NoEscape` local-variable edge from the node to its
value input and returns true. -/
theorem escape_barrier_edges (H : Host) (conn_graph : ConnectionGraph) (n : Node) :
    escape_add_to_con_graph H conn_graph n .Op_ShenandoahLoadReferenceBarrier
      = (true, conn_graph ++ [.add_local_var_and_edge n .NoEscape
          (n.in_ ShenandoahLoadReferenceBarrierNode.ValueIn) true]) ∧
    escape_add_final_edges H conn_graph n .Op_ShenandoahEnqueueBarrier
      = (true, conn_graph ++ [.add_local_var_and_edge n .NoEscape (n.in_ 1) false]) ∧
    escape_add_final_edges H conn_graph n .Op_ShenandoahLoadReferenceBarrier
      = (true, conn_graph ++ [.add_local_var_and_edge n .NoEscape
          (n.in_ ShenandoahLoadReferenceBarrierNode.ValueIn) false]) := by
  refine ⟨?_, ?_, ?_⟩ <;> simp [escape_add_to_con_graph, escape_add_final_edges]

/-- C22, at the input where the code departs from it: for the opcode of the enqueue
barrier, whatever the node and the connection graph, `escape_add_to_con_graph` adds the
`NoEscape` local-variable edge from the node to its value input, leaves the `switch`
with `break` and returns false. -/
theorem C22_escape_add_to_con_graph_enqueue_barrier (H : Host)
    (conn_graph : ConnectionGraph) (n : Node) :
    escape_add_to_con_graph H conn_graph n .Op_ShenandoahEnqueueBarrier
      = (false, conn_graph ++ [.add_local_var_and_edge n .NoEscape (n.in_ 1) true]) := by
  simp [escape_add_to_con_graph]

/-- C23: for the opcode `Op_StoreP`, `escape_add_to_con_graph` adds nothing to the
connection graph, and it returns true if and only if the address of the store is an
address node of a raw pointer type whose base is a `LoadP` from an address node whose
base is the `ThreadLocal` node and whose offset, as the code reads it (the constant of
the offset node or else `Type::OffsetBot`, converted to `int`), is the offset of the SATB
queue buffer. When offsets fit in an `int` and `OffsetBot` is not the buffer offset, that
is: the offset node is a constant equal to the buffer offset. -/
theorem C23_escape_store_suppressed (H : Host) (conn_graph : ConnectionGraph) (n : Node) :
    (escape_add_to_con_graph H conn_graph n .Op_StoreP).2 = conn_graph ∧
    ((escape_add_to_con_graph H conn_graph n .Op_StoreP).1 = true ↔
      (H.isa_rawptr (H.type (n.in_ MemNode_Address)) = true ∧
        (n.in_ MemNode_Address).is_AddP = true ∧
        (H.get_addp_base (n.in_ MemNode_Address)).Opcode = .Op_LoadP ∧
        ((H.get_addp_base (n.in_ MemNode_Address)).in_ MemNode_Address).is_AddP = true ∧
        (H.get_addp_base ((H.get_addp_base (n.in_ MemNode_Address)).in_ MemNode_Address)).Opcode
          = .Op_ThreadLocal ∧
        int_cast (find_intptr_t_con H
          (((H.get_addp_base (n.in_ MemNode_Address)).in_ MemNode_Address).in_
            AddPNode.Offset) H.OffsetBot) = H.buffer_offset)) ∧
    (int_cast H.OffsetBot ≠ H.buffer_offset →
      (∀ t, H.find_intptr_t_type
          (((H.get_addp_base (n.in_ MemNode_Address)).in_ MemNode_Address).in_
            AddPNode.Offset) = some t → -2 ^ 31 ≤ t.get_con ∧ t.get_con < 2 ^ 31) →
      ((escape_add_to_con_graph H conn_graph n .Op_StoreP).1 = true ↔
        (H.isa_rawptr (H.type (n.in_ MemNode_Address)) = true ∧
          (n.in_ MemNode_Address).is_AddP = true ∧
          (H.get_addp_base (n.in_ MemNode_Address)).Opcode = .Op_LoadP ∧
          ((H.get_addp_base (n.in_ MemNode_Address)).in_ MemNode_Address).is_AddP = true ∧
          (H.get_addp_base
            ((H.get_addp_base (n.in_ MemNode_Address)).in_ MemNode_Address)).Opcode
            = .Op_ThreadLocal ∧
          ∃ t, H.find_intptr_t_type
              (((H.get_addp_base (n.in_ MemNode_Address)).in_ MemNode_Address).in_
                AddPNode.Offset) = some t ∧
            t.is_con = true ∧ t.get_con = H.buffer_offset))) := by
  have key : (escape_add_to_con_graph H conn_graph n .Op_StoreP).2 = conn_graph ∧
      ((escape_add_to_con_graph H conn_graph n .Op_StoreP).1 = true ↔
        (H.isa_rawptr (H.type (n.in_ MemNode_Address)) = true ∧
          (n.in_ MemNode_Address).is_AddP = true ∧
          (H.get_addp_base (n.in_ MemNode_Address)).Opcode = .Op_LoadP ∧
          ((H.get_addp_base (n.in_ MemNode_Address)).in_ MemNode_Address).is_AddP = true ∧
          (H.get_addp_base
            ((H.get_addp_base (n.in_ MemNode_Address)).in_ MemNode_Address)).Opcode
            = .Op_ThreadLocal ∧
          int_cast (find_intptr_t_con H
            (((H.get_addp_base (n.in_ MemNode_Address)).in_ MemNode_Address).in_
              AddPNode.Offset) H.OffsetBot) = H.buffer_offset)) := by
    unfold escape_add_to_con_graph
    simp only [reduceCtorEq, or_self, if_false, if_true]
    split_ifs <;> simp_all
  refine ⟨key.1, key.2, ?_⟩
  intro hbot hrange
  rw [key.2]
  have hoff : int_cast (find_intptr_t_con H
        (((H.get_addp_base (n.in_ MemNode_Address)).in_ MemNode_Address).in_
          AddPNode.Offset) H.OffsetBot) = H.buffer_offset ↔
      ∃ t, H.find_intptr_t_type
          (((H.get_addp_base (n.in_ MemNode_Address)).in_ MemNode_Address).in_
            AddPNode.Offset) = some t ∧
        t.is_con = true ∧ t.get_con = H.buffer_offset := by
    unfold find_intptr_t_con
    cases ht : H.find_intptr_t_type
        (((H.get_addp_base (n.in_ MemNode_Address)).in_ MemNode_Address).in_
          AddPNode.Offset) with
    | none =>
      simp only [reduceCtorEq, false_and, exists_false, iff_false]
      exact hbot
    | some t =>
      obtain ⟨hlo, hhi⟩ := hrange t ht
      by_cases hc : t.is_con = true
      · simp only [hc, if_true, Option.some.injEq, true_and, exists_eq_left']
        have : int_cast t.get_con = t.get_con := by
          unfold int_cast
          omega
        rw [this]
      · simp only [hc, if_false, Option.some.injEq, exists_eq_left', false_and, iff_false]
        simpa using hbot
  rw [hoff]

/-- Witness of C23: the store of the previous value into the SATB queue buffer, as the
pre-barrier emits it. -/
theorem C23_escape_store_suppressed_witness :
    (escape_add_to_con_graph exampleHost []
      (Node.Store (Node.Parm 102)
        (Node.AddP Node.top
          (Node.Load (Node.AddP Node.top Node.ThreadLocal (Node.ConX 56))
            (some Ty.TypeRawPtr_NOTNULL) .T_ADDRESS AliasIdxRaw)
          (Node.Parm 30))
        (Node.Parm 7) 8) .Op_StoreP).1 = true :=
  ((C23_escape_store_suppressed exampleHost []
      (Node.Store (Node.Parm 102)
        (Node.AddP Node.top
          (Node.Load (Node.AddP Node.top Node.ThreadLocal (Node.ConX 56))
            (some Ty.TypeRawPtr_NOTNULL) .T_ADDRESS AliasIdxRaw)
          (Node.Parm 30))
        (Node.Parm 7) 8)).2.2 (by decide)
    (by
      intro t ht
      have : t = ⟨true, 56⟩ := by
        simp [exampleHost, Node.in_, MemNode_Address, AddPNode.Offset] at ht
        exact ht.symm
      subst this
      decide)).mpr
    ⟨rfl, rfl, rfl, rfl, rfl, ⟨true, 56⟩, rfl, rfl, rfl⟩

end EscapeAnalysis

section Signatures
open ShenandoahBarrierSetC2

/-- C24: the three call signatures. `write_ref_field_pre_entry_Type` has two parameters,
an instance pointer and then a raw pointer (the thread), and no result;
`shenandoah_clone_barrier_Type` has one parameter, an instance pointer, and no result;
`shenandoah_load_reference_barrier_Type` has one parameter and one result, both instance
pointers. -/
theorem C24_call_signatures :
    (write_ref_field_pre_entry_Type.domain.cnt = TypeFunc.Parms + 2 ∧
      write_ref_field_pre_entry_Type.domain.fields
        = [Ty.TypeInstPtr_NOTNULL, Ty.TypeRawPtr_NOTNULL] ∧
      write_ref_field_pre_entry_Type.range.cnt = TypeFunc.Parms ∧
      write_ref_field_pre_entry_Type.range.fields = []) ∧
    (shenandoah_clone_barrier_Type.domain.cnt = TypeFunc.Parms + 1 ∧
      shenandoah_clone_barrier_Type.domain.fields = [Ty.TypeInstPtr_NOTNULL] ∧
      shenandoah_clone_barrier_Type.range.cnt = TypeFunc.Parms ∧
      shenandoah_clone_barrier_Type.range.fields = []) ∧
    (shenandoah_load_reference_barrier_Type.domain.cnt = TypeFunc.Parms + 1 ∧
      shenandoah_load_reference_barrier_Type.domain.fields = [Ty.TypeInstPtr_NOTNULL] ∧
      shenandoah_load_reference_barrier_Type.range.cnt = TypeFunc.Parms + 1 ∧
      shenandoah_load_reference_barrier_Type.range.fields = [Ty.TypeInstPtr_NOTNULL]) := by
  decide

end Signatures

section OffsetTest
open ShenandoahBarrierSetC2

/-- The offset test of the walk for a store of at most `BytesPerLong` bytes: the bytes of
the store and the bytes of the slot are disjoint. -/
theorem offsets_independent_disjoint (H : Host) (offset size_in_bytes st_offset m : Int)
    (hm : m ≤ BytesPerLong)
    (h : offsets_independent H offset size_in_bytes st_offset m) :
    ¬ ∃ x : Int, (st_offset ≤ x ∧ x < st_offset + m) ∧ (offset ≤ x ∧ x < offset + size_in_bytes) := by
  unfold offsets_independent at h
  unfold BytesPerLong at hm h
  rintro ⟨x, ⟨h1, h2⟩, h3, h4⟩
  obtain ⟨_, _, h5 | h5 | h5⟩ := h <;> omega

/-- C25, at the input where the code departs from it: the slot of eight bytes at offset
16 and a store of 16 bytes at offset 8. The store passes the offset test, by the
comparison with `MAX_STORE`, although the byte at offset 16 belongs to both ranges; the
walk steps over the store, reaches the initialization of the same allocation, and
`satb_can_remove_pre_barrier` returns true. -/
theorem C25_offset_test_store_above_max_store :
    offsets_independent exampleHost 16 8 8 16 ∧
    ((8 : Int) ≤ 16 ∧ (16 : Int) < 8 + 16) ∧ ((16 : Int) ≤ 16 ∧ (16 : Int) < 16 + 8) ∧
    exampleHost.memory exampleKit 9
      = Node.Store (Node.Proj (Node.Initialize 0) 2)
          (Node.AddP (Node.Parm 0) (Node.Parm 0) (Node.ConX 8)) (Node.Parm 5) 16 ∧
    satb_can_remove_pre_barrier exampleHost exampleKit exampleAccess.addr_node .T_OBJECT 9
      = true := by
  decide

end OffsetTest

section ArrayCopy
open ShenandoahBarrierSetC2

/-- C28: `array_copy_requires_gc_barriers` returns true if and only if the element type
is `T_OBJECT` or `T_ARRAY` and either the destination is a tightly coupled allocation,
the phase is not `Optimization` and the copy is no clone, or the destination is not
tightly coupled and the phase is not `Optimization` or `ShenandoahStoreValEnqueueBarrier`
is off. It returns false for every other element type and for every tightly coupled
copy in the phase `Optimization`. -/
theorem C28_array_copy_requires_gc_barriers (F : Flags) (tightly_coupled_alloc : Bool)
    (type : BasicType) (is_clone : Bool) (phase : ArrayCopyPhase) :
    (array_copy_requires_gc_barriers F tightly_coupled_alloc type is_clone phase = true ↔
      ((type = .T_OBJECT ∨ type = .T_ARRAY) ∧
        ((tightly_coupled_alloc = true ∧ phase ≠ .Optimization ∧ is_clone = false) ∨
         (tightly_coupled_alloc = false ∧
           (phase ≠ .Optimization ∨ F.ShenandoahStoreValEnqueueBarrier = false))))) ∧
    (¬(type = .T_OBJECT ∨ type = .T_ARRAY) →
      array_copy_requires_gc_barriers F tightly_coupled_alloc type is_clone phase = false) ∧
    (tightly_coupled_alloc = true → phase = .Optimization →
      array_copy_requires_gc_barriers F tightly_coupled_alloc type is_clone phase = false) := by
  unfold array_copy_requires_gc_barriers
  refine ⟨?_, ?_, ?_⟩
  · cases tightly_coupled_alloc <;> cases is_clone <;> cases phase <;>
      cases F.ShenandoahStoreValEnqueueBarrier <;> cases type <;> simp
  · intro h
    simp [h]
  · intro h1 h2
    simp [h1, h2]

/-- Witness of C28: no barrier is required for an array of `int`, nor for a tightly
coupled copy of objects during optimization. -/
theorem C28_array_copy_requires_gc_barriers_witness :
    array_copy_requires_gc_barriers exampleFlags false .T_INT false .Parsing = false ∧
    array_copy_requires_gc_barriers exampleFlags true .T_OBJECT false .Optimization = false :=
  ⟨(C28_array_copy_requires_gc_barriers exampleFlags false .T_INT false .Parsing).2.1
      (by decide),
   (C28_array_copy_requires_gc_barriers exampleFlags true .T_OBJECT false .Optimization).2.2
      rfl rfl⟩

end ArrayCopy

section ExtraInput
open ShenandoahBarrierSetC2

theorem has_only_shenandoah_wb_pre_uses_iff (fast_outs : Node → List Node) (n : Node) :
    has_only_shenandoah_wb_pre_uses fast_outs n = true ↔
      (fast_outs n ≠ [] ∧ ∀ u ∈ fast_outs n, is_shenandoah_wb_pre_call u = true) := by
  unfold has_only_shenandoah_wb_pre_uses
  simp only [Bool.and_eq_true, List.all_eq_true, decide_eq_true_eq, List.length_pos]
  tauto

theorem ideal_node_peepholes_of_call (H : Host) (phase : PhaseGVN) (n : Node)
    (can_reshape : Bool) (hcall : is_shenandoah_wb_pre_call n = true) :
    ideal_node_peepholes H phase n can_reshape = some (Node.NULL, phase) := by
  have hop : n.Opcode = .Op_CallLeaf := by
    cases n <;> simp [is_shenandoah_wb_pre_call] at hcall <;> rfl
  unfold ideal_node_peepholes
  rw [if_neg (by rw [hop]; decide), if_neg (by rw [hop]; simp)]

/-- C26: for an SATB slow-path call `n` with more inputs than the parameter count of
its signature, `ideal_node` deletes the extra input and returns the call, then with
exactly the inputs of its signature, if the address node that is the extra input has at
least one use and all its uses are SATB slow-path calls (with reshaping allowed, in an
iterative phase, it also pushes the address node on the worklist); otherwise `ideal_node`
returns `NULL` and changes nothing, and `final_graph_reshaping` deletes the one extra
input, so that the call has exactly the inputs of its signature, and returns false. -/
theorem C26_extra_input_cleanup (F : Flags) (H : Host) (fast_outs : Node → List Node)
    (phase : PhaseGVN) (n : Node) (can_reshape : Bool)
    (hcall : is_shenandoah_wb_pre_call n = true)
    (hreq : n.req > write_ref_field_pre_entry_Type.domain.cnt) :
    (has_only_shenandoah_wb_pre_uses fast_outs
        (n.in_ write_ref_field_pre_entry_Type.domain.cnt) = true ↔
      (fast_outs (n.in_ write_ref_field_pre_entry_Type.domain.cnt) ≠ [] ∧
        ∀ u ∈ fast_outs (n.in_ write_ref_field_pre_entry_Type.domain.cnt),
          is_shenandoah_wb_pre_call u = true)) ∧
    (has_only_shenandoah_wb_pre_uses fast_outs
        (n.in_ write_ref_field_pre_entry_Type.domain.cnt) = true →
      (n.del_req write_ref_field_pre_entry_Type.domain.cnt).req
        = write_ref_field_pre_entry_Type.domain.cnt ∧
      (can_reshape = false →
        ideal_node H fast_outs phase n can_reshape
          = some (n.del_req write_ref_field_pre_entry_Type.domain.cnt, phase)) ∧
      (∀ igvn, can_reshape = true → phase.is_IterGVN = some igvn →
        ideal_node H fast_outs phase n can_reshape
          = some (n.del_req write_ref_field_pre_entry_Type.domain.cnt,
              ⟨some { igvn with _worklist := igvn._worklist ++
                [n.in_ write_ref_field_pre_entry_Type.domain.cnt] }⟩))) ∧
    (has_only_shenandoah_wb_pre_uses fast_outs
        (n.in_ write_ref_field_pre_entry_Type.domain.cnt) = false →
      ideal_node H fast_outs phase n can_reshape = some (Node.NULL, phase) ∧
      final_graph_reshaping F H fast_outs n .Op_CallLeaf
        = some (false, n.del_req write_ref_field_pre_entry_Type.domain.cnt) ∧
      (n.del_req write_ref_field_pre_entry_Type.domain.cnt).req
        = write_ref_field_pre_entry_Type.domain.cnt) := by
  have hshape : ∃ e nm p0 p1 x, n = Node.CallLeaf e nm p0 p1 x ∧ x ≠ Node.NULL := by
    cases n <;> simp [is_shenandoah_wb_pre_call] at hcall
    · rename_i e nm p0 p1 x
      refine ⟨e, nm, p0, p1, x, rfl, ?_⟩
      intro hx
      subst hx
      simp [Node.req, write_ref_field_pre_entry_Type, TypeFunc.Parms] at hreq
    · simp [Node.req, write_ref_field_pre_entry_Type, TypeFunc.Parms] at hreq
  obtain ⟨e, nm, p0, p1, x, rfl, hx⟩ := hshape
  have hdel : ((Node.CallLeaf e nm p0 p1 x).del_req
      write_ref_field_pre_entry_Type.domain.cnt).req
        = write_ref_field_pre_entry_Type.domain.cnt := by
    simp [Node.del_req, Node.req, write_ref_field_pre_entry_Type, TypeFunc.Parms]
  have hreq1 : (Node.CallLeaf e nm p0 p1 x).req
      = write_ref_field_pre_entry_Type.domain.cnt + 1 := by
    simp [Node.req, hx, write_ref_field_pre_entry_Type, TypeFunc.Parms]
  refine ⟨has_only_shenandoah_wb_pre_uses_iff fast_outs _, ?_, ?_⟩
  · intro honly
    refine ⟨hdel, ?_, ?_⟩
    · intro hcr
      unfold ideal_node
      simp only [hcall, if_true, hreq, honly, hcr, Bool.false_eq_true, if_false]
    · intro igvn hcr hphase
      unfold ideal_node
      simp only [hcall, if_true, hreq, honly, hcr, hphase]
  · intro honly
    refine ⟨?_, ?_, hdel⟩
    · unfold ideal_node
      simp only [hcall, if_true, hreq, honly, Bool.false_eq_true, if_false]
      exact ideal_node_peepholes_of_call H phase _ can_reshape hcall
    · unfold final_graph_reshaping
      have hc : (Node.CallLeaf e nm p0 p1 x).is_Call = true := rfl
      simp only [true_or, if_true, hc, Bool.true_eq_false, if_false, hcall, hreq, hreq1,
        ne_eq, not_true_eq_false, honly]
      simp

/-- Witness of C26: an SATB slow-path call with an address as extra input. When the
call is the only use of the address, `ideal_node` deletes the input; when the address
has another use, a store, `final_graph_reshaping` does. -/
theorem C26_extra_input_cleanup_witness :
    ideal_node exampleHost
        (fun _ => [Node.CallLeaf .write_ref_field_pre_entry "shenandoah_wb_pre"
          (Node.Parm 7) Node.ThreadLocal exampleAccess.addr_node])
        ⟨none⟩
        (Node.CallLeaf .write_ref_field_pre_entry "shenandoah_wb_pre" (Node.Parm 7)
          Node.ThreadLocal exampleAccess.addr_node) false
      = some (Node.CallLeaf .write_ref_field_pre_entry "shenandoah_wb_pre" (Node.Parm 7)
          Node.ThreadLocal Node.NULL, ⟨none⟩) ∧
    final_graph_reshaping exampleFlags exampleHost
        (fun _ => [Node.CallLeaf .write_ref_field_pre_entry "shenandoah_wb_pre"
            (Node.Parm 7) Node.ThreadLocal exampleAccess.addr_node,
          Node.Store (Node.Parm 102) exampleAccess.addr_node (Node.Parm 8) 8])
        (Node.CallLeaf .write_ref_field_pre_entry "shenandoah_wb_pre" (Node.Parm 7)
          Node.ThreadLocal exampleAccess.addr_node) .Op_CallLeaf
      = some (false, Node.CallLeaf .write_ref_field_pre_entry "shenandoah_wb_pre"
          (Node.Parm 7) Node.ThreadLocal Node.NULL) :=
  ⟨((C26_extra_input_cleanup exampleFlags exampleHost
      (fun _ => [Node.CallLeaf .write_ref_field_pre_entry "shenandoah_wb_pre"
        (Node.Parm 7) Node.ThreadLocal exampleAccess.addr_node])
      ⟨none⟩
      (Node.CallLeaf .write_ref_field_pre_entry "shenandoah_wb_pre" (Node.Parm 7)
        Node.ThreadLocal exampleAccess.addr_node) false rfl (by decide)).2.1
        (by decide)).2.1 rfl,
   ((C26_extra_input_cleanup exampleFlags exampleHost
      (fun _ => [Node.CallLeaf .write_ref_field_pre_entry "shenandoah_wb_pre"
          (Node.Parm 7) Node.ThreadLocal exampleAccess.addr_node,
        Node.Store (Node.Parm 102) exampleAccess.addr_node (Node.Parm 8) 8])
      ⟨none⟩
      (Node.CallLeaf .write_ref_field_pre_entry "shenandoah_wb_pre" (Node.Parm 7)
        Node.ThreadLocal exampleAccess.addr_node) false rfl (by decide)).2.2
        (by decide)).2.1⟩

/-- C27, at the input where the code departs from it: the comparison of two load
reference barriers on the null constant, each of the null-constant type. Input 1 has the
null-constant type, so input 2 is stepped over; the value input of input 2 has the
null-constant type, so input 1 is stepped over as well; both differ from the inputs of
the comparison, and the assertion "only one change" fails. -/
theorem C27_both_inputs_stepped_over :
    exampleHost.bottom_type (Node.ShenandoahLoadReferenceBarrier Node.NULL Node.ConP_null)
      = Ty.NULL_PTR ∧
    exampleHost.bottom_type
        (step_over_gc_barrier (Node.ShenandoahLoadReferenceBarrier Node.NULL Node.ConP_null))
      = Ty.NULL_PTR ∧
    step_over_gc_barrier (Node.ShenandoahLoadReferenceBarrier Node.NULL Node.ConP_null)
      ≠ Node.ShenandoahLoadReferenceBarrier Node.NULL Node.ConP_null ∧
    ideal_node exampleHost (fun _ => []) ⟨some ⟨[], [], [], []⟩⟩
        (Node.CmpP (Node.ShenandoahLoadReferenceBarrier Node.NULL Node.ConP_null)
          (Node.ShenandoahLoadReferenceBarrier Node.NULL Node.ConP_null)) true
      = none := by
  decide

end ExtraInput

end Shenandoah
